import Mathlib

/-!
# GWidgetSuite: the dashboard widget (src/dashboard.cpp)

A shallow embedding of the calendar-and-task engine of `CombinedDashboardWidget`:
the `struct tm` cursor and its normalisation by `mktime`, the two line-oriented
stores, the draw loop of the calendar grid, the pointer handlers and the two
popup editors.

Modelling conventions.

* `std::string` is a list of characters.
* C `int` is `Int`; no value of the widget comes near the 32-bit limits.
* Pointer coordinates (`gdouble`) are rationals and the arithmetic on them is
  exact.  Inside the guarded ranges of the handlers the double subtraction is
  exact and the correctly rounded quotient has the same integer part as the
  exact one, so the conversion to `int` yields the same index.
* `mktime` is the libc function.  It reads the date, the time of day and the
  flag `tm_isdst` of the broken-down time, converts them to an instant with the
  offset of the time zone of the process, and writes back the local time of
  that instant.  The rules of the zone are kept with the state of the widget
  (`State.zone`): no handler changes them.  A broken-down time whose flag
  disagrees with the zone at the instant it names comes back shifted by the
  daylight-saving amount, which can move it across midnight.
* GTK calls that only paint, resize or move the window have no effect on the
  modelled state.

The function `formatTime` of the weather widget (src/weather.cpp) is embedded
in the namespace `Weather`.
-/

namespace Dashboard

/-! ## Data model -/

/-- The type of `std::string` values. -/
abbrev Str := List Char

/-- The record `struct CalendarNote`. -/
structure CalendarNote where
  date : Str
  message : Str
  is_important : Bool
  deriving DecidableEq, Repr

/-- The record `struct TodoItem`. -/
structure TodoItem where
  text : Str
  completed : Bool
  time : Str
  deriving DecidableEq, Repr

/-- The fields of `struct tm` that `mktime` or the widget reads: years since
1900, month 0..11, day of the month, day of the week (0 = Sunday), hour, minute,
second, and the daylight-saving flag (positive: in effect, zero: not in effect,
negative: unknown). The fields `tm_yday`, `tm_gmtoff` and `tm_zone` are written
by libc and read by nobody. -/
structure Tm where
  tm_year : Int
  tm_mon : Int
  tm_mday : Int
  tm_wday : Int
  tm_hour : Int
  tm_min : Int
  tm_sec : Int
  tm_isdst : Int
  deriving DecidableEq, Repr

/-- The rules of the time zone of the process, as libc holds them: `gmtoff` is
the offset of standard time from UTC in seconds, `save` the seconds that
daylight saving adds to it, `dst` the periods of daylight saving as half-open
intervals of instants (seconds since the epoch). A zone without daylight saving
has `save = 0` and no period. -/
structure Zone where
  gmtoff : Int
  save : Int
  dst : List (Int × Int)
  deriving DecidableEq, Repr

/-! ## Configuration constants and layout dimensions -/

def WIDGET_SPACING : Int := 12
def total_width : Int := 380
def calendar_height : Int := 260
def base_todo_height : Int := 120
def item_height : Int := 35

/-! ## The libc functions `localtime_r` and `mktime` -/

/-- Serial day number (days since 1970-01-01) of the proleptic Gregorian date
`y`-`m`-`d`, with `m` in 1..12 and `d` any integer offset into the month. -/
def days_from_civil (y m d : Int) : Int :=
  let y1 := if m ≤ 2 then y - 1 else y
  let era := y1 / 400
  let yoe := y1 - era * 400
  let doy := (153 * (if m > 2 then m - 3 else m + 9) + 2) / 5 + d - 1
  let doe := yoe * 365 + yoe / 4 - yoe / 100 + doy
  era * 146097 + doe - 719468

/-- The Gregorian date (year, month 1..12, day) of a serial day number. -/
def civil_from_days (z0 : Int) : Int × Int × Int :=
  let z := z0 + 719468
  let era := z / 146097
  let doe := z - era * 146097
  let yoe := (doe - doe / 1460 + doe / 36524 - doe / 146096) / 365
  let y := yoe + era * 400
  let doy := doe - (365 * yoe + yoe / 4 - yoe / 100)
  let mp := (5 * doy + 2) / 153
  let d := doy - (153 * mp + 2) / 5 + 1
  let m := if mp < 10 then mp + 3 else mp - 9
  (if m ≤ 2 then y + 1 else y, m, d)

/-- The serial day number that `mktime` computes for a broken-down time: the
month is first carried into the year, the day of the month is an offset from
day 1 of that month. -/
def tmSerial (t : Tm) : Int :=
  days_from_civil (t.tm_year + 1900 + t.tm_mon / 12) (t.tm_mon % 12 + 1) 1 + (t.tm_mday - 1)

/-- Whether daylight saving is in effect in the zone at the instant `t`. -/
def Zone.isdst (z : Zone) (t : Int) : Bool :=
  z.dst.any (fun p => decide (p.1 ≤ t ∧ t < p.2))

/-- The offset of the zone from UTC in seconds, with or without daylight saving. -/
def Zone.offset (z : Zone) (dst : Bool) : Int :=
  if dst then z.gmtoff + z.save else z.gmtoff

/-- The time of day of a broken-down time in seconds; the three fields may be
out of their ranges. -/
def timeOfDay (t : Tm) : Int := t.tm_hour * 3600 + t.tm_min * 60 + t.tm_sec

/-- The seconds from the epoch to the broken-down time read as a time of UTC. -/
def tmSeconds (t : Tm) : Int := tmSerial t * 86400 + timeOfDay t

/-- The function `localtime_r`: the broken-down local time of the instant `t`
(1970-01-01 was a Thursday). -/
def localtime_r (z : Zone) (t : Int) : Tm :=
  let dst := z.isdst t
  let l := t + z.offset dst
  let days := l / 86400
  let rem := l % 86400
  let c := civil_from_days days
  { tm_year := c.1 - 1900, tm_mon := c.2.1 - 1, tm_mday := c.2.2, tm_wday := (days + 4) % 7,
    tm_hour := rem / 3600, tm_min := rem % 3600 / 60, tm_sec := rem % 60,
    tm_isdst := if dst then 1 else 0 }

/-- The offset `mktime` reads a broken-down time with: the daylight-saving
offset for a positive `tm_isdst`, the standard offset for zero. For a negative
flag libc finds out itself, here from the instant that standard time gives; the
widget never passes a negative flag, its cursors come from `localtime_r` and
`mktime`. -/
def tmDst (z : Zone) (t : Tm) : Bool :=
  if t.tm_isdst > 0 then true
  else if t.tm_isdst = 0 then false
  else z.isdst (tmSeconds t - z.gmtoff)

/-- The function `mktime(&t)` as used by the widget, which ignores the returned
`time_t`: the fields are read as a local time with the offset that `tm_isdst`
asks for, and replaced by the local time of that instant. When the zone is not
in the state the flag says, the time of day comes back shifted by `save`. -/
def mktime (z : Zone) (t : Tm) : Tm :=
  localtime_r z (tmSeconds t - z.offset (tmDst z t))

/-! ## Persistence: `loadNotes`, `loadTodos`, `saveNotes`, `saveTodos` -/

/-- Characters up to the first `delim` and the characters after it. -/
def splitDelim (delim : Char) : Str → Str × Str
  | [] => ([], [])
  | c :: cs =>
    if c = delim then ([], cs)
    else ((c :: (splitDelim delim cs).1), (splitDelim delim cs).2)

/-- The call `std::getline(stream, field, delim)` on a stream whose unread
input is `s`: it fails when nothing is left to read, otherwise it yields the
characters before the first delimiter (or all of them) and the unread rest. -/
def getline (delim : Char) (s : Str) : Option (Str × Str) :=
  match s with
  | [] => none
  | _ :: _ => some (splitDelim delim s)

/-- The body of the `while` loop of `loadNotes` for one line. -/
def parseNoteLine (line : Str) : Option CalendarNote :=
  match getline '|' line with
  | none => none
  | some (date, r1) =>
    match getline '|' r1 with
    | none => none
    | some (important_str, r2) =>
      match getline '\n' r2 with
      | none => none
      | some (message, _) =>
        some { date := date, message := message, is_important := decide (important_str = ['1']) }

/-- The body of the `while` loop of `loadTodos` for one line. -/
def parseTodoLine (line : Str) : Option TodoItem :=
  match getline '|' line with
  | none => none
  | some (completed_str, r1) =>
    match getline '|' r1 with
    | none => none
    | some (time_str, r2) =>
      match getline '\n' r2 with
      | none => none
      | some (text, _) =>
        some { text := text, completed := decide (completed_str = ['1']), time := time_str }

/-- The loop `while (std::getline(file, line))` of `loadNotes`; `fuel` bounds
the number of iterations. -/
def loadNotesLoop : Nat → Str → List CalendarNote → List CalendarNote
  | 0, _, notes => notes
  | fuel + 1, file, notes =>
    match getline '\n' file with
    | none => notes
    | some (line, rest) =>
      if line.isEmpty then loadNotesLoop fuel rest notes
      else
        match parseNoteLine line with
        | some note => loadNotesLoop fuel rest (notes ++ [note])
        | none => loadNotesLoop fuel rest notes

/-- The function `loadNotes` on the content of the notes file (a missing file
reads as the empty content). Every iteration consumes a character, so the
length of the content bounds the loop. -/
def loadNotes (file : Str) : List CalendarNote :=
  loadNotesLoop (file.length + 1) file []

/-- The loop `while (std::getline(file, line))` of `loadTodos`. -/
def loadTodosLoop : Nat → Str → List TodoItem → List TodoItem
  | 0, _, todos => todos
  | fuel + 1, file, todos =>
    match getline '\n' file with
    | none => todos
    | some (line, rest) =>
      if line.isEmpty then loadTodosLoop fuel rest todos
      else
        match parseTodoLine line with
        | some todo => loadTodosLoop fuel rest (todos ++ [todo])
        | none => loadTodosLoop fuel rest todos

/-- The function `loadTodos` on the content of the tasks file. -/
def loadTodos (file : Str) : List TodoItem :=
  loadTodosLoop (file.length + 1) file []

/-- The text `saveNotes` writes: one line per note. -/
def saveNotes : List CalendarNote → Str
  | [] => []
  | note :: rest =>
    note.date ++ ['|'] ++ (if note.is_important then ['1'] else ['0']) ++ ['|'] ++ note.message
      ++ ['\n'] ++ saveNotes rest

/-- The text `saveTodos` writes: one line per task. -/
def saveTodos : List TodoItem → Str
  | [] => []
  | todo :: rest =>
    (if todo.completed then ['1'] else ['0']) ++ ['|'] ++ todo.time ++ ['|'] ++ todo.text
      ++ ['\n'] ++ saveTodos rest

/-! ## Dates as text: `formatDate` -/

/-- Two decimal digits, zero padded: the conversions `%m` and `%d`. -/
def pad2 (n : Int) : Str :=
  if n < 10 then '0' :: Nat.toDigits 10 n.toNat else Nat.toDigits 10 n.toNat

/-- The year as a decimal number: the conversion `%Y`. -/
def fmtYear (y : Int) : Str :=
  if y < 0 then '-' :: Nat.toDigits 10 (-y).toNat else Nat.toDigits 10 y.toNat

/-- The function `formatDate`: `strftime` with the format `%Y-%m-%d`. -/
def formatDate (date : Tm) : Str :=
  fmtYear (date.tm_year + 1900) ++ ['-'] ++ pad2 (date.tm_mon + 1) ++ ['-'] ++ pad2 date.tm_mday

/-! ## The widget state -/

/-- The fields of `CombinedDashboardWidget` that the engine reads and writes.
The pointers `window`, `note_entry` and `todo_entry` are kept as "is not null";
the two store files are kept by their content, and `zone` holds the time zone
of the process that the calls of `mktime` read. -/
structure State where
  zone : Zone
  window : Bool
  note_entry : Bool
  todo_entry : Bool
  current_date : Tm
  display_date : Tm
  notes : List CalendarNote
  selected_date_str : Str
  showing_note_popup : Bool
  hover_day : Int
  todos : List TodoItem
  showing_todo_popup : Bool
  hover_todo_item : Int
  total_height : Int
  notes_file : Str
  todos_file : Str
  deriving DecidableEq, Repr

/-- The function `hasNoteForDate`. -/
def hasNoteForDate (notes : List CalendarNote) (date : Str) : Bool :=
  notes.any (fun note => decide (note.date = date))

/-- The function `getNoteForDate`: the message of the first note of the date. -/
def getNoteForDate : List CalendarNote → Str → Str
  | [], _ => []
  | note :: rest, date => if note.date = date then note.message else getNoteForDate rest date

/-- The height computed by the constructor and by `updateWindowSize`. -/
def computeHeight (todos : List TodoItem) : Int :=
  let visible_items := max 0 (min 8 (todos.length : Int))
  let todo_content_height := base_todo_height + visible_items * item_height
  calendar_height + todo_content_height + 2 * WIDGET_SPACING

/-- The function `updateWindowSize`. -/
def updateWindowSize (s : State) : State :=
  if s.window = false then s
  else { s with total_height := computeHeight s.todos }

/-- The function `navigateMonth`. -/
def navigateMonth (s : State) (direction : Int) : State :=
  let d1 : Tm := { s.display_date with tm_mon := s.display_date.tm_mon + direction }
  let d2 : Tm :=
    if d1.tm_mon > 11 then { d1 with tm_mon := 0, tm_year := d1.tm_year + 1 }
    else if d1.tm_mon < 0 then { d1 with tm_mon := 11, tm_year := d1.tm_year - 1 }
    else d1
  { s with display_date := mktime s.zone d2 }

/-! ## Calendar geometry -/

/-- The local `first_day` of the draw, hover and click paths:
`first_day = display_date; first_day.tm_mday = 1; mktime(&first_day)`. -/
def firstDay (z : Zone) (display_date : Tm) : Tm :=
  mktime z { display_date with tm_mday := 1 }

/-- The local `next_month` of the draw, hover and click paths after its two
normalisations: increment the month with rollover, set day 1, `mktime`, set
day 0, `mktime`. -/
def nextMonth (z : Zone) (display_date : Tm) : Tm :=
  let n0 : Tm := { display_date with tm_mon := display_date.tm_mon + 1 }
  let n1 : Tm := if n0.tm_mon > 11 then { n0 with tm_mon := 0, tm_year := n0.tm_year + 1 } else n0
  let n2 : Tm := mktime z { n1 with tm_mday := 1 }
  mktime z { n2 with tm_mday := 0 }

/-- The value `first_weekday = first_day.tm_wday`. -/
def firstWeekday (z : Zone) (display_date : Tm) : Int := (firstDay z display_date).tm_wday

/-- The value `days_in_month = next_month.tm_mday`. -/
def daysInMonth (z : Zone) (display_date : Tm) : Int := (nextMonth z display_date).tm_mday

/-- A day number painted by `drawCalendarCard` with the origin of its cell. -/
structure DayCell where
  day : Int
  dx : Int
  dy : Int
  deriving DecidableEq, Repr

/-- The loop `for (day_pos = 0; day_pos < 42 && current_day <= days_in_month; day_pos++)`
of `drawCalendarCard`; the first argument counts the positions left below 42.
The position is never negative, so `%` and `/` are the C operators. -/
def drawDaysLoop (cal_start_x cal_start_y cell_width cell_height first_weekday days_in_month : Int) :
    Nat → Int → Int → List DayCell
  | 0, _, _ => []
  | left + 1, day_pos, current_day =>
    if current_day ≤ days_in_month then
      if day_pos ≥ first_weekday then
        let col := day_pos % 7
        let row := day_pos / 7
        { day := current_day, dx := cal_start_x + col * cell_width,
          dy := cal_start_y + 20 + row * cell_height } ::
          drawDaysLoop cal_start_x cal_start_y cell_width cell_height first_weekday days_in_month
            left (day_pos + 1) (current_day + 1)
      else
        drawDaysLoop cal_start_x cal_start_y cell_width cell_height first_weekday days_in_month
          left (day_pos + 1) current_day
    else []

/-- The day cells that `drawCalendarCard(cr, x, y, w, h)` paints for the
displayed month. -/
def drawCalendarDays (z : Zone) (display_date : Tm) (x y w : Int) : List DayCell :=
  let header_height : Int := 40
  let cal_start_x := x + 20
  let cal_start_y := y + header_height + 10
  let cell_width := Int.tdiv (w - 40) 7
  let cell_height : Int := 28
  drawDaysLoop cal_start_x cal_start_y cell_width cell_height
    (firstWeekday z display_date) (daysInMonth z display_date) 42 0 1

/-- Conversion of a `double` to `int`: truncation toward zero. -/
def truncToInt (q : ℚ) : Int := Int.tdiv q.num q.den

/-- The calendar branch of `on_motion_notify`: the day under the pointer, if any. -/
def hoverDay (z : Zone) (display_date : Tm) (ex ey : ℚ) : Option Int :=
  let cal_start_x : Int := 20
  let cal_start_y : Int := 70
  let cell_width : Int := (total_width - 40) / 7
  let cell_height : Int := 28
  if ex ≥ cal_start_x ∧ ex ≤ cal_start_x + 7 * cell_width ∧
      ey ≥ cal_start_y ∧ ey ≤ cal_start_y + 6 * cell_height then
    let col := truncToInt ((ex - cal_start_x) / cell_width)
    let row := truncToInt ((ey - cal_start_y) / cell_height)
    if col ≥ 0 ∧ col < 7 ∧ row ≥ 0 then
      let day_pos := row * 7 + col
      let clicked_day := day_pos - (firstDay z display_date).tm_wday + 1
      if clicked_day > 0 then
        if clicked_day ≤ (nextMonth z display_date).tm_mday then some clicked_day else none
      else none
    else none
  else none

/-- The grid branch of `on_button_press` ("Calendar grid clicks"): the day
whose note editor the click opens, if any. -/
def clickDay (z : Zone) (display_date : Tm) (ex ey : ℚ) : Option Int :=
  let cal_start_x : Int := 20
  let cal_start_y : Int := 70
  let cell_width : Int := (total_width - 40) / 7
  let cell_height : Int := 28
  if ex ≥ cal_start_x ∧ ex ≤ cal_start_x + 7 * cell_width ∧
      ey ≥ cal_start_y ∧ ey ≤ cal_start_y + 6 * cell_height then
    let col := truncToInt ((ex - cal_start_x) / cell_width)
    let row := truncToInt ((ey - cal_start_y) / cell_height)
    if col ≥ 0 ∧ col < 7 ∧ row ≥ 0 then
      let day_pos := row * 7 + col
      let clicked_day := day_pos - (firstDay z display_date).tm_wday + 1
      if clicked_day > 0 then
        if clicked_day ≤ (nextMonth z display_date).tm_mday then some clicked_day else none
      else none
    else none
  else none

/-! ## Pointer handlers -/

/-- The function `on_leave_notify`. -/
def on_leave_notify (s : State) : State :=
  { s with hover_day := -1, hover_todo_item := -1 }

/-- The function `on_motion_notify` for a pointer at `(ex, ey)`. -/
def on_motion_notify (s : State) (ex ey : ℚ) : State :=
  if s.showing_note_popup || s.showing_todo_popup then s
  else
    let s1 : State := { s with hover_day := -1, hover_todo_item := -1 }
    if ey ≤ calendar_height then
      match hoverDay s.zone s.display_date ex ey with
      | some clicked_day => { s1 with hover_day := clicked_day }
      | none => s1
    else
      let todo_start_y : Int := calendar_height + WIDGET_SPACING
      if ey ≥ todo_start_y + 55 ∧ ¬ s.todos.isEmpty then
        let item_y : Int := todo_start_y + 55
        let hovered_item := truncToInt ((ey - item_y) / item_height)
        if hovered_item ≥ 0 ∧ hovered_item < (s.todos.length : Int) ∧ hovered_item < 8 then
          { s1 with hover_todo_item := hovered_item }
        else s1
      else s1

/-- What a left click resolves to in `on_button_press`. -/
inductive Action where
  | navigate (direction : Int)
  | openNote (clicked_day : Int)
  | openTodo
  | toggle (clicked_item : Int)
  | delete (clicked_item : Int)
  | drag
  deriving DecidableEq, Repr

/-- The decision tree of `on_button_press` for `event->button == 1` with no
popup open: the branch taken for a click at `(ex, ey)`. Falling through to
"Default drag behavior" is `drag`. -/
def clickAction (s : State) (ex ey : ℚ) : Action :=
  let calendar_end_y : Int := calendar_height
  let todo_start_y : Int := calendar_end_y + WIDGET_SPACING
  if ey ≤ calendar_end_y then
    if ey ≤ 40 then
      if ex < 50 then Action.navigate (-1)
      else if ex > ((total_width - 50 : Int) : ℚ) then Action.navigate 1
      else Action.drag
    else
      match clickDay s.zone s.display_date ex ey with
      | some clicked_day => Action.openNote clicked_day
      | none => Action.drag
  else if ey ≥ todo_start_y then
    if ex ≥ ((total_width - 50 : Int) : ℚ) ∧ ey ≤ ((todo_start_y + 50 : Int) : ℚ) then Action.openTodo
    else if ¬ s.todos.isEmpty then
      let item_y : Int := todo_start_y + 55
      let clicked_item := truncToInt ((ey - item_y) / item_height)
      if clicked_item ≥ 0 ∧ clicked_item < (s.todos.length : Int) ∧ clicked_item < 8 then
        if ex ≥ 20 ∧ ex ≤ 44 then Action.toggle clicked_item
        else if ex ≥ ((total_width - 35 : Int) : ℚ) ∧ ex ≤ ((total_width - 15 : Int) : ℚ) then
          if clicked_item < (s.todos.length : Int) then Action.delete clicked_item
          else Action.drag
        else Action.drag
      else Action.drag
    else Action.drag
  else Action.drag

/-- The function `showNotePopup`. -/
def showNotePopup (s : State) (date : Str) : State :=
  { s with selected_date_str := date, showing_note_popup := true, note_entry := true }

/-- The function `showTodoPopup`. -/
def showTodoPopup (s : State) : State :=
  { s with showing_todo_popup := true, todo_entry := true }

/-- The function `hideNotePopup`. -/
def hideNotePopup (s : State) : State :=
  { s with showing_note_popup := false }

/-- The function `hideTodoPopup`. -/
def hideTodoPopup (s : State) : State :=
  { s with showing_todo_popup := false }

/-- The statement `todos[clicked_item].completed = !todos[clicked_item].completed`. -/
def toggleCompleted (todos : List TodoItem) (clicked_item : Nat) : List TodoItem :=
  match todos.get? clicked_item with
  | some todo => todos.set clicked_item { todo with completed := !todo.completed }
  | none => todos

/-- The effect of the branch of `on_button_press` that a click resolved to. -/
def applyAction (s : State) : Action → State
  | Action.navigate direction => navigateMonth s direction
  | Action.openNote clicked_day =>
    let clicked_tm := mktime s.zone { s.display_date with tm_mday := clicked_day }
    showNotePopup s (formatDate clicked_tm)
  | Action.openTodo => showTodoPopup s
  | Action.toggle clicked_item =>
    let todos := toggleCompleted s.todos clicked_item.toNat
    { s with todos := todos, todos_file := saveTodos todos }
  | Action.delete clicked_item =>
    let todos := s.todos.eraseIdx clicked_item.toNat
    updateWindowSize { s with todos := todos, todos_file := saveTodos todos }
  | Action.drag => s

/-- The function `on_button_press` for a press of `button` at `(ex, ey)`. -/
def on_button_press (s : State) (button : Nat) (ex ey : ℚ) : State :=
  if s.showing_note_popup || s.showing_todo_popup then s
  else if button = 1 then applyAction s (clickAction s ex ey)
  else s

/-! ## The popup editors -/

/-- The function `on_save_note`; `message` is the text of the entry. -/
def on_save_note (s : State) (message : Str) : State :=
  if s.note_entry = false then s
  else if ¬ message.isEmpty then
    let kept := s.notes.filter (fun note => !decide (note.date = s.selected_date_str))
    let new_note : CalendarNote :=
      { date := s.selected_date_str, message := message, is_important := false }
    let notes := kept ++ [new_note]
    hideNotePopup { s with notes := notes, notes_file := saveNotes notes }
  else
    let notes := s.notes.filter (fun note => !decide (note.date = s.selected_date_str))
    hideNotePopup { s with notes := notes, notes_file := saveNotes notes }

/-- The function `on_save_todo`; `task` is the text of the entry. -/
def on_save_todo (s : State) (task : Str) : State :=
  if s.todo_entry = false then s
  else if ¬ task.isEmpty then
    let new_todo : TodoItem := { text := task, completed := false, time := [] }
    let todos := new_todo :: s.todos
    hideTodoPopup (updateWindowSize { s with todos := todos, todos_file := saveTodos todos })
  else hideTodoPopup s

/-- The function `on_cancel_note`. -/
def on_cancel_note (s : State) : State := hideNotePopup s

/-- The function `on_cancel_todo`. -/
def on_cancel_todo (s : State) : State := hideTodoPopup s

/-- The function `update_display`, the one-second tick; `now` is the local time read. -/
def update_display (s : State) (now : Tm) : State :=
  if s.window = false then s else { s with current_date := now }

/-! ## Construction and the event loop -/

/-- The constructor `CombinedDashboardWidget()`: `zone` is the time zone of the
process, `now` the local time that `localtime_r` stored for the clock reading,
the other two arguments are the contents of the store files. -/
def construct (zone : Zone) (now : Tm) (notes_file todos_file : Str) : State :=
  let notes := loadNotes notes_file
  let todos := loadTodos todos_file
  { zone := zone, window := false, note_entry := false, todo_entry := false,
    current_date := now, display_date := now,
    notes := notes, selected_date_str := [], showing_note_popup := false, hover_day := -1,
    todos := todos, showing_todo_popup := false, hover_todo_item := -1,
    total_height := computeHeight todos,
    notes_file := notes_file, todos_file := todos_file }

/-- The part of `run` before `gtk_main`: the window is created. -/
def run (s : State) : State := { s with window := true }

/-- The events that GTK delivers to the widget. The editor events reach the
handlers only through the widgets of the popup that is open. -/
inductive Event where
  | button_press (button : Nat) (ex ey : ℚ)
  | motion (ex ey : ℚ)
  | leave
  | tick (now : Tm)
  | save_note (message : Str)
  | cancel_note
  | save_todo (task : Str)
  | cancel_todo

/-- Whether the event can be delivered in the state: the buttons and the entry
of an editor exist only while that editor is shown. -/
def Event.enabled (s : State) : Event → Bool
  | Event.save_note _ => s.showing_note_popup
  | Event.cancel_note => s.showing_note_popup
  | Event.save_todo _ => s.showing_todo_popup
  | Event.cancel_todo => s.showing_todo_popup
  | _ => true

/-- The handler that runs for an event. -/
def step (s : State) : Event → State
  | Event.button_press button ex ey => on_button_press s button ex ey
  | Event.motion ex ey => on_motion_notify s ex ey
  | Event.leave => on_leave_notify s
  | Event.tick now => update_display s now
  | Event.save_note message => on_save_note s message
  | Event.cancel_note => on_cancel_note s
  | Event.save_todo task => on_save_todo s task
  | Event.cancel_todo => on_cancel_todo s

/-- The states that follow `s0` by any sequence of deliverable events. -/
inductive ReachableFrom (s0 : State) : State → Prop where
  | start : ReachableFrom s0 s0
  | next (s : State) (e : Event) :
      ReachableFrom s0 s → e.enabled s = true → ReachableFrom s0 (step s e)

/-- The states the running widget can be in: the constructed state with its
window, for some time zone, some clock reading and some store contents,
followed by any sequence of deliverable events. -/
def Reachable (s : State) : Prop :=
  ∃ (zone : Zone) (now : Tm) (notes_file todos_file : Str),
    ReachableFrom (run (construct zone now notes_file todos_file)) s

/-- At most one note per date. -/
def UniqueDates (notes : List CalendarNote) : Prop :=
  (notes.map (fun note => note.date)).Nodup

/-- The state `Idle` of the edit state machine: no popup is shown. -/
def Idle (s : State) : Prop :=
  s.showing_note_popup = false ∧ s.showing_todo_popup = false

/-! ## The calendar of the specification -/

/-- The Gregorian length of month `mon` (0 = January .. 11 = December) of the
year `year`, in the words of the specification: February has 29 days exactly
when the year is divisible by 4 and not by 100, or divisible by 400, otherwise
28; April, June, September and November have 30 days; the others 31. -/
def gregorianLength (year mon : Int) : Int :=
  if mon = 1 then
    if (year % 4 = 0 ∧ year % 100 ≠ 0) ∨ year % 400 = 0 then 29 else 28
  else if mon = 3 ∨ mon = 5 ∨ mon = 8 ∨ mon = 10 then 30
  else 31


/-! ## The store format, for the statements about persistence -/

/-- The line that `saveNotes` writes for one note, without the newline. -/
def noteLine (note : CalendarNote) : Str :=
  note.date ++ ['|'] ++ (if note.is_important then ['1'] else ['0']) ++ ['|'] ++ note.message

/-- The line that `saveTodos` writes for one task, without the newline. -/
def todoLine (todo : TodoItem) : Str :=
  (if todo.completed then ['1'] else ['0']) ++ ['|'] ++ todo.time ++ ['|'] ++ todo.text

/-- A note that survives a save and a load: no delimiter in the date, no
newline in any field, a message that is not empty. -/
def NoteStorable (note : CalendarNote) : Prop :=
  '|' ∉ note.date ∧ '\n' ∉ note.date ∧ '\n' ∉ note.message ∧ note.message ≠ []

/-- A task that survives a save and a load. -/
def TodoStorable (todo : TodoItem) : Prop :=
  '|' ∉ todo.time ∧ '\n' ∉ todo.time ∧ '\n' ∉ todo.text ∧ todo.text ≠ []

/-! ## Lines of a store file and the pre-filled editor text -/

/-- The lines of a file content: the texts between the newline characters,
the text after the last newline (possibly empty) included. -/
def splitLines : Str → List Str
  | [] => [[]]
  | c :: cs =>
    if c = '\n' then [] :: splitLines cs
    else
      match splitLines cs with
      | [] => [[c]]
      | l :: ls => (c :: l) :: ls

/-- The text that lines 918-922 of `showNotePopup` leave in the entry of the
note editor opened for `date`: the existing note of the date if it is not
empty, otherwise the empty text of the new entry. -/
def prefillText (s : State) (date : Str) : Str :=
  let existing_note := getNoteForDate s.notes date
  if ¬ existing_note.isEmpty then existing_note else []

/-! ## Calendar dates -/

/-- A broken-down time that names a day of the calendar and a time of that
day: month 0..11, a day of the month that the month has, hour 0..23, minute and
second 0..59. The display cursor is always one: it is copied from `localtime_r`
and rewritten only by `mktime`. -/
def ValidDate (t : Tm) : Prop :=
  0 ≤ t.tm_mon ∧ t.tm_mon ≤ 11 ∧ 1 ≤ t.tm_mday ∧
    t.tm_mday ≤ gregorianLength (t.tm_year + 1900) t.tm_mon ∧
    0 ≤ t.tm_hour ∧ t.tm_hour ≤ 23 ∧ 0 ≤ t.tm_min ∧ t.tm_min ≤ 59 ∧
    0 ≤ t.tm_sec ∧ t.tm_sec ≤ 59

/-- The time of day of `t` stays within its day when `mktime` moves it between
standard time and daylight saving: the flag `tm_isdst` is known, and a time
flagged as daylight saving is at least `save` after midnight, a time flagged as
standard time is more than `save` before the next midnight. In a zone without
daylight saving (`save = 0`) every time of day with a known flag does. -/
def KeepsDay (z : Zone) (t : Tm) : Prop :=
  0 ≤ t.tm_isdst ∧ 0 ≤ timeOfDay t ∧ timeOfDay t < 86400 ∧
    (if t.tm_isdst > 0 then 0 ≤ timeOfDay t - z.save ∧ timeOfDay t - z.save < 86400
     else 0 ≤ timeOfDay t + z.save ∧ timeOfDay t + z.save < 86400)

/-- Whether the event is a gesture in a popup editor (confirm or cancel). -/
def Event.isEditor : Event → Bool
  | Event.save_note _ => true
  | Event.cancel_note => true
  | Event.save_todo _ => true
  | Event.cancel_todo => true
  | _ => false

/-- The state after the handlers of a sequence of events have run in order. -/
def runEvents (s : State) (es : List Event) : State :=
  es.foldl step s

/-- The text entered with the event contains no newline character. -/
def Event.textClean : Event → Prop
  | Event.save_note message => '\n' ∉ message
  | Event.save_todo task => '\n' ∉ task
  | _ => True

/-- The state holds only records that survive a save and a load, the date of
the note editor is free of delimiters and newlines, and each store file loads
to the collection in memory. -/
def CleanStore (s : State) : Prop :=
  (∀ note ∈ s.notes, NoteStorable note) ∧ (∀ todo ∈ s.todos, TodoStorable todo) ∧
    '|' ∉ s.selected_date_str ∧ '\n' ∉ s.selected_date_str ∧
    loadNotes s.notes_file = s.notes ∧ loadTodos s.todos_file = s.todos

/-! ## Example data -/

/-- A zone without daylight saving: UTC. -/
def utc : Zone := { gmtoff := 0, save := 0, dst := [] }

/-- The local time 2024-02-15 12:00:00, a Thursday, standard time. -/
def feb15 : Tm := ⟨124, 1, 15, 4, 12, 0, 0, 0⟩

/-- The local time 2023-01-31 12:00:00, a Tuesday, standard time. -/
def jan31 : Tm := ⟨123, 0, 31, 2, 12, 0, 0, 0⟩

/-- The local time 2023-03-31 12:00:00, a Friday, standard time. -/
def mar31 : Tm := ⟨123, 2, 31, 5, 12, 0, 0, 0⟩

/-- Ten tasks with the texts a to j, the task list of the scenario "task list
has 10 items" of the specification. -/
def tenTasks : List TodoItem :=
  ['a', 'b', 'c', 'd', 'e', 'f', 'g', 'h', 'i', 'j'].map
    (fun c => ({ text := [c], completed := false, time := [] } : TodoItem))

/-- The running widget whose task store holds `tenTasks`. -/
def tenTasksState : State :=
  run (construct utc feb15 [] (saveTodos tenTasks))

/-- The hover field points at no task or at a visible task of the list. -/
def HoverInRange (s : State) : Prop :=
  s.hover_todo_item = -1 ∨
    (0 ≤ s.hover_todo_item ∧ s.hover_todo_item < min (s.todos.length : Int) 8)

/-- The running widget whose task store holds the single task a. -/
def oneTaskState : State :=
  run (construct utc feb15 [] ['0', '|', '|', 'a', '\n'])

end Dashboard

namespace Weather

/-! # The weather widget (src/weather.cpp): `formatTime` -/

/-- The type of `std::string` values. -/
abbrev Str := List Char

/-- The call `s.substr(pos, len)`, for `pos` within the string. -/
def substr (s : Str) (pos len : Nat) : Str := (s.drop pos).take len

/-- The call `s.substr(pos)`, for `pos` within the string. -/
def substrFrom (s : Str) (pos : Nat) : Str := s.drop pos

/-- The C function `isspace` in the "C" locale. -/
def isSpace (c : Char) : Bool :=
  c = ' ' || c = Char.ofNat 9 || c = Char.ofNat 10 || c = Char.ofNat 11 || c = Char.ofNat 12 ||
    c = Char.ofNat 13

/-- The value of a run of decimal digits. -/
def digitsValue (ds : Str) : Int :=
  ds.foldl (fun acc c => 10 * acc + ((c.toNat : Int) - 48)) 0

/-- The call `std::stoi(s)`: leading white space, an optional sign and the
longest run of digits; `none` stands for the exception thrown when there is no
digit. At most two characters are passed, so the value fits an `int`. -/
def stoi (s : Str) : Option Int :=
  let s1 := s.dropWhile isSpace
  match s1 with
  | '-' :: r =>
    if r.takeWhile Char.isDigit = [] then none else some (- digitsValue (r.takeWhile Char.isDigit))
  | '+' :: r =>
    if r.takeWhile Char.isDigit = [] then none else some (digitsValue (r.takeWhile Char.isDigit))
  | _ =>
    if s1.takeWhile Char.isDigit = [] then none else some (digitsValue (s1.takeWhile Char.isDigit))

/-- The conversion `%02d` of `snprintf`. -/
def fmt02d (n : Int) : Str :=
  if n < 0 then '-' :: Nat.toDigits 10 (-n).toNat
  else if n < 10 then '0' :: Nat.toDigits 10 n.toNat
  else Nat.toDigits 10 n.toNat

/-- The function `WeatherWidget::formatTime`; `none` stands for the exception
of `std::stoi`. The buffer of `snprintf` holds 7 characters. -/
def formatTime (time_str : Str) : Option Str :=
  if time_str.length ≥ 8 then
    let time_part := substr time_str 0 5
    let ampm := substrFrom time_str 6
    match stoi (substr time_part 0 2) with
    | none => none
    | some hour0 =>
      let minute := substr time_part 3 2
      let hour : Int :=
        if ampm = ['P', 'M'] ∧ hour0 ≠ 12 then hour0 + 12
        else if ampm = ['A', 'M'] ∧ hour0 = 12 then 0
        else hour0
      some ((fmt02d hour ++ [':'] ++ minute).take 7)
  else some time_str

/-- Two decimal digits of a number below 100, zero padded. -/
def twoDigits (n : Nat) : Str := [Nat.digitChar (n / 10), Nat.digitChar (n % 10)]

/-- The hour 0..23 of the 12-hour clock reading `hh` (1..12) before noon
(`pm = false`) or after noon (`pm = true`), in the words of the claim: 12 AM is
0, hh AM is hh, 12 PM is 12, hh PM is hh + 12. -/
def hour24 (hh : Nat) (pm : Bool) : Nat :=
  if pm then (if hh = 12 then 12 else hh + 12) else (if hh = 12 then 0 else hh)

/-- The well-formed 12-hour text "hh:mm AM" or "hh:mm PM". -/
def time12 (hh mm : Nat) (pm : Bool) : Str :=
  twoDigits hh ++ [':'] ++ twoDigits mm ++ [' '] ++ (if pm then ['P', 'M'] else ['A', 'M'])

end Weather

namespace Dashboard

/-! # Theorems -/

/-! ## The serial day number and the calendar date -/

theorem yoe_of_doe (yoe doy doe : Int) (h0 : 0 ≤ yoe) (h1 : yoe < 400)
    (hd0 : 0 ≤ doy) (hd1 : doy < 366)
    (hl : doy = 365 → ((yoe + 1) % 4 = 0 ∧ ((yoe + 1) % 100 ≠ 0 ∨ (yoe + 1) % 400 = 0)))
    (hdoe : doe = yoe * 365 + yoe / 4 - yoe / 100 + doy) :
    (doe - doe / 1460 + doe / 36524 - doe / 146096) / 365 = yoe := by
  have he : yoe / 100 = 0 ∨ yoe / 100 = 1 ∨ yoe / 100 = 2 ∨ yoe / 100 = 3 := by omega
  have hr : yoe % 4 = 0 ∨ yoe % 4 = 1 ∨ yoe % 4 = 2 ∨ yoe % 4 = 3 := by omega
  have hf : doe / 146096 = 0 ∨ doe / 146096 = 1 := by omega
  have hg : doe / 36524 = 0 ∨ doe / 36524 = 1 ∨ doe / 36524 = 2 ∨ doe / 36524 = 3 ∨
      doe / 36524 = 4 := by omega
  have hd : doe / 1460 = yoe / 4 ∨ doe / 1460 = yoe / 4 + 1 ∨ doe / 1460 = yoe / 4 - 1 := by
    rcases he with he | he | he | he <;> rcases hr with hr | hr | hr | hr <;> omega
  rcases he with he | he | he | he <;> rcases hr with hr | hr | hr | hr <;>
    rcases hd with hd | hd | hd <;> rcases hg with hg | hg | hg | hg | hg <;>
    rcases hf with hf | hf <;> omega

theorem civil_from_days_core (era yoe doy : Int) (h0 : 0 ≤ yoe) (h1 : yoe < 400)
    (hd0 : 0 ≤ doy) (hd1 : doy < 366)
    (hl : doy = 365 → ((yoe + 1) % 4 = 0 ∧ ((yoe + 1) % 100 ≠ 0 ∨ (yoe + 1) % 400 = 0))) :
    civil_from_days (era * 146097 + (yoe * 365 + yoe / 4 - yoe / 100 + doy) - 719468) =
      (if (if (5 * doy + 2) / 153 < 10 then (5 * doy + 2) / 153 + 3 else (5 * doy + 2) / 153 - 9) ≤ 2
        then yoe + era * 400 + 1 else yoe + era * 400,
       if (5 * doy + 2) / 153 < 10 then (5 * doy + 2) / 153 + 3 else (5 * doy + 2) / 153 - 9,
       doy - (153 * ((5 * doy + 2) / 153) + 2) / 5 + 1) := by
  have hdoe : (era * 146097 + (yoe * 365 + yoe / 4 - yoe / 100 + doy) - 719468 + 719468)
      = era * 146097 + (yoe * 365 + yoe / 4 - yoe / 100 + doy) := by ring
  have hb0 : 0 ≤ yoe * 365 + yoe / 4 - yoe / 100 + doy := by omega
  have hb1 : yoe * 365 + yoe / 4 - yoe / 100 + doy < 146097 := by omega
  have hera : (era * 146097 + (yoe * 365 + yoe / 4 - yoe / 100 + doy)) / 146097 = era := by
    omega
  have hy := yoe_of_doe yoe doy _ h0 h1 hd0 hd1 hl rfl
  unfold civil_from_days
  simp only [hdoe, hera]
  have hsub : era * 146097 + (yoe * 365 + yoe / 4 - yoe / 100 + doy) - era * 146097
      = yoe * 365 + yoe / 4 - yoe / 100 + doy := by ring
  simp only [hsub, hy]
  have hdoy : yoe * 365 + yoe / 4 - yoe / 100 + doy - (365 * yoe + yoe / 4 - yoe / 100) = doy := by
    ring
  simp only [hdoy]

theorem civil_of_march_based (y1 mp k : Int) (hmp0 : 0 ≤ mp) (hmp1 : mp ≤ 11) (hk0 : 0 ≤ k)
    (hk : k < (if mp = 11 then
        (if ((y1 + 1) % 4 = 0 ∧ (y1 + 1) % 100 ≠ 0) ∨ (y1 + 1) % 400 = 0 then 29 else 28)
      else if mp = 1 ∨ mp = 3 ∨ mp = 6 ∨ mp = 8 then 30 else 31)) :
    civil_from_days ((y1 / 400) * 146097 +
        ((y1 - y1 / 400 * 400) * 365 + (y1 - y1 / 400 * 400) / 4 - (y1 - y1 / 400 * 400) / 100 +
          ((153 * mp + 2) / 5 + k)) - 719468) =
      (if mp < 10 then y1 else y1 + 1, if mp < 10 then mp + 3 else mp - 9, k + 1) := by
  have hm : mp = 0 ∨ mp = 1 ∨ mp = 2 ∨ mp = 3 ∨ mp = 4 ∨ mp = 5 ∨ mp = 6 ∨ mp = 7 ∨ mp = 8 ∨
      mp = 9 ∨ mp = 10 ∨ mp = 11 := by omega
  have hy0 : 0 ≤ y1 - y1 / 400 * 400 := by omega
  have hy1 : y1 - y1 / 400 * 400 < 400 := by omega
  have hk31 : k ≤ 30 := by split_ifs at hk <;> omega
  have hk30 : mp = 1 ∨ mp = 3 ∨ mp = 6 ∨ mp = 8 → k ≤ 29 := by
    intro h; split_ifs at hk <;> omega
  have hk29 : mp = 11 → k ≤ 28 := by
    intro h; split_ifs at hk <;> omega
  have hk28 : mp = 11 → k = 28 →
      ((y1 + 1) % 4 = 0 ∧ (y1 + 1) % 100 ≠ 0) ∨ (y1 + 1) % 400 = 0 := by
    intro h h28
    by_contra hc
    rw [if_pos h, if_neg hc] at hk
    omega
  have hq : (5 * ((153 * mp + 2) / 5 + k) + 2) / 153 = mp := by omega
  rw [civil_from_days_core (y1 / 400) (y1 - y1 / 400 * 400) ((153 * mp + 2) / 5 + k) hy0 hy1
    (by omega) (by omega) (by
      intro h365
      have h11 : mp = 11 := by omega
      have h28 : k = 28 := by omega
      have := hk28 h11 h28
      omega)]
  rw [hq]
  have e1 : y1 - y1 / 400 * 400 + y1 / 400 * 400 = y1 := by ring
  have e3 : (153 * mp + 2) / 5 + k - (153 * mp + 2) / 5 + 1 = k + 1 := by ring
  rw [e1, e3]
  rcases hm with h | h | h | h | h | h | h | h | h | h | h | h <;> subst h <;> simp

theorem civil_of_serial (y mon k : Int) (h0 : 0 ≤ mon) (h1 : mon ≤ 11) (hk0 : 0 ≤ k)
    (hk : k < gregorianLength y mon) :
    civil_from_days (days_from_civil y (mon + 1) 1 + k) = (y, mon + 1, k + 1) := by
  by_cases hm : mon ≤ 1
  · have key := civil_of_march_based (y - 1) (mon + 10) k (by omega) (by omega) hk0 (by
      unfold gregorianLength at hk
      split_ifs at hk ⊢ <;> omega)
    have e : days_from_civil y (mon + 1) 1 + k = (y - 1) / 400 * 146097 +
        ((y - 1 - (y - 1) / 400 * 400) * 365 + (y - 1 - (y - 1) / 400 * 400) / 4 -
          (y - 1 - (y - 1) / 400 * 400) / 100 + ((153 * (mon + 10) + 2) / 5 + k)) - 719468 := by
      simp only [days_from_civil, if_pos (show mon + 1 ≤ 2 by omega),
        if_neg (show ¬ (mon + 1 > 2) by omega)]
      omega
    rw [e, key]
    simp only [if_neg (show ¬ (mon + 10 < 10) by omega)]
    refine Prod.ext (by simp) (Prod.ext (by simp; omega) (by simp))
  · have key := civil_of_march_based y (mon - 2) k (by omega) (by omega) hk0 (by
      unfold gregorianLength at hk
      split_ifs at hk ⊢ <;> omega)
    have e : days_from_civil y (mon + 1) 1 + k = y / 400 * 146097 +
        ((y - y / 400 * 400) * 365 + (y - y / 400 * 400) / 4 -
          (y - y / 400 * 400) / 100 + ((153 * (mon - 2) + 2) / 5 + k)) - 719468 := by
      simp only [days_from_civil, if_neg (show ¬ (mon + 1 ≤ 2) by omega),
        if_pos (show mon + 1 > 2 by omega)]
      omega
    rw [e, key]
    simp only [if_pos (show mon - 2 < 10 by omega)]
    refine Prod.ext (by simp) (Prod.ext (by simp; omega) (by simp))

theorem gregorianLength_bounds (y mon : Int) :
    28 ≤ gregorianLength y mon ∧ gregorianLength y mon ≤ 31 := by
  unfold gregorianLength
  split_ifs <;> omega

theorem days_from_civil_next (y mon : Int) (h0 : 0 ≤ mon) (h1 : mon ≤ 11) :
    days_from_civil y (mon + 1) 1 + gregorianLength y mon =
      if mon = 11 then days_from_civil (y + 1) 1 1 else days_from_civil y (mon + 2) 1 := by
  have hm : mon = 0 ∨ mon = 1 ∨ mon = 2 ∨ mon = 3 ∨ mon = 4 ∨ mon = 5 ∨ mon = 6 ∨ mon = 7 ∨
      mon = 8 ∨ mon = 9 ∨ mon = 10 ∨ mon = 11 := by omega
  rcases hm with h | h | h | h | h | h | h | h | h | h | h | h <;> subst h <;>
    simp [days_from_civil, gregorianLength] <;> omega

theorem tmSerial_of_mon (t : Tm) (h0 : 0 ≤ t.tm_mon) (h1 : t.tm_mon ≤ 11) :
    tmSerial t = days_from_civil (t.tm_year + 1900) (t.tm_mon + 1) 1 + (t.tm_mday - 1) := by
  unfold tmSerial
  have e1 : t.tm_mon / 12 = 0 := by omega
  have e2 : t.tm_mon % 12 = t.tm_mon := by omega
  rw [e1, e2, add_zero]

theorem civil_of_valid (t : Tm) (h0 : 0 ≤ t.tm_mon) (h1 : t.tm_mon ≤ 11) (hd0 : 1 ≤ t.tm_mday)
    (hd1 : t.tm_mday ≤ gregorianLength (t.tm_year + 1900) t.tm_mon) :
    civil_from_days (tmSerial t) = (t.tm_year + 1900, t.tm_mon + 1, t.tm_mday) := by
  have hc := civil_of_serial (t.tm_year + 1900) t.tm_mon (t.tm_mday - 1) h0 h1 (by omega)
    (by omega)
  rw [tmSerial_of_mon t h0 h1, hc, sub_add_cancel]

theorem localtime_r_wday_range (z : Zone) (u : Int) :
    0 ≤ (localtime_r z u).tm_wday ∧ (localtime_r z u).tm_wday ≤ 6 := by
  unfold localtime_r
  simp only
  omega

theorem localtime_r_mday_range (z : Zone) (u : Int) :
    1 ≤ (localtime_r z u).tm_mday ∧ (localtime_r z u).tm_mday ≤ 31 := by
  unfold localtime_r civil_from_days
  simp only
  omega

theorem localtime_r_isdst (z : Zone) (u : Int) :
    (localtime_r z u).tm_isdst = if z.isdst u then 1 else 0 := rfl

theorem mktime_isdst_range (z : Zone) (t : Tm) :
    (mktime z t).tm_isdst = 0 ∨ (mktime z t).tm_isdst = 1 := by
  unfold mktime
  rw [localtime_r_isdst]
  split_ifs <;> simp

theorem localtime_r_of_day (z : Zone) (u days r : Int)
    (h : u + z.offset (z.isdst u) = days * 86400 + r) (h0 : 0 ≤ r) (h1 : r < 86400) :
    localtime_r z u =
      { tm_year := (civil_from_days days).1 - 1900, tm_mon := (civil_from_days days).2.1 - 1,
        tm_mday := (civil_from_days days).2.2, tm_wday := (days + 4) % 7,
        tm_hour := r / 3600, tm_min := r % 3600 / 60, tm_sec := r % 60,
        tm_isdst := if z.isdst u then 1 else 0 } := by
  have e1 : (u + z.offset (z.isdst u)) / 86400 = days := by omega
  have e2 : (u + z.offset (z.isdst u)) % 86400 = r := by omega
  unfold localtime_r
  simp only [e1, e2]

theorem mktime_of_shift (z : Zone) (t : Tm) (r : Int)
    (hr : timeOfDay t - z.offset (tmDst z t)
      + z.offset (z.isdst (tmSeconds t - z.offset (tmDst z t))) = r)
    (h0 : 0 ≤ r) (h1 : r < 86400) :
    mktime z t =
      { tm_year := (civil_from_days (tmSerial t)).1 - 1900,
        tm_mon := (civil_from_days (tmSerial t)).2.1 - 1,
        tm_mday := (civil_from_days (tmSerial t)).2.2, tm_wday := (tmSerial t + 4) % 7,
        tm_hour := r / 3600, tm_min := r % 3600 / 60, tm_sec := r % 60,
        tm_isdst := if z.isdst (tmSeconds t - z.offset (tmDst z t)) then 1 else 0 } := by
  unfold mktime
  apply localtime_r_of_day z _ (tmSerial t) r _ h0 h1
  unfold tmSeconds at hr ⊢
  omega

theorem keepsDay_of_validDate (t : Tm) (hv : ValidDate t) (hf : 0 ≤ t.tm_isdst) (z : Zone)
    (hz : z.save = 0) : KeepsDay z t := by
  obtain ⟨_, _, _, _, a1, a2, a3, a4, a5, a6⟩ := hv
  unfold KeepsDay timeOfDay
  rw [hz]
  refine ⟨hf, by omega, by omega, ?_⟩
  split_ifs <;> omega

/-- The calendar fields that `mktime` writes when it confirms the flag
`tm_isdst` it was given: the date of the serial day. -/
theorem mktime_of_isdst_eq (z : Zone) (t : Tm) (hT0 : 0 ≤ timeOfDay t)
    (hT1 : timeOfDay t < 86400) (h : (mktime z t).tm_isdst = t.tm_isdst) :
    (mktime z t).tm_year = (civil_from_days (tmSerial t)).1 - 1900 ∧
      (mktime z t).tm_mon = (civil_from_days (tmSerial t)).2.1 - 1 ∧
      (mktime z t).tm_mday = (civil_from_days (tmSerial t)).2.2 := by
  have hi : (mktime z t).tm_isdst
      = if z.isdst (tmSeconds t - z.offset (tmDst z t)) then 1 else 0 := rfl
  rw [hi] at h
  have hm := mktime_of_shift z t (timeOfDay t) (by
    cases ha : z.isdst (tmSeconds t - z.offset (tmDst z t))
    · rw [ha] at h
      have hf : t.tm_isdst = 0 := by simpa using h.symm
      have hd : tmDst z t = false := by simp [tmDst, hf]
      rw [hd]; simp [Zone.offset]
    · rw [ha] at h
      have hf : t.tm_isdst = 1 := by simpa using h.symm
      have hd : tmDst z t = true := by simp [tmDst, hf]
      rw [hd]; simp [Zone.offset]) hT0 hT1
  rw [hm]
  exact ⟨rfl, rfl, rfl⟩

theorem truncToInt_of_nonneg (q : ℚ) (h : 0 ≤ q) : truncToInt q = ⌊q⌋ := by
  unfold truncToInt
  rw [Int.tdiv_eq_ediv (Rat.num_nonneg.2 h) (by exact_mod_cast Nat.zero_le _)]
  exact (Rat.floor_def' q).symm

theorem truncToInt_div_spec (x : ℚ) (a w : Int) (hw : 0 < w) (hx : (a : ℚ) ≤ x) :
    0 ≤ truncToInt ((x - a) / w) ∧ (a : ℚ) + w * truncToInt ((x - a) / w) ≤ x ∧
      x < (a : ℚ) + w * (truncToInt ((x - a) / w) + 1) := by
  have hwq : (0 : ℚ) < w := by exact_mod_cast hw
  have hq : (0 : ℚ) ≤ (x - a) / w := div_nonneg (by linarith) hwq.le
  rw [truncToInt_of_nonneg _ hq]
  have h1 := Int.floor_le ((x - a) / w)
  have h2 := Int.lt_floor_add_one ((x - a) / w)
  rw [le_div_iff₀ hwq] at h1
  rw [div_lt_iff₀ hwq] at h2
  refine ⟨Int.floor_nonneg.2 hq, by linarith, by linarith⟩

theorem truncToInt_div_eq (x : ℚ) (a w k : Int) (hw : 0 < w) (hk : 0 ≤ k)
    (h1 : (a : ℚ) + w * k ≤ x) (h2 : x < (a : ℚ) + w * (k + 1)) :
    truncToInt ((x - a) / w) = k := by
  have hwq : (0 : ℚ) < w := by exact_mod_cast hw
  have hkq : (0 : ℚ) ≤ k := by exact_mod_cast hk
  have hq : (0 : ℚ) ≤ (x - a) / w := div_nonneg (by nlinarith) hwq.le
  rw [truncToInt_of_nonneg _ hq, Int.floor_eq_iff, le_div_iff₀ hwq, div_lt_iff₀ hwq]
  constructor <;> linarith

/-! ## The calendar grid: hit-test and draw loop -/

theorem clickDay_unfold (z : Zone) (t : Tm) (ex ey : ℚ) :
    clickDay z t ex ey =
      if (20 : ℚ) ≤ ex ∧ ex ≤ 356 ∧ (70 : ℚ) ≤ ey ∧ ey ≤ 238 then
        if 0 ≤ truncToInt ((ex - ((20 : Int) : ℚ)) / ((48 : Int) : ℚ)) ∧
            truncToInt ((ex - ((20 : Int) : ℚ)) / ((48 : Int) : ℚ)) < 7 ∧
            0 ≤ truncToInt ((ey - ((70 : Int) : ℚ)) / ((28 : Int) : ℚ)) then
          if 0 < truncToInt ((ey - ((70 : Int) : ℚ)) / ((28 : Int) : ℚ)) * 7 +
              truncToInt ((ex - ((20 : Int) : ℚ)) / ((48 : Int) : ℚ)) - firstWeekday z t + 1 then
            if truncToInt ((ey - ((70 : Int) : ℚ)) / ((28 : Int) : ℚ)) * 7 +
                truncToInt ((ex - ((20 : Int) : ℚ)) / ((48 : Int) : ℚ)) - firstWeekday z t + 1
                ≤ daysInMonth z t then
              some (truncToInt ((ey - ((70 : Int) : ℚ)) / ((28 : Int) : ℚ)) * 7 +
                truncToInt ((ex - ((20 : Int) : ℚ)) / ((48 : Int) : ℚ)) - firstWeekday z t + 1)
            else none
          else none
        else none
      else none := by
  have hcw : (total_width - 40) / 7 = (48 : Int) := by decide
  simp only [clickDay, hcw, firstWeekday, daysInMonth, ge_iff_le, gt_iff_lt]
  norm_num

theorem mktime_wday_range (z : Zone) (t : Tm) :
    0 ≤ (mktime z t).tm_wday ∧ (mktime z t).tm_wday ≤ 6 :=
  localtime_r_wday_range z _

theorem mktime_mday_range (z : Zone) (t : Tm) :
    1 ≤ (mktime z t).tm_mday ∧ (mktime z t).tm_mday ≤ 31 :=
  localtime_r_mday_range z _

theorem firstWeekday_range (z : Zone) (t : Tm) :
    0 ≤ firstWeekday z t ∧ firstWeekday z t ≤ 6 :=
  mktime_wday_range z _

theorem daysInMonth_range (z : Zone) (t : Tm) : 1 ≤ daysInMonth z t ∧ daysInMonth z t ≤ 31 :=
  mktime_mday_range z _

theorem clickDay_eq_some_iff (z : Zone) (t : Tm) (ex ey : ℚ) (N : Int) :
    clickDay z t ex ey = some N ↔
      ∃ col row : Int, 0 ≤ col ∧ col < 7 ∧ 0 ≤ row ∧
        (20 : ℚ) + 48 * col ≤ ex ∧ ex < 20 + 48 * (col + 1) ∧
        (70 : ℚ) + 28 * row ≤ ey ∧ ey < 70 + 28 * (row + 1) ∧ ey ≤ 238 ∧
        N = row * 7 + col - firstWeekday z t + 1 ∧ 0 < N ∧ N ≤ daysInMonth z t := by
  rw [clickDay_unfold]
  constructor
  · intro h
    split_ifs at h with hg hc hp hd
    obtain ⟨hx0, hx1, hy0, hy1⟩ := hg
    have sx := truncToInt_div_spec ex 20 48 (by norm_num) (by exact_mod_cast hx0)
    have sy := truncToInt_div_spec ey 70 28 (by norm_num) (by exact_mod_cast hy0)
    have hN := Option.some.inj h
    rw [hN] at hp hd
    refine ⟨_, _, hc.1, hc.2.1, hc.2.2, ?_, ?_, ?_, ?_, hy1, hN.symm, hp, hd⟩
    · exact_mod_cast sx.2.1
    · exact_mod_cast sx.2.2
    · exact_mod_cast sy.2.1
    · exact_mod_cast sy.2.2
  · rintro ⟨col, row, hc0, hc1, hr0, hx0, hx1, hy0, hy1, hy2, hN, hp, hd⟩
    have hcq : (0 : ℚ) ≤ col := by exact_mod_cast hc0
    have hcq1 : (col : ℚ) ≤ 6 := by exact_mod_cast (show col ≤ 6 by omega)
    have hrq : (0 : ℚ) ≤ row := by exact_mod_cast hr0
    have ecol : truncToInt ((ex - ((20 : Int) : ℚ)) / ((48 : Int) : ℚ)) = col :=
      truncToInt_div_eq ex 20 48 col (by norm_num) hc0 (by exact_mod_cast hx0)
        (by exact_mod_cast hx1)
    have erow : truncToInt ((ey - ((70 : Int) : ℚ)) / ((28 : Int) : ℚ)) = row :=
      truncToInt_div_eq ey 70 28 row (by norm_num) hr0 (by exact_mod_cast hy0)
        (by exact_mod_cast hy1)
    rw [ecol, erow, if_pos ⟨by linarith, by linarith, by linarith, hy2⟩,
      if_pos ⟨hc0, hc1, hr0⟩, ← hN, if_pos hp, if_pos hd]

/-- Membership in the cells painted by the draw loop. -/
theorem mem_drawDaysLoop (sx sy cw ch fw dim : Int) (cell : DayCell) :
    ∀ (left : Nat) (pos cur : Int),
      cell ∈ drawDaysLoop sx sy cw ch fw dim left pos cur ↔
        ∃ p : Int, max pos fw ≤ p ∧ p < pos + left ∧ cell.day = cur + (p - max pos fw) ∧
          cell.day ≤ dim ∧ cell.dx = sx + p % 7 * cw ∧ cell.dy = sy + 20 + p / 7 * ch := by
  intro left
  induction left with
  | zero =>
    intro pos cur
    simp only [drawDaysLoop, List.not_mem_nil, false_iff, not_exists]
    intro p hp
    have := le_max_left pos fw
    omega
  | succ n ih =>
    intro pos cur
    unfold drawDaysLoop
    by_cases hcur : cur ≤ dim
    · rw [if_pos hcur]
      by_cases hpos : pos ≥ fw
      · rw [if_pos hpos, List.mem_cons, ih]
        have e1 : max pos fw = pos := max_eq_left hpos
        have e2 : max (pos + 1) fw = pos + 1 := max_eq_left (by omega)
        rw [e1, e2]
        constructor
        · rintro (h | ⟨p, h1, h2, h3, h4, h5, h6⟩)
          · subst h
            exact ⟨pos, le_refl _, by push_cast; omega, by simp, hcur, rfl, rfl⟩
          · exact ⟨p, by omega, by push_cast; omega, by omega, h4, h5, h6⟩
        · rintro ⟨p, h1, h2, h3, h4, h5, h6⟩
          by_cases hp : p = pos
          · left
            subst hp
            cases cell
            simp only [DayCell.mk.injEq]
            simp only at h3 h5 h6
            exact ⟨by omega, h5, h6⟩
          · right
            exact ⟨p, by omega, by push_cast at h2; omega, by omega, h4, h5, h6⟩
      · rw [if_neg hpos, ih]
        have e1 : max pos fw = fw := max_eq_right (by omega)
        have e2 : max (pos + 1) fw = fw := max_eq_right (by omega)
        rw [e1, e2]
        constructor
        · rintro ⟨p, h1, h2, h3, h4, h5, h6⟩
          exact ⟨p, h1, by push_cast; omega, h3, h4, h5, h6⟩
        · rintro ⟨p, h1, h2, h3, h4, h5, h6⟩
          exact ⟨p, h1, by push_cast at h2; omega, h3, h4, h5, h6⟩
    · rw [if_neg hcur]
      simp only [List.not_mem_nil, false_iff, not_exists]
      intro p hp
      omega

theorem mem_drawCalendarDays (z : Zone) (t : Tm) (cell : DayCell) :
    cell ∈ drawCalendarDays z t 0 0 380 ↔
      1 ≤ cell.day ∧ cell.day ≤ daysInMonth z t ∧
        cell.dx = 20 + (cell.day - 1 + firstWeekday z t) % 7 * 48 ∧
        cell.dy = 70 + (cell.day - 1 + firstWeekday z t) / 7 * 28 := by
  have hcw : Int.tdiv (380 - 40) 7 = 48 := by decide
  have hf := firstWeekday_range z t
  have hd := daysInMonth_range z t
  simp only [drawCalendarDays, hcw, mem_drawDaysLoop]
  have e1 : max 0 (firstWeekday z t) = firstWeekday z t := max_eq_right hf.1
  rw [e1]
  constructor
  · rintro ⟨p, h1, h2, h3, h4, h5, h6⟩
    have hp : cell.day - 1 + firstWeekday z t = p := by omega
    rw [hp]
    exact ⟨by omega, h4, by omega, by omega⟩
  · rintro ⟨h1, h2, h3, h4⟩
    exact ⟨cell.day - 1 + firstWeekday z t, by omega, by push_cast; omega, by omega, h2,
      by omega, by omega⟩

theorem clickAction_unfold (s : State) (ex ey : ℚ) :
    clickAction s ex ey =
      if ey ≤ 260 then
        if ey ≤ 40 then
          if ex < 50 then Action.navigate (-1)
          else if 330 < ex then Action.navigate 1
          else Action.drag
        else
          match clickDay s.zone s.display_date ex ey with
          | some clicked_day => Action.openNote clicked_day
          | none => Action.drag
      else if 272 ≤ ey then
        if 330 ≤ ex ∧ ey ≤ 322 then Action.openTodo
        else if s.todos = [] then Action.drag
        else if 0 ≤ truncToInt ((ey - 327) / 35) ∧
            truncToInt ((ey - 327) / 35) < (s.todos.length : Int) ∧
            truncToInt ((ey - 327) / 35) < 8 then
          if 20 ≤ ex ∧ ex ≤ 44 then Action.toggle (truncToInt ((ey - 327) / 35))
          else if 345 ≤ ex ∧ ex ≤ 365 then Action.delete (truncToInt ((ey - 327) / 35))
          else Action.drag
        else Action.drag
      else Action.drag := by
  simp only [clickAction, total_width, calendar_height, WIDGET_SPACING, item_height, ge_iff_le,
    gt_iff_lt, List.isEmpty_iff]
  norm_num
  split_ifs <;> first | rfl | (exfalso; omega)

theorem clickDay_none_of_outside (z : Zone) (t : Tm) (ex ey : ℚ)
    (h : ex < 20 ∨ 356 < ex ∨ ey < 70 ∨ 238 < ey) : clickDay z t ex ey = none := by
  rw [clickDay_unfold, if_neg]
  rintro ⟨h1, h2, h3, h4⟩
  rcases h with h | h | h | h <;> linarith

theorem clickAction_openNote_iff (s : State) (ex ey : ℚ) (N : Int) :
    clickAction s ex ey = Action.openNote N ↔ clickDay s.zone s.display_date ex ey = some N := by
  rw [clickAction_unfold]
  constructor
  · intro h
    split_ifs at h
    · cases hc : clickDay s.zone s.display_date ex ey with
      | none => rw [hc] at h; simp at h
      | some d => rw [hc] at h; simp at h; rw [h]
  · intro h
    have hy : (70 : ℚ) ≤ ey ∧ ey ≤ 238 := by
      by_contra hc
      rw [clickDay_none_of_outside s.zone s.display_date ex ey
        (by rcases not_and_or.1 hc with h1 | h1
            · exact Or.inr (Or.inr (Or.inl (lt_of_not_le h1)))
            · exact Or.inr (Or.inr (Or.inr (lt_of_not_le h1))))] at h
      simp at h
    rw [if_pos (by linarith), if_neg (by linarith), h]

/-! ## C3: days in month -/

theorem on_button_press_idle (s : State) (ex ey : ℚ)
    (hn : s.showing_note_popup = false) (ht : s.showing_todo_popup = false) :
    on_button_press s 1 ex ey = applyAction s (clickAction s ex ey) := by
  simp [on_button_press, hn, ht]

/-- C1: with the drawing width 380 (cell width 48, cell height 28, day-cell
origin (20, 70)), for every displayed month and every day N in 1..daysInMonth,
the layout draws N in the cell at column `pos mod 7`, row `pos div 7` with
`pos = N - 1 + firstWeekday`, and a left click at the centre of that cell is
resolved by the hit-test of `on_button_press` to exactly day N: the note editor
opens for day N of the displayed month. -/
theorem C1_cell_centre_resolves_to_its_day (s : State) (N : Int)
    (hn : s.showing_note_popup = false) (ht : s.showing_todo_popup = false)
    (h1 : 1 ≤ N) (h2 : N ≤ daysInMonth s.zone s.display_date) :
    (⟨N, 20 + (N - 1 + firstWeekday s.zone s.display_date) % 7 * 48,
        70 + (N - 1 + firstWeekday s.zone s.display_date) / 7 * 28⟩ : DayCell)
        ∈ drawCalendarDays s.zone s.display_date 0 0 total_width ∧
      clickDay s.zone s.display_date
        ((20 + (N - 1 + firstWeekday s.zone s.display_date) % 7 * 48 + 24 : Int) : ℚ)
        ((70 + (N - 1 + firstWeekday s.zone s.display_date) / 7 * 28 + 14 : Int) : ℚ) = some N ∧
      clickAction s
        ((20 + (N - 1 + firstWeekday s.zone s.display_date) % 7 * 48 + 24 : Int) : ℚ)
        ((70 + (N - 1 + firstWeekday s.zone s.display_date) / 7 * 28 + 14 : Int) : ℚ)
        = Action.openNote N ∧
      on_button_press s 1
        ((20 + (N - 1 + firstWeekday s.zone s.display_date) % 7 * 48 + 24 : Int) : ℚ)
        ((70 + (N - 1 + firstWeekday s.zone s.display_date) / 7 * 28 + 14 : Int) : ℚ)
        = showNotePopup s (formatDate (mktime s.zone { s.display_date with tm_mday := N })) := by
  have hf := firstWeekday_range s.zone s.display_date
  have hd := daysInMonth_range s.zone s.display_date
  have hclick : clickDay s.zone s.display_date
        ((20 + (N - 1 + firstWeekday s.zone s.display_date) % 7 * 48 + 24 : Int) : ℚ)
        ((70 + (N - 1 + firstWeekday s.zone s.display_date) / 7 * 28 + 14 : Int) : ℚ)
        = some N := by
    rw [clickDay_eq_some_iff]
    refine ⟨(N - 1 + firstWeekday s.zone s.display_date) % 7,
      (N - 1 + firstWeekday s.zone s.display_date) / 7,
      by omega, by omega, by omega, ?_, ?_, ?_, ?_, ?_, by omega, by omega, h2⟩
    · push_cast; linarith
    · push_cast; linarith
    · push_cast; linarith
    · push_cast; linarith
    · have : (70 + (N - 1 + firstWeekday s.zone s.display_date) / 7 * 28 + 14 : Int) ≤ 238 := by
        omega
      exact_mod_cast this
  have hact := (clickAction_openNote_iff s _ _ N).2 hclick
  refine ⟨?_, hclick, hact, ?_⟩
  · rw [show total_width = 380 from rfl, mem_drawCalendarDays]
    exact ⟨h1, h2, rfl, rfl⟩
  · rw [on_button_press_idle s _ _ hn ht, hact]
    rfl

theorem C1_witness :
    (run (construct utc feb15 [] [])).showing_note_popup = false ∧
      (run (construct utc feb15 [] [])).showing_todo_popup = false ∧ (1 : Int) ≤ 1 ∧
      1 ≤ daysInMonth utc (run (construct utc feb15 [] [])).display_date ∧
      clickAction (run (construct utc feb15 [] []))
        ((20 + (1 - 1 + firstWeekday utc (run (construct utc feb15 [] [])).display_date) % 7 * 48
          + 24 : Int) : ℚ)
        ((70 + (1 - 1 + firstWeekday utc (run (construct utc feb15 [] [])).display_date) / 7 * 28
          + 14 : Int) : ℚ) = Action.openNote 1 :=
  ⟨rfl, rfl, by decide, by decide,
    (C1_cell_centre_resolves_to_its_day (run (construct utc feb15 [] [])) 1 rfl rfl
      (by decide) (by decide)).2.2.1⟩

/-- C2: the calendar click hit-test is the geometric inverse of the layout.
A click yields day d only if 1 <= d <= daysInMonth and the point lies inside
the 48 by 28 rectangle of the cell where the layout draws d; every point of
that rectangle yields d; a point outside the 7-column by 6-row grid rectangle
[20, 356] x [70, 238] yields no day; and a point in a grid cell before day 1
or after the last day of the month yields no day. -/
theorem C2_hit_test_inverts_layout (s : State) (ex ey : ℚ) :
    (∀ d : Int, clickAction s ex ey = Action.openNote d →
      1 ≤ d ∧ d ≤ daysInMonth s.zone s.display_date ∧
        ∃ cell ∈ drawCalendarDays s.zone s.display_date 0 0 total_width,
          cell.day = d ∧ (cell.dx : ℚ) ≤ ex ∧ ex < cell.dx + 48 ∧
            (cell.dy : ℚ) ≤ ey ∧ ey < cell.dy + 28) ∧
    (∀ cell ∈ drawCalendarDays s.zone s.display_date 0 0 total_width,
      (cell.dx : ℚ) ≤ ex → ex < cell.dx + 48 → (cell.dy : ℚ) ≤ ey → ey < cell.dy + 28 →
        clickAction s ex ey = Action.openNote cell.day) ∧
    (ex < 20 ∨ 356 < ex ∨ ey < 70 ∨ 238 < ey →
      ∀ d : Int, clickAction s ex ey ≠ Action.openNote d) ∧
    (∀ col row : Int, 0 ≤ col → col < 7 → 0 ≤ row → row < 6 →
      (20 : ℚ) + 48 * col ≤ ex → ex < 20 + 48 * (col + 1) →
      (70 : ℚ) + 28 * row ≤ ey → ey < 70 + 28 * (row + 1) →
      (row * 7 + col < firstWeekday s.zone s.display_date ∨
        firstWeekday s.zone s.display_date + daysInMonth s.zone s.display_date
          ≤ row * 7 + col) →
      ∀ d : Int, clickAction s ex ey ≠ Action.openNote d) := by
  have hf := firstWeekday_range s.zone s.display_date
  have hd := daysInMonth_range s.zone s.display_date
  refine ⟨?_, ?_, ?_, ?_⟩
  · intro d h
    rw [clickAction_openNote_iff, clickDay_eq_some_iff] at h
    obtain ⟨col, row, hc0, hc1, hr0, hx0, hx1, hy0, hy1, hy2, hN, hp, hdim⟩ := h
    have e1 : (d - 1 + firstWeekday s.zone s.display_date) % 7 = col := by omega
    have e2 : (d - 1 + firstWeekday s.zone s.display_date) / 7 = row := by omega
    refine ⟨by omega, hdim, ⟨d, 20 + col * 48, 70 + row * 28⟩, ?_, rfl, ?_, ?_, ?_, ?_⟩
    · rw [show total_width = 380 from rfl, mem_drawCalendarDays]
      exact ⟨by simp only; omega, hdim, by simp only; rw [e1], by simp only; rw [e2]⟩
    · push_cast; linarith
    · push_cast; linarith
    · push_cast; linarith
    · push_cast; linarith
  · intro cell hcell hx0 hx1 hy0 hy1
    rw [show total_width = 380 from rfl, mem_drawCalendarDays] at hcell
    obtain ⟨h1, h2, h3, h4⟩ := hcell
    rw [clickAction_openNote_iff, clickDay_eq_some_iff]
    rw [h3] at hx0 hx1
    rw [h4] at hy0 hy1
    push_cast at hx0 hx1 hy0 hy1
    have hrow : (cell.day - 1 + firstWeekday s.zone s.display_date) / 7 ≤ 5 := by omega
    have hrowq : (((cell.day - 1 + firstWeekday s.zone s.display_date) / 7 : Int) : ℚ) ≤ 5 := by
      exact_mod_cast hrow
    push_cast at hrowq
    refine ⟨(cell.day - 1 + firstWeekday s.zone s.display_date) % 7,
      (cell.day - 1 + firstWeekday s.zone s.display_date) / 7, by omega, by omega, by omega,
      ?_, ?_, ?_, ?_, ?_, by omega, by omega, h2⟩
    · linarith
    · linarith
    · linarith
    · linarith
    · linarith
  · intro h d hd'
    rw [clickAction_openNote_iff, clickDay_none_of_outside _ _ _ _ h] at hd'
    simp at hd'
  · intro col row hc0 hc1 hr0 hr1 hx0 hx1 hy0 hy1 hout d hd'
    rw [clickAction_openNote_iff, clickDay_eq_some_iff] at hd'
    obtain ⟨col2, row2, hc0', hc1', hr0', hx0', hx1', hy0', hy1', hy2', hN, hp, hdim⟩ := hd'
    have hcol : col2 = col := by
      have a1 : (col2 : ℚ) < col + 1 := by linarith
      have a2 : (col : ℚ) < col2 + 1 := by linarith
      have a1' : col2 < col + 1 := by exact_mod_cast a1
      have a2' : col < col2 + 1 := by exact_mod_cast a2
      omega
    have hrow : row2 = row := by
      have a1 : (row2 : ℚ) < row + 1 := by linarith
      have a2 : (row : ℚ) < row2 + 1 := by linarith
      have a1' : row2 < row + 1 := by exact_mod_cast a1
      have a2' : row < row2 + 1 := by exact_mod_cast a2
      omega
    subst hcol hrow
    omega

theorem C2_witness :
    (5 : ℚ) < 20 ∧
      ∀ d : Int, clickAction (run (construct utc feb15 [] [])) 5 100 ≠ Action.openNote d :=
  ⟨by norm_num,
    (C2_hit_test_inverts_layout (run (construct utc feb15 [] [])) 5 100).2.2.1
      (Or.inl (by norm_num))⟩

/-! ## C4, C5: month navigation -/

/-- C4 (failing input): the widget is started on 2023-01-31 at noon in the zone
UTC, so the display cursor is that date; the time of day and the zone play no
part. `navigateMonth(+1)` sets the month to February with the
day still 31, and `mktime` normalises February 31 to March 3; the following
`navigateMonth(-1)` then lands on February 3. The cursor ends on
(2023, February), not on the original (2023, January). -/
theorem C4_navigate_forth_and_back_loses_month :
    (navigateMonth (run (construct utc jan31 [] [])) 1).display_date
        = ⟨123, 2, 3, 5, 12, 0, 0, 0⟩ ∧
      (navigateMonth (navigateMonth (run (construct utc jan31 [] [])) 1) (-1)).display_date
        = ⟨123, 1, 3, 5, 12, 0, 0, 0⟩ ∧
      (on_button_press (on_button_press (run (construct utc jan31 [] [])) 1 350 20)
        1 20 20).display_date.tm_mon ≠ 0 := by
  decide

/-- C5 (failing input): from the cursor 2023-01-31 (noon, zone UTC)
`navigateMonth(+1)` yields (2023, March) instead of (2023, February), and from
the cursor 2023-03-31 `navigateMonth(-1)` yields (2023, March) again instead of
(2023, February): the day of the month is carried into `mktime` and overflows
the shorter month. -/
theorem C5_navigate_skips_short_month :
    (navigateMonth (run (construct utc jan31 [] [])) 1).display_date
        = ⟨123, 2, 3, 5, 12, 0, 0, 0⟩ ∧
      (navigateMonth (run (construct utc mar31 [] [])) (-1)).display_date
        = ⟨123, 2, 3, 5, 12, 0, 0, 0⟩ := by
  decide

/-! ## C6: save, then load -/

theorem splitDelim_append (delim : Char) (l r : Str) (h : delim ∉ l) :
    splitDelim delim (l ++ delim :: r) = (l, r) := by
  induction l with
  | nil => simp [splitDelim]
  | cons c cs ih =>
    have hc : c ≠ delim := fun e => h (by simp [e])
    have hcs : delim ∉ cs := fun e => h (by simp [e])
    simp [splitDelim, hc, ih hcs]

theorem splitDelim_of_not_mem (delim : Char) (l : Str) (h : delim ∉ l) :
    splitDelim delim l = (l, []) := by
  induction l with
  | nil => simp [splitDelim]
  | cons c cs ih =>
    have hc : c ≠ delim := fun e => h (by simp [e])
    have hcs : delim ∉ cs := fun e => h (by simp [e])
    simp [splitDelim, hc, ih hcs]

theorem getline_append (delim : Char) (l r : Str) (h : delim ∉ l) :
    getline delim (l ++ delim :: r) = some (l, r) := by
  cases l with
  | nil => simp [getline, splitDelim]
  | cons c cs =>
    have := splitDelim_append delim (c :: cs) r h
    simp only [List.cons_append] at this
    simp [getline, this]

theorem getline_of_not_mem (delim : Char) (l : Str) (h : delim ∉ l) (hne : l ≠ []) :
    getline delim l = some (l, []) := by
  cases l with
  | nil => exact absurd rfl hne
  | cons c cs => simp [getline, splitDelim_of_not_mem delim (c :: cs) h]

theorem saveNotes_cons (note : CalendarNote) (rest : List CalendarNote) :
    saveNotes (note :: rest) = noteLine note ++ '\n' :: saveNotes rest := by
  simp [saveNotes, noteLine]

theorem saveTodos_cons (todo : TodoItem) (rest : List TodoItem) :
    saveTodos (todo :: rest) = todoLine todo ++ '\n' :: saveTodos rest := by
  simp [saveTodos, todoLine]

theorem parseNoteLine_noteLine (note : CalendarNote) (hd : '|' ∉ note.date)
    (hm : '\n' ∉ note.message) (hne : note.message ≠ []) :
    parseNoteLine (noteLine note) = some note := by
  obtain ⟨date, message, imp⟩ := note
  simp only at hd hm hne
  have e1 : noteLine ⟨date, message, imp⟩ =
      date ++ '|' :: ((if imp then ['1'] else ['0']) ++ '|' :: message) := by
    simp [noteLine]
  have e2 : getline '|' ((if imp then ['1'] else ['0']) ++ '|' :: message) =
      some ((if imp then ['1'] else ['0']), message) :=
    getline_append '|' _ _ (by cases imp <;> simp)
  rw [e1]
  simp only [parseNoteLine, getline_append '|' date _ hd, e2,
    getline_of_not_mem '\n' message hm hne]
  cases imp <;> simp

theorem parseTodoLine_todoLine (todo : TodoItem) (ht : '|' ∉ todo.time)
    (hm : '\n' ∉ todo.text) (hne : todo.text ≠ []) :
    parseTodoLine (todoLine todo) = some todo := by
  obtain ⟨text, completed, time⟩ := todo
  simp only at ht hm hne
  have e1 : todoLine ⟨text, completed, time⟩ =
      (if completed then ['1'] else ['0']) ++ '|' :: (time ++ '|' :: text) := by
    simp [todoLine]
  have e2 : getline '|' ((if completed then ['1'] else ['0']) ++ '|' :: (time ++ '|' :: text)) =
      some ((if completed then ['1'] else ['0']), time ++ '|' :: text) :=
    getline_append '|' _ _ (by cases completed <;> simp)
  rw [e1]
  simp only [parseTodoLine, e2, getline_append '|' time _ ht,
    getline_of_not_mem '\n' text hm hne]
  cases completed <;> simp

theorem noteLine_no_newline (note : CalendarNote) (h : NoteStorable note) :
    '\n' ∉ noteLine note := by
  obtain ⟨_, h2, h3, _⟩ := h
  cases hi : note.is_important <;> simp [noteLine, hi, h2, h3]

theorem todoLine_no_newline (todo : TodoItem) (h : TodoStorable todo) :
    '\n' ∉ todoLine todo := by
  obtain ⟨_, h2, h3, _⟩ := h
  cases hi : todo.completed <;> simp [todoLine, hi, h2, h3]

theorem noteLine_ne_nil (note : CalendarNote) : noteLine note ≠ [] := by
  simp [noteLine]

theorem todoLine_ne_nil (todo : TodoItem) : todoLine todo ≠ [] := by
  cases hi : todo.completed <;> simp [todoLine, hi]

theorem loadNotesLoop_saveNotes (notes : List CalendarNote) (h : ∀ note ∈ notes, NoteStorable note) :
    ∀ (fuel : Nat) (acc : List CalendarNote), (saveNotes notes).length < fuel →
      loadNotesLoop fuel (saveNotes notes) acc = acc ++ notes := by
  induction notes with
  | nil =>
    intro fuel acc _
    cases fuel <;> simp [loadNotesLoop, saveNotes, getline]
  | cons note rest ih =>
    intro fuel acc hf
    have hn := h note (by simp)
    cases fuel with
    | zero => simp at hf
    | succ f =>
      rw [saveNotes_cons] at hf ⊢
      simp only [loadNotesLoop, getline_append '\n' _ _ (noteLine_no_newline note hn),
        List.isEmpty_iff, if_neg (noteLine_ne_nil note),
        parseNoteLine_noteLine note hn.1 hn.2.2.1 hn.2.2.2]
      rw [ih (fun n hn' => h n (by simp [hn'])) f (acc ++ [note])
        (by simp at hf; omega)]
      simp

theorem loadTodosLoop_saveTodos (todos : List TodoItem) (h : ∀ todo ∈ todos, TodoStorable todo) :
    ∀ (fuel : Nat) (acc : List TodoItem), (saveTodos todos).length < fuel →
      loadTodosLoop fuel (saveTodos todos) acc = acc ++ todos := by
  induction todos with
  | nil =>
    intro fuel acc _
    cases fuel <;> simp [loadTodosLoop, saveTodos, getline]
  | cons todo rest ih =>
    intro fuel acc hf
    have hn := h todo (by simp)
    cases fuel with
    | zero => simp at hf
    | succ f =>
      rw [saveTodos_cons] at hf ⊢
      simp only [loadTodosLoop, getline_append '\n' _ _ (todoLine_no_newline todo hn),
        List.isEmpty_iff, if_neg (todoLine_ne_nil todo),
        parseTodoLine_todoLine todo hn.1 hn.2.2.1 hn.2.2.2]
      rw [ih (fun n hn' => h n (by simp [hn'])) f (acc ++ [todo])
        (by simp at hf; omega)]
      simp

theorem loadNotes_saveNotes (notes : List CalendarNote) (h : ∀ note ∈ notes, NoteStorable note) :
    loadNotes (saveNotes notes) = notes := by
  unfold loadNotes
  rw [loadNotesLoop_saveNotes notes h _ [] (Nat.lt_succ_self _)]
  simp

theorem loadTodos_saveTodos (todos : List TodoItem) (h : ∀ todo ∈ todos, TodoStorable todo) :
    loadTodos (saveTodos todos) = todos := by
  unfold loadTodos
  rw [loadTodosLoop_saveTodos todos h _ [] (Nat.lt_succ_self _)]
  simp

/-- C6 (as amended): for every notes collection and every task list whose
string fields contain no delimiter character and no newline, and whose note
messages and task texts are not empty, writing the collection with `saveNotes`
or `saveTodos` and reading the written text back with `loadNotes` or
`loadTodos` reproduces the identical collection: the same records, in the same
order, with the same value in every field. -/
theorem C6_save_then_load_is_identity (notes : List CalendarNote) (todos : List TodoItem)
    (hn : ∀ note ∈ notes, '|' ∉ note.date ∧ '|' ∉ note.message ∧ '\n' ∉ note.date ∧
      '\n' ∉ note.message ∧ note.message ≠ [])
    (ht : ∀ todo ∈ todos, '|' ∉ todo.text ∧ '|' ∉ todo.time ∧ '\n' ∉ todo.text ∧
      '\n' ∉ todo.time ∧ todo.text ≠ []) :
    loadNotes (saveNotes notes) = notes ∧ loadTodos (saveTodos todos) = todos :=
  ⟨loadNotes_saveNotes notes (fun note h => ⟨(hn note h).1, (hn note h).2.2.1,
      (hn note h).2.2.2.1, (hn note h).2.2.2.2⟩),
    loadTodos_saveTodos todos (fun todo h => ⟨(ht todo h).2.1, (ht todo h).2.2.2.1,
      (ht todo h).2.2.1, (ht todo h).2.2.2.2⟩)⟩

theorem C6_witness :
    (∀ note ∈ [(⟨['d'], ['m'], true⟩ : CalendarNote)], '|' ∉ note.date ∧ '|' ∉ note.message ∧
        '\n' ∉ note.date ∧ '\n' ∉ note.message ∧ note.message ≠ []) ∧
      (∀ todo ∈ [(⟨['t'], false, []⟩ : TodoItem)], '|' ∉ todo.text ∧ '|' ∉ todo.time ∧
        '\n' ∉ todo.text ∧ '\n' ∉ todo.time ∧ todo.text ≠ []) ∧
      loadNotes (saveNotes [⟨['d'], ['m'], true⟩]) = [⟨['d'], ['m'], true⟩] ∧
      loadTodos (saveTodos [⟨['t'], false, []⟩]) = [⟨['t'], false, []⟩] :=
  ⟨by decide, by decide,
    C6_save_then_load_is_identity [⟨['d'], ['m'], true⟩] [⟨['t'], false, []⟩]
      (by decide) (by decide)⟩

/-- C6 (counterexample): a note with an empty message has no delimiter in its
fields, yet it is written as a line that `loadNotes` skips; a task whose text
holds a newline has no delimiter either, yet it is read back as a different
task. -/
theorem C6_counterexample_empty_message_and_newline :
    ('|' ∉ ['d'] ∧ '|' ∉ ([] : Str) ∧
        loadNotes (saveNotes [⟨['d'], [], false⟩]) ≠ [⟨['d'], [], false⟩]) ∧
      ('|' ∉ ['a', '\n', 'b'] ∧ '|' ∉ ([] : Str) ∧
        loadTodos (saveTodos [⟨['a', '\n', 'b'], false, []⟩]) ≠ [⟨['a', '\n', 'b'], false, []⟩]) := by
  decide

/-! ## C7, C8: one note per date -/

/-- C7: for every notes collection, every date d (the date the editor was
opened for) and every non-empty text t, confirming the note editor with t
leaves exactly one note with date d, whose message is t, and leaves the notes
of every other date unchanged and in their previous relative order, whether or
not d already had a note. -/
theorem C7_save_note_overwrites_by_date (s : State) (t : Str)
    (he : s.note_entry = true) (ht : t ≠ []) :
    (on_save_note s t).notes.filter (fun note => decide (note.date = s.selected_date_str))
        = [{ date := s.selected_date_str, message := t, is_important := false }] ∧
      (on_save_note s t).notes.filter (fun note => !decide (note.date = s.selected_date_str))
        = s.notes.filter (fun note => !decide (note.date = s.selected_date_str)) ∧
      (on_save_note s t).notes
        = s.notes.filter (fun note => !decide (note.date = s.selected_date_str))
          ++ [{ date := s.selected_date_str, message := t, is_important := false }] := by
  have hne : ¬ t.isEmpty = true := by simpa [List.isEmpty_iff] using ht
  have hnotes : (on_save_note s t).notes
      = s.notes.filter (fun note => !decide (note.date = s.selected_date_str))
        ++ [{ date := s.selected_date_str, message := t, is_important := false }] := by
    simp [on_save_note, he, hne, hideNotePopup]
  refine ⟨?_, ?_, hnotes⟩
  · rw [hnotes, List.filter_append, List.filter_filter]
    simp
  · rw [hnotes, List.filter_append, List.filter_filter]
    simp

theorem C7_witness :
    (showNotePopup (run (construct utc feb15 ['d', '|', '0', '|', 'a', '\n'] [])) ['d']).note_entry
        = true ∧ ['b'] ≠ ([] : Str) ∧
      (on_save_note
        (showNotePopup (run (construct utc feb15 ['d', '|', '0', '|', 'a', '\n'] [])) ['d'])
        ['b']).notes = [⟨['d'], ['b'], false⟩] :=
  ⟨rfl, by decide,
    (C7_save_note_overwrites_by_date
      (showNotePopup (run (construct utc feb15 ['d', '|', '0', '|', 'a', '\n'] [])) ['d'])
      ['b'] rfl (by decide)).2.2⟩

theorem updateWindowSize_notes (s : State) : (updateWindowSize s).notes = s.notes := by
  unfold updateWindowSize
  split_ifs <;> rfl

theorem applyAction_notes (s : State) (a : Action) : (applyAction s a).notes = s.notes := by
  cases a <;> simp [applyAction, navigateMonth, showNotePopup, showTodoPopup,
    updateWindowSize_notes]

theorem on_button_press_notes (s : State) (button : Nat) (ex ey : ℚ) :
    (on_button_press s button ex ey).notes = s.notes := by
  unfold on_button_press
  split_ifs <;> simp [applyAction_notes]

theorem on_motion_notify_notes (s : State) (ex ey : ℚ) :
    (on_motion_notify s ex ey).notes = s.notes := by
  unfold on_motion_notify
  dsimp only
  split_ifs <;> first | rfl | (split <;> rfl)

theorem on_save_todo_notes (s : State) (task : Str) :
    (on_save_todo s task).notes = s.notes := by
  unfold on_save_todo
  split_ifs <;> simp [hideTodoPopup, updateWindowSize_notes]

theorem uniqueDates_filter_append (notes : List CalendarNote) (d m : Str) (b : Bool)
    (h : UniqueDates notes) :
    UniqueDates (notes.filter (fun note => !decide (note.date = d)) ++ [⟨d, m, b⟩]) := by
  unfold UniqueDates at h ⊢
  rw [List.map_append, List.nodup_append]
  refine ⟨h.sublist ((List.filter_sublist notes).map _), by simp, ?_⟩
  intro x hx hx'
  simp only [List.map_cons, List.map_nil, List.mem_singleton] at hx'
  subst hx'
  simp only [List.mem_map, List.mem_filter] at hx
  obtain ⟨n, ⟨_, hn⟩, hd⟩ := hx
  simp [hd] at hn

theorem uniqueDates_filter (notes : List CalendarNote) (d : Str) (h : UniqueDates notes) :
    UniqueDates (notes.filter (fun note => !decide (note.date = d))) := by
  unfold UniqueDates at h ⊢
  exact h.sublist ((List.filter_sublist notes).map _)

theorem on_save_note_uniqueDates (s : State) (message : Str) (h : UniqueDates s.notes) :
    UniqueDates (on_save_note s message).notes := by
  unfold on_save_note
  dsimp only [hideNotePopup]
  split_ifs
  · exact h
  · exact uniqueDates_filter _ _ h
  · exact uniqueDates_filter_append _ _ _ _ h

theorem step_uniqueDates (s : State) (e : Event) (h : UniqueDates s.notes) :
    UniqueDates (step s e).notes := by
  cases e with
  | button_press button ex ey => simpa [step, on_button_press_notes] using h
  | motion ex ey => simpa [step, on_motion_notify_notes] using h
  | leave => exact h
  | tick now =>
    simp only [step, update_display]
    split_ifs <;> exact h
  | save_note message => exact on_save_note_uniqueDates s message h
  | cancel_note => exact h
  | save_todo task => simpa [step, on_save_todo_notes] using h
  | cancel_todo => exact h

/-- C8 (as amended): in every state reachable from a construction whose loaded
notes store holds at most one note per date, through any sequence of user
operations, the notes collection holds at most one note per date. -/
theorem C8_unique_dates_preserved (zone : Zone) (now : Tm) (notes_file todos_file : Str) (s : State)
    (hload : UniqueDates (loadNotes notes_file))
    (hr : ReachableFrom (run (construct zone now notes_file todos_file)) s) :
    UniqueDates s.notes := by
  induction hr with
  | start => exact hload
  | next s e _ _ ih => exact step_uniqueDates s e ih

theorem C8_witness :
    UniqueDates (loadNotes ['d', '|', '0', '|', 'a', '\n']) ∧
      ReachableFrom (run (construct utc feb15 ['d', '|', '0', '|', 'a', '\n'] []))
        (step (run (construct utc feb15 ['d', '|', '0', '|', 'a', '\n'] [])) Event.leave) ∧
      UniqueDates
        (step (run (construct utc feb15 ['d', '|', '0', '|', 'a', '\n'] [])) Event.leave).notes :=
  ⟨by unfold UniqueDates; decide, ReachableFrom.next _ _ ReachableFrom.start rfl,
    C8_unique_dates_preserved utc feb15 ['d', '|', '0', '|', 'a', '\n'] [] _
      (by unfold UniqueDates; decide)
      (ReachableFrom.next _ _ ReachableFrom.start rfl)⟩

/-- C8 (counterexample): a notes store with two lines of the same date is
loaded as it is, so the state right after construction, which is reachable,
holds two notes for one date. -/
theorem C8_counterexample_duplicate_dates_loaded :
    Reachable (run (construct utc feb15
        ['d', '|', '0', '|', 'a', '\n', 'd', '|', '0', '|', 'b', '\n'] [])) ∧
      ¬ UniqueDates (run (construct utc feb15
        ['d', '|', '0', '|', 'a', '\n', 'd', '|', '0', '|', 'b', '\n'] [])).notes :=
  ⟨⟨_, _, _, _, ReachableFrom.start⟩, by unfold UniqueDates; decide⟩

/-! ## C9: the delete control and the hovered row -/

theorem clickAction_delete_iff (s : State) (ex ey : ℚ) (i : Int) :
    clickAction s ex ey = Action.delete i ↔
      260 < ey ∧ 272 ≤ ey ∧ ¬ (330 ≤ ex ∧ ey ≤ 322) ∧ s.todos ≠ [] ∧
        truncToInt ((ey - 327) / 35) = i ∧ 0 ≤ i ∧ i < (s.todos.length : Int) ∧ i < 8 ∧
        ¬ (20 ≤ ex ∧ ex ≤ 44) ∧ 345 ≤ ex ∧ ex ≤ 365 := by
  rw [clickAction_unfold]
  constructor
  · intro h
    split_ifs at h with h1 h2 h3 h4 h5 h6 h7 h8 h9 h10
    · cases hc : clickDay s.zone s.display_date ex ey <;> rw [hc] at h <;> simp at h
    · have hi : truncToInt ((ey - 327) / 35) = i := by simpa using h
      rw [hi] at h8
      exact ⟨lt_of_not_le h1, h5, h6, h7, hi, h8.1, h8.2.1, h8.2.2, h9, h10.1, h10.2⟩
  · rintro ⟨h1, h2, h3, h4, h5, h6, h7, h8, h9, h10, h11⟩
    rw [if_neg (not_le.2 h1), if_pos h2, if_neg h3, if_neg h4, h5, if_pos ⟨h6, h7, h8⟩,
      if_neg h9, if_pos ⟨h10, h11⟩]

theorem on_motion_notify_todos (s : State) (ex ey : ℚ) :
    (on_motion_notify s ex ey).todos = s.todos := by
  unfold on_motion_notify
  dsimp only
  split_ifs <;> first | rfl | (split <;> rfl)

theorem on_motion_notify_hover_todo (s : State) (ex ey : ℚ) (i : Int) (hidle : Idle s)
    (hy : 327 ≤ ey) (hne : s.todos ≠ []) (hi : truncToInt ((ey - 327) / 35) = i)
    (h0 : 0 ≤ i) (h1 : i < (s.todos.length : Int)) (h8 : i < 8) :
    (on_motion_notify s ex ey).hover_todo_item = i := by
  have hcal : ¬ ey ≤ ((calendar_height : Int) : ℚ) := by
    simp only [calendar_height]; push_cast; linarith
  have hrow : ey ≥ ((calendar_height + WIDGET_SPACING : Int) : ℚ) + 55 ∧
      ¬ s.todos.isEmpty = true := by
    refine ⟨?_, by simpa [List.isEmpty_iff] using hne⟩
    simp only [calendar_height, WIDGET_SPACING]; push_cast; linarith
  have hq : truncToInt ((ey - ((calendar_height + WIDGET_SPACING + 55 : Int) : ℚ)) /
      ((item_height : Int) : ℚ)) = i := by
    simp only [calendar_height, WIDGET_SPACING, item_height]
    norm_num
    exact hi
  unfold on_motion_notify
  rw [hidle.1, hidle.2]
  simp only [Bool.or_self, Bool.false_eq_true, if_false, if_neg hcal, if_pos hrow, hq,
    if_pos (show i ≥ 0 ∧ i < (s.todos.length : Int) ∧ i < 8 from ⟨h0, h1, h8⟩)]

/-- C9 (as amended): for every Idle state whose hover fields are the ones that
`on_motion_notify` computes at the click position (the pointer was moved to
that position before the press) and every left click at that position with
y >= 327, at or below the top of the first task row: if the click resolves to
deleting task i, then i is the hovered task (hover_todo_item = i), the
predicate under which `drawTodoCard` draws the trash icon of row i. -/
theorem C9_delete_hits_hovered_row_after_motion (s : State) (ex ey : ℚ) (i : Int)
    (hidle : Idle s) (hy : 327 ≤ ey)
    (hdel : clickAction (on_motion_notify s ex ey) ex ey = Action.delete i) :
    (on_motion_notify s ex ey).hover_todo_item = i := by
  rw [clickAction_delete_iff, on_motion_notify_todos] at hdel
  obtain ⟨_, _, _, hne, hi, h0, h1, h8, _, _, _⟩ := hdel
  exact on_motion_notify_hover_todo s ex ey i hidle hy hne hi h0 h1 h8

theorem C9_witness :
    Idle (run (construct utc feb15 [] ['0', '|', '|', 'a', '\n'])) ∧ (327 : ℚ) ≤ 330 ∧
      clickAction (on_motion_notify (run (construct utc feb15 [] ['0', '|', '|', 'a', '\n']))
        350 330) 350 330 = Action.delete 0 ∧
      (on_motion_notify (run (construct utc feb15 [] ['0', '|', '|', 'a', '\n']))
        350 330).hover_todo_item = 0 :=
  ⟨⟨rfl, rfl⟩, by decide, by decide!,
    C9_delete_hits_hovered_row_after_motion
      (run (construct utc feb15 [] ['0', '|', '|', 'a', '\n'])) 350 330 0 ⟨rfl, rfl⟩
      (by decide) (by decide!)⟩

/-- C9 (counterexample): the state right after construction with one stored
task is Idle and has no hovered task (hover_todo_item = -1), yet a left click
at (350, 330) resolves to deleting task 0: the click path never reads the hover
field. The same holds after the pointer has been moved to (350, 325), five
pixels above the first row: the motion leaves hover_todo_item at -1 and the
click at that position deletes task 0. -/
theorem C9_counterexample_delete_without_hover :
    (Idle (run (construct utc feb15 [] ['0', '|', '|', 'a', '\n'])) ∧
      (run (construct utc feb15 [] ['0', '|', '|', 'a', '\n'])).hover_todo_item = -1 ∧
      clickAction (run (construct utc feb15 [] ['0', '|', '|', 'a', '\n'])) 350 330
        = Action.delete 0) ∧
    (Idle (on_motion_notify (run (construct utc feb15 [] ['0', '|', '|', 'a', '\n']))
        350 325) ∧
      (on_motion_notify (run (construct utc feb15 [] ['0', '|', '|', 'a', '\n']))
        350 325).hover_todo_item = -1 ∧
      clickAction (on_motion_notify (run (construct utc feb15 [] ['0', '|', '|', 'a', '\n']))
        350 325) 350 325 = Action.delete 0) := by
  refine ⟨⟨⟨rfl, rfl⟩, rfl, by decide!⟩, ⟨⟨?_, ?_⟩, ?_, ?_⟩⟩ <;> decide!

/-! ## C10: pointer input while a popup is shown -/

/-- C10: in every state that is not Idle (a popup is shown), every button press
at every position and every pointer motion leaves the whole state unchanged:
the display cursor, the notes, the tasks, the popup flags and both hover
fields; in particular a click on a month-navigation arrow does not navigate. -/
theorem C10_input_suppressed_while_popup (s : State) (button : Nat) (ex ey : ℚ)
    (h : s.showing_note_popup = true ∨ s.showing_todo_popup = true) :
    on_button_press s button ex ey = s ∧ on_motion_notify s ex ey = s := by
  rcases h with h | h <;> simp [on_button_press, on_motion_notify, h]

theorem C10_witness :
    ((showNotePopup (run (construct utc feb15 [] [])) ['d']).showing_note_popup = true ∨
        (showNotePopup (run (construct utc feb15 [] [])) ['d']).showing_todo_popup = true) ∧
      on_button_press (showNotePopup (run (construct utc feb15 [] [])) ['d']) 1 350 20
        = showNotePopup (run (construct utc feb15 [] [])) ['d'] :=
  ⟨Or.inl rfl,
    (C10_input_suppressed_while_popup
      (showNotePopup (run (construct utc feb15 [] [])) ['d']) 1 350 20 (Or.inl rfl)).1⟩

/-! ## C11: the two popups -/

theorem updateWindowSize_flags (s : State) :
    (updateWindowSize s).showing_note_popup = s.showing_note_popup ∧
      (updateWindowSize s).showing_todo_popup = s.showing_todo_popup := by
  unfold updateWindowSize
  split_ifs <;> exact ⟨rfl, rfl⟩

theorem applyAction_not_both (s : State) (a : Action) (hn : s.showing_note_popup = false)
    (ht : s.showing_todo_popup = false) :
    ¬ ((applyAction s a).showing_note_popup = true ∧
      (applyAction s a).showing_todo_popup = true) := by
  cases a <;>
    simp [applyAction, navigateMonth, showNotePopup, showTodoPopup, updateWindowSize_flags, hn, ht]

theorem on_motion_notify_flags (s : State) (ex ey : ℚ) :
    (on_motion_notify s ex ey).showing_note_popup = s.showing_note_popup ∧
      (on_motion_notify s ex ey).showing_todo_popup = s.showing_todo_popup := by
  unfold on_motion_notify
  dsimp only
  split_ifs <;> first | exact ⟨rfl, rfl⟩ | (split <;> exact ⟨rfl, rfl⟩)

theorem step_not_both (s : State) (e : Event)
    (h : ¬ (s.showing_note_popup = true ∧ s.showing_todo_popup = true)) :
    ¬ ((step s e).showing_note_popup = true ∧ (step s e).showing_todo_popup = true) := by
  cases e with
  | button_press button ex ey =>
    simp only [step, on_button_press]
    split_ifs with h1 h2
    · exact h
    · simp only [Bool.or_eq_true, not_or, Bool.not_eq_true] at h1
      exact applyAction_not_both s _ h1.1 h1.2
    · exact h
  | motion ex ey =>
    simp only [step]
    rw [(on_motion_notify_flags s ex ey).1, (on_motion_notify_flags s ex ey).2]
    exact h
  | leave => exact h
  | tick now =>
    simp only [step, update_display]
    split_ifs <;> exact h
  | save_note message =>
    simp only [step, on_save_note]
    split_ifs
    · exact h
    · simp [hideNotePopup]
    · simp [hideNotePopup]
  | cancel_note => simp [step, on_cancel_note, hideNotePopup]
  | save_todo task =>
    simp only [step, on_save_todo]
    split_ifs
    · exact h
    · simp [hideTodoPopup]
    · simp [hideTodoPopup]
  | cancel_todo => simp [step, on_cancel_todo, hideTodoPopup]

/-- C11: in every state reachable from the initial state by any sequence of
events (click, motion, leave, tick, and confirm or cancel of the popup that is
open), `showing_note_popup` and `showing_todo_popup` are never both true: the
note editor and the add-task editor are never open at the same time. -/
theorem C11_popups_never_both_open (s : State) (hr : Reachable s) :
    ¬ (s.showing_note_popup = true ∧ s.showing_todo_popup = true) := by
  obtain ⟨zone, now, notes_file, todos_file, hr⟩ := hr
  induction hr with
  | start => simp [run, construct]
  | next s e _ _ ih => exact step_not_both s e ih

theorem C11_witness :
    Reachable (step (run (construct utc feb15 [] [])) (Event.button_press 1 350 300)) ∧
      ¬ ((step (run (construct utc feb15 [] [])) (Event.button_press 1 350 300)).showing_note_popup
          = true ∧
        (step (run (construct utc feb15 [] [])) (Event.button_press 1 350 300)).showing_todo_popup
          = true) :=
  ⟨⟨_, _, _, _, ReachableFrom.next _ _ ReachableFrom.start rfl⟩,
    C11_popups_never_both_open _ ⟨_, _, _, _, ReachableFrom.next _ _ ReachableFrom.start rfl⟩⟩

/-! ## C12, C13, C14: delete, add and toggle a task -/

theorem clickAction_toggle_iff (s : State) (ex ey : ℚ) (i : Int) :
    clickAction s ex ey = Action.toggle i ↔
      260 < ey ∧ 272 ≤ ey ∧ ¬ (330 ≤ ex ∧ ey ≤ 322) ∧ s.todos ≠ [] ∧
        truncToInt ((ey - 327) / 35) = i ∧ 0 ≤ i ∧ i < (s.todos.length : Int) ∧ i < 8 ∧
        20 ≤ ex ∧ ex ≤ 44 := by
  rw [clickAction_unfold]
  constructor
  · intro h
    split_ifs at h with h1 h2 h3 h4 h5 h6 h7 h8 h9 h10
    · cases hc : clickDay s.zone s.display_date ex ey <;> rw [hc] at h <;> simp at h
    · have hi : truncToInt ((ey - 327) / 35) = i := by simpa using h
      rw [hi] at h8
      exact ⟨lt_of_not_le h1, h5, h6, h7, hi, h8.1, h8.2.1, h8.2.2, h9.1, h9.2⟩
  · rintro ⟨h1, h2, h3, h4, h5, h6, h7, h8, h9, h10⟩
    rw [if_neg (not_le.2 h1), if_pos h2, if_neg h3, if_neg h4, h5, if_pos ⟨h6, h7, h8⟩,
      if_pos ⟨h9, h10⟩]

theorem updateWindowSize_todos (s : State) : (updateWindowSize s).todos = s.todos := by
  unfold updateWindowSize
  split_ifs <;> rfl

theorem on_button_press_delete_todos (s : State) (ex ey : ℚ) (i : Int) (hidle : Idle s)
    (h : clickAction s ex ey = Action.delete i) :
    (on_button_press s 1 ex ey).todos = s.todos.eraseIdx i.toNat := by
  rw [on_button_press_idle s ex ey hidle.1 hidle.2, h]
  simp [applyAction, updateWindowSize_todos]

/-- C12: for every task list of length n and every index i that a click
resolves to delete, 0 <= i < min(n, 8), the list after the delete has length
n - 1 and is the old list with element i removed: the elements before i keep
their index, every element after i moves one index down, and nothing else
changes. -/
theorem C12_delete_removes_the_clicked_task (s : State) (ex ey : ℚ) (i : Int) (hidle : Idle s)
    (h : clickAction s ex ey = Action.delete i) :
    0 ≤ i ∧ i < min (s.todos.length : Int) 8 ∧
      (on_button_press s 1 ex ey).todos = s.todos.eraseIdx i.toNat ∧
      (on_button_press s 1 ex ey).todos.length + 1 = s.todos.length ∧
      (∀ j : Nat, j < i.toNat → (on_button_press s 1 ex ey).todos[j]? = s.todos[j]?) ∧
      (∀ j : Nat, i.toNat ≤ j → (on_button_press s 1 ex ey).todos[j]? = s.todos[j + 1]?) := by
  have hd := (clickAction_delete_iff s ex ey i).1 h
  obtain ⟨_, _, _, _, _, h0, h1, h8, _, _, _⟩ := hd
  have htodos := on_button_press_delete_todos s ex ey i hidle h
  have hlt : i.toNat < s.todos.length := by omega
  refine ⟨h0, lt_min h1 h8, htodos, ?_, ?_, ?_⟩
  · rw [htodos, List.length_eraseIdx, if_pos hlt]
    omega
  · intro j hj
    rw [htodos, List.getElem?_eraseIdx, if_pos hj]
  · intro j hj
    rw [htodos, List.getElem?_eraseIdx, if_neg (by omega)]

theorem C12_witness :
    Idle tenTasksState ∧ clickAction tenTasksState 350 330 = Action.delete 0 ∧
      tenTasksState.todos.length = 10 ∧
      (on_button_press tenTasksState 1 350 330).todos[7]? = tenTasksState.todos[8]? :=
  ⟨⟨rfl, rfl⟩, by decide!, by decide,
    (C12_delete_removes_the_clicked_task tenTasksState 350 330 0 ⟨rfl, rfl⟩ (by decide!)).2.2.2.2.2
      7 (by decide)⟩

/-- C13: for every task list L and every text t, confirming the add-task
editor with a non-empty t yields the list whose head is the task with text t,
not completed, with the empty time label, and whose tail is L unchanged in
order; confirming with the empty text leaves the task list exactly L. -/
theorem C13_save_todo_prepends (s : State) (t : Str) (he : s.todo_entry = true) :
    (t ≠ [] → (on_save_todo s t).todos
        = { text := t, completed := false, time := [] } :: s.todos) ∧
      (t = [] → (on_save_todo s t).todos = s.todos) := by
  constructor
  · intro ht
    have hne : ¬ t.isEmpty = true := by simpa [List.isEmpty_iff] using ht
    simp [on_save_todo, he, hne, hideTodoPopup, updateWindowSize_todos]
  · intro ht
    subst ht
    simp [on_save_todo, he, hideTodoPopup]

theorem C13_witness :
    (showTodoPopup tenTasksState).todo_entry = true ∧
      (on_save_todo (showTodoPopup tenTasksState) ['k']).todos
        = { text := ['k'], completed := false, time := [] } :: (showTodoPopup tenTasksState).todos :=
  ⟨rfl, (C13_save_todo_prepends (showTodoPopup tenTasksState) ['k'] rfl).1 (by decide)⟩

theorem toggleCompleted_length (todos : List TodoItem) (i : Nat) :
    (toggleCompleted todos i).length = todos.length := by
  unfold toggleCompleted
  split <;> simp

theorem toggleCompleted_getElem?_ne (todos : List TodoItem) (i j : Nat) (h : j ≠ i) :
    (toggleCompleted todos i)[j]? = todos[j]? := by
  unfold toggleCompleted
  split
  · rw [List.getElem?_set_ne (Ne.symm h)]
  · rfl

theorem toggleCompleted_getElem?_self (todos : List TodoItem) (i : Nat) (todo : TodoItem)
    (h : todos[i]? = some todo) :
    (toggleCompleted todos i)[i]? = some { todo with completed := !todo.completed } := by
  have hlt : i < todos.length := (List.getElem?_eq_some.1 h).1
  unfold toggleCompleted
  rw [List.get?_eq_getElem?, h]
  simp [List.getElem?_set, hlt]

theorem toggleCompleted_of_some (todos : List TodoItem) (i : Nat) (todo : TodoItem)
    (h : todos[i]? = some todo) :
    toggleCompleted todos i
      = todos.set i { text := todo.text, completed := !todo.completed, time := todo.time } := by
  unfold toggleCompleted
  rw [List.get?_eq_getElem?, h]

theorem toggleCompleted_of_none (todos : List TodoItem) (i : Nat) (h : todos[i]? = none) :
    toggleCompleted todos i = todos := by
  unfold toggleCompleted
  rw [List.get?_eq_getElem?, h]

theorem toggleCompleted_twice (todos : List TodoItem) (i : Nat) :
    toggleCompleted (toggleCompleted todos i) i = todos := by
  cases h : todos[i]? with
  | none =>
    rw [toggleCompleted_of_none todos i h, toggleCompleted_of_none todos i h]
  | some todo =>
    have h1 := toggleCompleted_getElem?_self todos i todo h
    rw [toggleCompleted_of_some _ i _ h1, toggleCompleted_of_some todos i todo h, List.set_set]
    apply List.ext_getElem?
    intro j
    by_cases hj : i = j
    · subst hj
      have hlt : i < todos.length := (List.getElem?_eq_some.1 h).1
      rw [List.getElem?_set, if_pos rfl, if_pos hlt, h]
      cases todo
      simp
    · rw [List.getElem?_set_ne hj]

theorem on_button_press_toggle (s : State) (ex ey : ℚ) (i : Int) (hidle : Idle s)
    (h : clickAction s ex ey = Action.toggle i) :
    on_button_press s 1 ex ey
      = { s with todos := toggleCompleted s.todos i.toNat,
                 todos_file := saveTodos (toggleCompleted s.todos i.toNat) } := by
  rw [on_button_press_idle s ex ey hidle.1 hidle.2, h]
  rfl

/-- C14: for every task list and every index i that a checkbox click resolves
to, the toggle flips only the completed flag of task i: the text and time of
task i, every other task, the list length and order, and the notes are
unchanged; a second click at the same position toggles the same index again
and restores the original task list. -/
theorem C14_toggle_flips_only_completed (s : State) (ex ey : ℚ) (i : Int) (hidle : Idle s)
    (h : clickAction s ex ey = Action.toggle i) :
    (∃ todo : TodoItem, s.todos[i.toNat]? = some todo ∧
        (on_button_press s 1 ex ey).todos[i.toNat]?
          = some { text := todo.text, completed := !todo.completed, time := todo.time }) ∧
      (∀ j : Nat, j ≠ i.toNat → (on_button_press s 1 ex ey).todos[j]? = s.todos[j]?) ∧
      (on_button_press s 1 ex ey).todos.length = s.todos.length ∧
      (on_button_press s 1 ex ey).notes = s.notes ∧
      clickAction (on_button_press s 1 ex ey) ex ey = Action.toggle i ∧
      (on_button_press (on_button_press s 1 ex ey) 1 ex ey).todos = s.todos := by
  have ht := (clickAction_toggle_iff s ex ey i).1 h
  obtain ⟨a1, a2, a3, a4, a5, h0, h1, h8, a9, a10⟩ := ht
  have hs := on_button_press_toggle s ex ey i hidle h
  have hlt : i.toNat < s.todos.length := by omega
  have hidle2 : Idle (on_button_press s 1 ex ey) := by rw [hs]; exact hidle
  have h2 : clickAction (on_button_press s 1 ex ey) ex ey = Action.toggle i := by
    rw [clickAction_toggle_iff]
    refine ⟨a1, a2, a3, ?_, a5, h0, ?_, h8, a9, a10⟩
    · rw [hs]
      intro hnil
      have := congrArg List.length hnil
      simp only [toggleCompleted_length, List.length_nil] at this
      omega
    · rw [hs]
      simp only [toggleCompleted_length]
      exact h1
  refine ⟨⟨s.todos[i.toNat], ?_, ?_⟩, ?_, ?_, ?_, h2, ?_⟩
  · exact List.getElem?_eq_getElem hlt
  · rw [hs]
    exact toggleCompleted_getElem?_self s.todos i.toNat _ (List.getElem?_eq_getElem hlt)
  · intro j hj
    rw [hs]
    exact toggleCompleted_getElem?_ne s.todos i.toNat j hj
  · rw [hs]
    exact toggleCompleted_length s.todos i.toNat
  · rw [hs]
  · rw [on_button_press_toggle _ ex ey i hidle2 h2, hs]
    exact toggleCompleted_twice s.todos i.toNat

theorem C14_witness :
    Idle tenTasksState ∧ clickAction tenTasksState 30 370 = Action.toggle 1 ∧
      (on_button_press (on_button_press tenTasksState 1 30 370) 1 30 370).todos
        = tenTasksState.todos :=
  ⟨⟨rfl, rfl⟩, by decide!,
    (C14_toggle_flips_only_completed tenTasksState 30 370 1 ⟨rfl, rfl⟩ (by decide!)).2.2.2.2.2⟩

/-! ## C15, C16: visible task indices and the widget height -/

theorem on_motion_notify_hover_todo_range (s : State) (ex ey : ℚ) (hidle : Idle s) :
    (on_motion_notify s ex ey).hover_todo_item = -1 ∨
      (0 ≤ (on_motion_notify s ex ey).hover_todo_item ∧
        (on_motion_notify s ex ey).hover_todo_item < min (s.todos.length : Int) 8) := by
  unfold on_motion_notify
  rw [hidle.1, hidle.2]
  dsimp only
  simp only [Bool.or_self, Bool.false_eq_true, if_false]
  split_ifs with h1 h2 h3
  · left
    split <;> rfl
  · right
    exact ⟨h3.1, lt_min h3.2.1 h3.2.2⟩
  · left; rfl
  · left; rfl

/-- C15: for every task list and every pointer position, every task index
produced by click resolution (toggle or delete) satisfies 0 <= i < min(count, 8)
and so indexes an existing task, and the index that hover resolution stores in
`on_motion_notify` is -1 (no task) or satisfies the same bounds: the accesses
`todos[i]` and `todos.erase(begin + i)` are within bounds and a task at index 8
or above is never hit-testable. -/
theorem C15_task_indices_in_visible_range (s : State) (ex ey : ℚ) :
    (∀ i : Int, clickAction s ex ey = Action.toggle i ∨ clickAction s ex ey = Action.delete i →
      0 ≤ i ∧ i < min (s.todos.length : Int) 8 ∧ i.toNat < s.todos.length) ∧
    (Idle s →
      (on_motion_notify s ex ey).hover_todo_item = -1 ∨
        (0 ≤ (on_motion_notify s ex ey).hover_todo_item ∧
          (on_motion_notify s ex ey).hover_todo_item < min (s.todos.length : Int) 8 ∧
          (on_motion_notify s ex ey).hover_todo_item.toNat < s.todos.length)) := by
  constructor
  · rintro i (h | h)
    · obtain ⟨_, _, _, _, _, h0, h1, h8, _, _⟩ := (clickAction_toggle_iff s ex ey i).1 h
      exact ⟨h0, lt_min h1 h8, by omega⟩
    · obtain ⟨_, _, _, _, _, h0, h1, h8, _, _, _⟩ := (clickAction_delete_iff s ex ey i).1 h
      exact ⟨h0, lt_min h1 h8, by omega⟩
  · intro hidle
    rcases on_motion_notify_hover_todo_range s ex ey hidle with h | ⟨h0, h1⟩
    · exact Or.inl h
    · refine Or.inr ⟨h0, h1, ?_⟩
      have := lt_of_lt_of_le h1 (min_le_left _ _)
      omega

theorem C15_witness :
    clickAction tenTasksState 30 370 = Action.toggle 1 ∧
      ((1 : Int) < min (tenTasksState.todos.length : Int) 8) ∧
      (on_motion_notify tenTasksState 30 1000).hover_todo_item = -1 :=
  ⟨by decide!,
    ((C15_task_indices_in_visible_range tenTasksState 30 370).1 1 (Or.inl (by decide!))).2.1,
    by decide!⟩

theorem computeHeight_eq (todos : List TodoItem) :
    computeHeight todos = 404 + 35 * min (todos.length : Int) 8 := by
  unfold computeHeight calendar_height base_todo_height item_height WIDGET_SPACING
  simp only
  rcases le_total (todos.length : Int) 8 with h | h
  · rw [min_eq_left h, min_eq_right h, max_eq_right (by omega)]
    ring
  · rw [min_eq_right h, min_eq_left h, max_eq_right (by omega)]
    ring

theorem updateWindowSize_height (s : State) (hw : s.window = true) :
    (updateWindowSize s).window = true ∧
      (updateWindowSize s).total_height = computeHeight (updateWindowSize s).todos := by
  unfold updateWindowSize
  rw [if_neg (by simp [hw])]
  exact ⟨hw, rfl⟩

theorem computeHeight_congr (a b : List TodoItem) (h : a.length = b.length) :
    computeHeight a = computeHeight b := by
  rw [computeHeight_eq, computeHeight_eq, h]

theorem applyAction_height (s : State) (a : Action) (hw : s.window = true)
    (hh : s.total_height = computeHeight s.todos) :
    (applyAction s a).window = true ∧
      (applyAction s a).total_height = computeHeight (applyAction s a).todos := by
  cases a with
  | navigate direction => exact ⟨hw, hh⟩
  | openNote clicked_day => exact ⟨hw, hh⟩
  | openTodo => exact ⟨hw, hh⟩
  | toggle clicked_item =>
    refine ⟨hw, ?_⟩
    simp only [applyAction]
    rw [hh]
    exact computeHeight_congr _ _ (toggleCompleted_length _ _).symm
  | delete clicked_item =>
    simp only [applyAction]
    exact updateWindowSize_height _ hw
  | drag => exact ⟨hw, hh⟩

theorem on_motion_notify_height (s : State) (ex ey : ℚ) :
    (on_motion_notify s ex ey).window = s.window ∧
      (on_motion_notify s ex ey).total_height = s.total_height ∧
      (on_motion_notify s ex ey).todos = s.todos := by
  unfold on_motion_notify
  dsimp only
  split_ifs <;> first | exact ⟨rfl, rfl, rfl⟩ | (split <;> exact ⟨rfl, rfl, rfl⟩)

theorem step_height (s : State) (e : Event) (hw : s.window = true)
    (hh : s.total_height = computeHeight s.todos) :
    (step s e).window = true ∧ (step s e).total_height = computeHeight (step s e).todos := by
  cases e with
  | button_press button ex ey =>
    simp only [step, on_button_press]
    split_ifs
    · exact ⟨hw, hh⟩
    · exact applyAction_height s _ hw hh
    · exact ⟨hw, hh⟩
  | motion ex ey =>
    obtain ⟨h1, h2, h3⟩ := on_motion_notify_height s ex ey
    simp only [step]
    rw [h1, h2, h3]
    exact ⟨hw, hh⟩
  | leave => exact ⟨hw, hh⟩
  | tick now =>
    simp only [step, update_display]
    split_ifs <;> exact ⟨hw, hh⟩
  | save_note message =>
    simp only [step, on_save_note]
    split_ifs <;> exact ⟨hw, hh⟩
  | cancel_note => exact ⟨hw, hh⟩
  | save_todo task =>
    simp only [step, on_save_todo]
    split_ifs
    · exact ⟨hw, hh⟩
    · exact ⟨hw, hh⟩
    · exact updateWindowSize_height _ hw
  | cancel_todo => exact ⟨hw, hh⟩

theorem reachable_height (s : State) (hr : Reachable s) :
    s.window = true ∧ s.total_height = computeHeight s.todos := by
  obtain ⟨zone, now, notes_file, todos_file, hr⟩ := hr
  induction hr with
  | start => exact ⟨rfl, rfl⟩
  | next s e _ _ ih => exact step_height s e ih.1 ih.2

/-- C16: once the window exists, after construction and after every operation
(add task, delete task, toggle, note save, navigation, hover, confirm and
cancel) the stored widget height is calendar_height + base_todo_height +
min(task count, 8) * item_height + 2 * WIDGET_SPACING, which is
404 + 35 * min(count, 8). -/
theorem C16_height_follows_task_count (s : State) (hr : Reachable s) :
    s.total_height = calendar_height + base_todo_height
        + min (s.todos.length : Int) 8 * item_height + 2 * WIDGET_SPACING ∧
      s.total_height = 404 + 35 * min (s.todos.length : Int) 8 := by
  have h := (reachable_height s hr).2
  rw [computeHeight_eq] at h
  refine ⟨?_, h⟩
  rw [h]
  simp only [calendar_height, base_todo_height, item_height, WIDGET_SPACING]
  ring

theorem C16_witness :
    Reachable (step tenTasksState (Event.button_press 1 350 330)) ∧
      (step tenTasksState (Event.button_press 1 350 330)).total_height = 404 + 35 * 8 :=
  ⟨⟨_, _, _, _, ReachableFrom.next _ _ ReachableFrom.start rfl⟩, by
    have h := (C16_height_follows_task_count (step tenTasksState (Event.button_press 1 350 330))
      ⟨_, _, _, _, ReachableFrom.next _ _ ReachableFrom.start rfl⟩).2
    rw [h]
    decide!⟩

/-! ## C17: which lines a load keeps -/

theorem splitLines_ne_nil (file : Str) : splitLines file ≠ [] := by
  induction file with
  | nil => simp [splitLines]
  | cons c cs ih =>
    unfold splitLines
    split_ifs
    · simp
    · cases h : splitLines cs <;> simp

theorem splitLines_of_not_mem (file : Str) (h : '\n' ∉ file) : splitLines file = [file] := by
  induction file with
  | nil => rfl
  | cons c cs ih =>
    have hc : c ≠ '\n' := fun e => h (by simp [e])
    have hcs : '\n' ∉ cs := fun e => h (by simp [e])
    unfold splitLines
    rw [if_neg hc, ih hcs]

theorem splitLines_of_mem (file : Str) (h : '\n' ∈ file) :
    splitLines file = (splitDelim '\n' file).1 :: splitLines (splitDelim '\n' file).2 := by
  induction file with
  | nil => simp at h
  | cons c cs ih =>
    by_cases hc : c = '\n'
    · subst hc
      simp [splitLines, splitDelim]
    · have hcs : '\n' ∈ cs := by
        rcases List.mem_cons.1 h with e | e
        · exact absurd e.symm hc
        · exact e
      have e1 : splitLines (c :: cs) = match splitLines cs with
          | [] => [[c]]
          | l :: ls => (c :: l) :: ls := by
        simp only [splitLines, if_neg hc]
      have e2 : splitDelim '\n' (c :: cs)
          = (c :: (splitDelim '\n' cs).1, (splitDelim '\n' cs).2) := by
        simp only [splitDelim, if_neg hc]
      rw [e1, e2, ih hcs]

theorem splitLines_no_newline (file : Str) : ∀ l ∈ splitLines file, '\n' ∉ l := by
  induction file with
  | nil => simp [splitLines]
  | cons c cs ih =>
    unfold splitLines
    split_ifs with hc
    · intro l hl
      rcases List.mem_cons.1 hl with e | e
      · subst e; simp
      · exact ih l e
    · cases h : splitLines cs with
      | nil => exact absurd h (splitLines_ne_nil cs)
      | cons l ls =>
        rw [h] at ih
        intro x hx
        rcases List.mem_cons.1 hx with e | e
        · subst e
          have := ih l (by simp)
          intro hm
          rcases List.mem_cons.1 hm with e2 | e2
          · exact hc e2.symm
          · exact this e2
        · exact ih x (by simp [e])

theorem splitLines_intercalate (file : Str) :
    List.intercalate ['\n'] (splitLines file) = file := by
  induction file with
  | nil => rfl
  | cons c cs ih =>
    unfold splitLines
    split_ifs with hc
    · subst hc
      cases h : splitLines cs with
      | nil => exact absurd h (splitLines_ne_nil cs)
      | cons l ls =>
        rw [h] at ih
        rw [← ih]
        simp [List.intercalate, List.intersperse]
    · cases h : splitLines cs with
      | nil => exact absurd h (splitLines_ne_nil cs)
      | cons l ls =>
        rw [h] at ih
        rw [← ih]
        cases ls <;> simp [List.intercalate, List.intersperse]

theorem splitDelim_snd_length (delim : Char) (s : Str) (h : s ≠ []) :
    (splitDelim delim s).2.length < s.length := by
  induction s with
  | nil => exact absurd rfl h
  | cons c cs ih =>
    unfold splitDelim
    split_ifs
    · simp
    · cases cs with
      | nil => simp [splitDelim]
      | cons d ds =>
        have := ih (by simp)
        simp only [List.length_cons] at this ⊢
        omega

theorem splitDelim_of_not_mem_snd (delim : Char) (s : Str) (h : delim ∉ s) :
    (splitDelim delim s).1 = s ∧ (splitDelim delim s).2 = [] := by
  rw [splitDelim_of_not_mem delim s h]
  exact ⟨rfl, rfl⟩

theorem parseNoteLine_nil : parseNoteLine [] = none := rfl

theorem parseTodoLine_nil : parseTodoLine [] = none := rfl

theorem loadNotesLoop_eq (fuel : Nat) :
    ∀ (file : Str) (acc : List CalendarNote), file.length < fuel →
      loadNotesLoop fuel file acc = acc ++ (splitLines file).filterMap parseNoteLine := by
  induction fuel with
  | zero => intro file acc h; simp at h
  | succ f ih =>
    intro file acc hf
    cases file with
    | nil => simp [loadNotesLoop, getline, splitLines, parseNoteLine_nil]
    | cons c cs =>
      have hlen := splitDelim_snd_length '\n' (c :: cs) (by simp)
      have hrest : (splitDelim '\n' (c :: cs)).2.length < f := by
        simp only [List.length_cons] at hf hlen
        omega
      have hlines : (splitLines (c :: cs)).filterMap parseNoteLine =
          ((splitDelim '\n' (c :: cs)).1 :: splitLines (splitDelim '\n' (c :: cs)).2).filterMap
            parseNoteLine := by
        by_cases hm : '\n' ∈ c :: cs
        · rw [splitLines_of_mem _ hm]
        · rw [splitLines_of_not_mem _ hm, (splitDelim_of_not_mem_snd '\n' _ hm).1,
            (splitDelim_of_not_mem_snd '\n' _ hm).2]
          cases hp : parseNoteLine (c :: cs) <;>
            simp [splitLines, List.filterMap_cons, hp, parseNoteLine_nil]
      rw [hlines]
      simp only [loadNotesLoop, getline]
      by_cases hempty : (splitDelim '\n' (c :: cs)).1 = []
      · rw [hempty]
        simp only [List.isEmpty_nil, if_true]
        rw [ih _ acc hrest]
        simp [parseNoteLine_nil]
      · rw [if_neg (by simpa [List.isEmpty_iff] using hempty)]
        cases hp : parseNoteLine (splitDelim '\n' (c :: cs)).1 with
        | none =>
          simp only []
          rw [ih _ acc hrest]
          simp [hp]
        | some note =>
          simp only []
          rw [ih _ (acc ++ [note]) hrest]
          simp [hp]

theorem loadTodosLoop_eq (fuel : Nat) :
    ∀ (file : Str) (acc : List TodoItem), file.length < fuel →
      loadTodosLoop fuel file acc = acc ++ (splitLines file).filterMap parseTodoLine := by
  induction fuel with
  | zero => intro file acc h; simp at h
  | succ f ih =>
    intro file acc hf
    cases file with
    | nil => simp [loadTodosLoop, getline, splitLines, parseTodoLine_nil]
    | cons c cs =>
      have hlen := splitDelim_snd_length '\n' (c :: cs) (by simp)
      have hrest : (splitDelim '\n' (c :: cs)).2.length < f := by
        simp only [List.length_cons] at hf hlen
        omega
      have hlines : (splitLines (c :: cs)).filterMap parseTodoLine =
          ((splitDelim '\n' (c :: cs)).1 :: splitLines (splitDelim '\n' (c :: cs)).2).filterMap
            parseTodoLine := by
        by_cases hm : '\n' ∈ c :: cs
        · rw [splitLines_of_mem _ hm]
        · rw [splitLines_of_not_mem _ hm, (splitDelim_of_not_mem_snd '\n' _ hm).1,
            (splitDelim_of_not_mem_snd '\n' _ hm).2]
          cases hp : parseTodoLine (c :: cs) <;>
            simp [splitLines, List.filterMap_cons, hp, parseTodoLine_nil]
      rw [hlines]
      simp only [loadTodosLoop, getline]
      by_cases hempty : (splitDelim '\n' (c :: cs)).1 = []
      · rw [hempty]
        simp only [List.isEmpty_nil, if_true]
        rw [ih _ acc hrest]
        simp [parseTodoLine_nil]
      · rw [if_neg (by simpa [List.isEmpty_iff] using hempty)]
        cases hp : parseTodoLine (splitDelim '\n' (c :: cs)).1 with
        | none =>
          simp only []
          rw [ih _ acc hrest]
          simp [hp]
        | some todo =>
          simp only []
          rw [ih _ (acc ++ [todo]) hrest]
          simp [hp]

theorem loadNotes_eq_filterMap (file : Str) :
    loadNotes file = (splitLines file).filterMap parseNoteLine := by
  unfold loadNotes
  rw [loadNotesLoop_eq _ file [] (Nat.lt_succ_self _)]
  simp

theorem loadTodos_eq_filterMap (file : Str) :
    loadTodos file = (splitLines file).filterMap parseTodoLine := by
  unfold loadTodos
  rw [loadTodosLoop_eq _ file [] (Nat.lt_succ_self _)]
  simp

theorem splitDelim_cases (delim : Char) (s : Str) :
    (delim ∉ s ∧ splitDelim delim s = (s, [])) ∨
      (∃ a b : Str, s = a ++ delim :: b ∧ delim ∉ a ∧ splitDelim delim s = (a, b)) := by
  by_cases h : delim ∈ s
  · right
    obtain ⟨a, b, hs, ha⟩ := List.eq_append_cons_of_mem h
    exact ⟨a, b, hs, ha, by rw [hs]; exact splitDelim_append delim a b ha⟩
  · left
    exact ⟨h, splitDelim_of_not_mem delim s h⟩

theorem getline_eq_some (delim : Char) (s a b : Str) (h : getline delim s = some (a, b)) :
    s ≠ [] ∧ splitDelim delim s = (a, b) := by
  cases s with
  | nil => simp [getline] at h
  | cons c cs =>
    simp only [getline, Option.some.injEq] at h
    exact ⟨by simp, h⟩

theorem getline_some_rest_ne_nil (delim : Char) (s a b : Str)
    (h : getline delim s = some (a, b)) (hb : b ≠ []) :
    s = a ++ delim :: b ∧ delim ∉ a := by
  obtain ⟨_, hs⟩ := getline_eq_some delim s a b h
  rcases splitDelim_cases delim s with ⟨_, h1⟩ | ⟨a', b', hs', ha', h1⟩
  · rw [h1] at hs
    exact absurd (Prod.mk.inj hs).2.symm hb
  · rw [h1] at hs
    obtain ⟨e1, e2⟩ := Prod.mk.inj hs
    subst e1 e2
    exact ⟨hs', ha'⟩

theorem getline_newline_free (s a b : Str) (hs : '\n' ∉ s)
    (h : getline '\n' s = some (a, b)) : a = s ∧ s ≠ [] := by
  obtain ⟨hne, h1⟩ := getline_eq_some '\n' s a b h
  rw [splitDelim_of_not_mem '\n' s hs] at h1
  exact ⟨(Prod.mk.inj h1).1.symm, hne⟩

theorem parseNoteLine_eq_some_iff (l : Str) (hl : '\n' ∉ l) (note : CalendarNote) :
    parseNoteLine l = some note ↔
      ∃ date flag message : Str, l = date ++ '|' :: (flag ++ '|' :: message) ∧
        '|' ∉ date ∧ '|' ∉ flag ∧ message ≠ [] ∧
        note = { date := date, message := message, is_important := decide (flag = ['1']) } := by
  constructor
  · intro h
    unfold parseNoteLine at h
    cases h1 : getline '|' l with
    | none => rw [h1] at h; simp at h
    | some p1 =>
      obtain ⟨date, r1⟩ := p1
      rw [h1] at h
      simp only at h
      cases h2 : getline '|' r1 with
      | none => rw [h2] at h; simp at h
      | some p2 =>
        obtain ⟨flag, r2⟩ := p2
        rw [h2] at h
        simp only at h
        cases h3 : getline '\n' r2 with
        | none => rw [h3] at h; simp at h
        | some p3 =>
          obtain ⟨message, r3⟩ := p3
          rw [h3] at h
          simp only [Option.some.injEq] at h
          have hr1 : r1 ≠ [] := (getline_eq_some '|' r1 flag r2 h2).1
          have hr2 : r2 ≠ [] := (getline_eq_some '\n' r2 message r3 h3).1
          obtain ⟨el, hd⟩ := getline_some_rest_ne_nil '|' l date r1 h1 hr1
          obtain ⟨er1, hf⟩ := getline_some_rest_ne_nil '|' r1 flag r2 h2 hr2
          have hnl : '\n' ∉ r2 := by
            intro hm
            apply hl
            rw [el, er1]
            simp [hm]
          obtain ⟨em, _⟩ := getline_newline_free r2 message r3 hnl h3
          subst em
          refine ⟨date, flag, message, ?_, hd, hf, hr2, h.symm⟩
          rw [el, er1]
  · rintro ⟨date, flag, message, el, hd, hf, hm, hn⟩
    have hnl : '\n' ∉ message := by
      intro hmem
      apply hl
      rw [el]
      simp [hmem]
    subst el hn
    simp only [parseNoteLine, getline_append '|' date _ hd, getline_append '|' flag _ hf,
      getline_of_not_mem '\n' message hnl hm]

theorem parseTodoLine_eq_some_iff (l : Str) (hl : '\n' ∉ l) (todo : TodoItem) :
    parseTodoLine l = some todo ↔
      ∃ flag time text : Str, l = flag ++ '|' :: (time ++ '|' :: text) ∧
        '|' ∉ flag ∧ '|' ∉ time ∧ text ≠ [] ∧
        todo = { text := text, completed := decide (flag = ['1']), time := time } := by
  constructor
  · intro h
    unfold parseTodoLine at h
    cases h1 : getline '|' l with
    | none => rw [h1] at h; simp at h
    | some p1 =>
      obtain ⟨flag, r1⟩ := p1
      rw [h1] at h
      simp only at h
      cases h2 : getline '|' r1 with
      | none => rw [h2] at h; simp at h
      | some p2 =>
        obtain ⟨time, r2⟩ := p2
        rw [h2] at h
        simp only at h
        cases h3 : getline '\n' r2 with
        | none => rw [h3] at h; simp at h
        | some p3 =>
          obtain ⟨text, r3⟩ := p3
          rw [h3] at h
          simp only [Option.some.injEq] at h
          have hr1 : r1 ≠ [] := (getline_eq_some '|' r1 time r2 h2).1
          have hr2 : r2 ≠ [] := (getline_eq_some '\n' r2 text r3 h3).1
          obtain ⟨el, hd⟩ := getline_some_rest_ne_nil '|' l flag r1 h1 hr1
          obtain ⟨er1, hf⟩ := getline_some_rest_ne_nil '|' r1 time r2 h2 hr2
          have hnl : '\n' ∉ r2 := by
            intro hm
            apply hl
            rw [el, er1]
            simp [hm]
          obtain ⟨em, _⟩ := getline_newline_free r2 text r3 hnl h3
          subst em
          refine ⟨flag, time, text, ?_, hd, hf, hr2, h.symm⟩
          rw [el, er1]
  · rintro ⟨flag, time, text, el, hd, hf, hm, hn⟩
    have hnl : '\n' ∉ text := by
      intro hmem
      apply hl
      rw [el]
      simp [hmem]
    subst el hn
    simp only [parseTodoLine, getline_append '|' flag _ hd, getline_append '|' time _ hf,
      getline_of_not_mem '\n' text hnl hm]

/-- C17 (as amended): for every store file content, `loadNotes` and
`loadTodos` return, in file order, exactly the records of the lines that hold
at least two delimiter characters and a non-empty rest after the second one:
the first two fields are the texts before the first and before the second
delimiter, the third field is the whole rest of the line, further delimiters
included. Every other line (empty, fewer than two delimiters, nothing after
the second delimiter) is skipped, and skipping it never prevents the lines
after it from being loaded. -/
theorem C17_load_keeps_lines_with_two_delimiters (file : Str) :
    loadNotes file = (splitLines file).filterMap parseNoteLine ∧
      loadTodos file = (splitLines file).filterMap parseTodoLine ∧
      List.intercalate ['\n'] (splitLines file) = file ∧
      (∀ l ∈ splitLines file, '\n' ∉ l ∧
        (∀ note : CalendarNote, parseNoteLine l = some note ↔
          ∃ date flag message : Str, l = date ++ '|' :: (flag ++ '|' :: message) ∧
            '|' ∉ date ∧ '|' ∉ flag ∧ message ≠ [] ∧
            note = { date := date, message := message,
                     is_important := decide (flag = ['1']) }) ∧
        (∀ todo : TodoItem, parseTodoLine l = some todo ↔
          ∃ flag time text : Str, l = flag ++ '|' :: (time ++ '|' :: text) ∧
            '|' ∉ flag ∧ '|' ∉ time ∧ text ≠ [] ∧
            todo = { text := text, completed := decide (flag = ['1']), time := time })) :=
  ⟨loadNotes_eq_filterMap file, loadTodos_eq_filterMap file, splitLines_intercalate file,
    fun l hl => ⟨splitLines_no_newline file l hl,
      parseNoteLine_eq_some_iff l (splitLines_no_newline file l hl),
      parseTodoLine_eq_some_iff l (splitLines_no_newline file l hl)⟩⟩

/-- C17 (counterexample): a line with four delimiter-separated fields is not
skipped, it is loaded with the last two fields joined in the message; and a
line with exactly three fields whose third field is empty is skipped. -/
theorem C17_counterexample_four_fields_loaded :
    loadNotes ['a', '|', '0', '|', 'b', '|', 'c', '\n']
        = [{ date := ['a'], message := ['b', '|', 'c'], is_important := false }] ∧
      loadTodos ['1', '|', 'x', '|', 'b', '|', 'c', '\n']
        = [{ text := ['b', '|', 'c'], completed := true, time := ['x'] }] ∧
      loadNotes ['a', '|', '0', '|', '\n', 'd', '|', '1', '|', 'm', '\n']
        = [{ date := ['d'], message := ['m'], is_important := true }] := by
  decide

/-! ## C18: the delimiter inside a field -/

theorem splitDelim_fst_not_mem (delim : Char) (s : Str) : delim ∉ (splitDelim delim s).1 := by
  rcases splitDelim_cases delim s with ⟨h, h1⟩ | ⟨a, b, _, ha, h1⟩
  · rw [h1]; exact h
  · rw [h1]; exact ha

theorem parseNoteLine_date_no_delim (l : Str) (note : CalendarNote)
    (h : parseNoteLine l = some note) : '|' ∉ note.date := by
  unfold parseNoteLine at h
  cases h1 : getline '|' l with
  | none => rw [h1] at h; simp at h
  | some p1 =>
    obtain ⟨date, r1⟩ := p1
    rw [h1] at h
    simp only at h
    cases h2 : getline '|' r1 with
    | none => rw [h2] at h; simp at h
    | some p2 =>
      obtain ⟨flag, r2⟩ := p2
      rw [h2] at h
      simp only at h
      cases h3 : getline '\n' r2 with
      | none => rw [h3] at h; simp at h
      | some p3 =>
        rw [h3] at h
        simp only [Option.some.injEq] at h
        rw [← h]
        have := (getline_eq_some '|' l date r1 h1).2
        have hd := splitDelim_fst_not_mem '|' l
        rw [this] at hd
        exact hd

theorem parseTodoLine_time_no_delim (l : Str) (todo : TodoItem)
    (h : parseTodoLine l = some todo) : '|' ∉ todo.time := by
  unfold parseTodoLine at h
  cases h1 : getline '|' l with
  | none => rw [h1] at h; simp at h
  | some p1 =>
    obtain ⟨flag, r1⟩ := p1
    rw [h1] at h
    simp only at h
    cases h2 : getline '|' r1 with
    | none => rw [h2] at h; simp at h
    | some p2 =>
      obtain ⟨time, r2⟩ := p2
      rw [h2] at h
      simp only at h
      cases h3 : getline '\n' r2 with
      | none => rw [h3] at h; simp at h
      | some p3 =>
        rw [h3] at h
        simp only [Option.some.injEq] at h
        rw [← h]
        have := (getline_eq_some '|' r1 time r2 h2).2
        have hd := splitDelim_fst_not_mem '|' r1
        rw [this] at hd
        exact hd

theorem loadNotes_date_no_delim (file : Str) :
    ∀ note ∈ loadNotes file, '|' ∉ note.date := by
  intro note hn
  rw [loadNotes_eq_filterMap, List.mem_filterMap] at hn
  obtain ⟨l, _, hl⟩ := hn
  exact parseNoteLine_date_no_delim l note hl

theorem loadTodos_time_no_delim (file : Str) :
    ∀ todo ∈ loadTodos file, '|' ∉ todo.time := by
  intro todo hn
  rw [loadTodos_eq_filterMap, List.mem_filterMap] at hn
  obtain ⟨l, _, hl⟩ := hn
  exact parseTodoLine_time_no_delim l todo hl

/-- C18 (as amended): for every notes collection holding a note whose date
contains the delimiter character, and for every task list holding a task whose
time contains it, saving the collection and loading it again gives a
collection that differs from the saved one, because no loaded note has a
delimiter in its date and no loaded task has one in its time. A delimiter in a
note message or in a task text is read back unchanged: a collection whose
dates and times are free of the delimiter, whose fields are free of newlines
and whose messages and texts are not empty is loaded identical, whatever
delimiters its messages and texts contain. -/
theorem C18_delimiter_in_date_or_time_corrupts (notes : List CalendarNote)
    (todos : List TodoItem) :
    ((∃ note ∈ notes, '|' ∈ note.date) → loadNotes (saveNotes notes) ≠ notes) ∧
      ((∃ todo ∈ todos, '|' ∈ todo.time) → loadTodos (saveTodos todos) ≠ todos) ∧
      ((∀ note ∈ notes, '|' ∉ note.date ∧ '\n' ∉ note.date ∧ '\n' ∉ note.message ∧
          note.message ≠ []) → loadNotes (saveNotes notes) = notes) ∧
      ((∀ todo ∈ todos, '|' ∉ todo.time ∧ '\n' ∉ todo.time ∧ '\n' ∉ todo.text ∧
          todo.text ≠ []) → loadTodos (saveTodos todos) = todos) := by
  refine ⟨?_, ?_, fun h => loadNotes_saveNotes notes h, fun h => loadTodos_saveTodos todos h⟩
  · rintro ⟨note, hn, hd⟩ heq
    have := loadNotes_date_no_delim (saveNotes notes) note (by rw [heq]; exact hn)
    exact this hd
  · rintro ⟨todo, hn, hd⟩ heq
    have := loadTodos_time_no_delim (saveTodos todos) todo (by rw [heq]; exact hn)
    exact this hd

theorem C18_witness :
    (∃ note ∈ [({ date := ['a', '|', 'b'], message := ['m'], is_important := false } : CalendarNote)],
        '|' ∈ note.date) ∧
      loadNotes (saveNotes [{ date := ['a', '|', 'b'], message := ['m'], is_important := false }])
        ≠ [{ date := ['a', '|', 'b'], message := ['m'], is_important := false }] :=
  ⟨by decide,
    (C18_delimiter_in_date_or_time_corrupts
      [{ date := ['a', '|', 'b'], message := ['m'], is_important := false }] []).1 (by decide)⟩

/-- C18 (counterexample): a note whose message contains the delimiter and a
task whose text contains it are saved and loaded back unchanged. -/
theorem C18_counterexample_delimiter_in_message_survives :
    '|' ∈ ['a', '|', 'b'] ∧
      loadNotes (saveNotes [{ date := ['d'], message := ['a', '|', 'b'], is_important := true }])
        = [{ date := ['d'], message := ['a', '|', 'b'], is_important := true }] ∧
      loadTodos (saveTodos [{ text := ['a', '|', 'b'], completed := false, time := ['t'] }])
        = [{ text := ['a', '|', 'b'], completed := false, time := ['t'] }] := by
  decide

/-! ## C19, C20: the empty note text and the pre-filled editor -/

/-- C19: for every notes collection and every date d (the date the editor was
opened for), confirming the note editor with the empty text leaves no note
with date d and leaves the notes of every other date unchanged and in the same
relative order. -/
theorem C19_empty_note_text_deletes (s : State) (he : s.note_entry = true) :
    (on_save_note s []).notes
        = s.notes.filter (fun note => !decide (note.date = s.selected_date_str)) ∧
      (∀ note ∈ (on_save_note s []).notes, note.date ≠ s.selected_date_str) ∧
      (on_save_note s []).notes.filter (fun note => decide (note.date = s.selected_date_str))
        = [] ∧
      (on_save_note s []).notes.filter (fun note => !decide (note.date = s.selected_date_str))
        = s.notes.filter (fun note => !decide (note.date = s.selected_date_str)) := by
  have hnotes : (on_save_note s []).notes
      = s.notes.filter (fun note => !decide (note.date = s.selected_date_str)) := by
    simp [on_save_note, he, hideNotePopup]
  refine ⟨hnotes, ?_, ?_, ?_⟩
  · intro note hn
    rw [hnotes, List.mem_filter] at hn
    simpa using hn.2
  · rw [hnotes, List.filter_filter]
    simp
  · rw [hnotes, List.filter_filter]
    simp

theorem C19_witness :
    (showNotePopup (run (construct utc feb15
        ['d', '|', '0', '|', 'a', '\n', 'e', '|', '0', '|', 'b', '\n'] [])) ['d']).note_entry = true ∧
      (on_save_note (showNotePopup (run (construct utc feb15
        ['d', '|', '0', '|', 'a', '\n', 'e', '|', '0', '|', 'b', '\n'] [])) ['d']) []).notes
        = [{ date := ['e'], message := ['b'], is_important := false }] :=
  ⟨rfl, by
    rw [(C19_empty_note_text_deletes (showNotePopup (run (construct utc feb15
        ['d', '|', '0', '|', 'a', '\n', 'e', '|', '0', '|', 'b', '\n'] [])) ['d']) rfl).1]
    decide⟩

theorem getNoteForDate_cons_eq (n : CalendarNote) (rest : List CalendarNote) (date : Str)
    (h : n.date = date) : getNoteForDate (n :: rest) date = n.message := by
  simp only [getNoteForDate, if_pos h]

theorem getNoteForDate_cons_ne (n : CalendarNote) (rest : List CalendarNote) (date : Str)
    (h : n.date ≠ date) : getNoteForDate (n :: rest) date = getNoteForDate rest date := by
  simp only [getNoteForDate, if_neg h]

theorem getNoteForDate_append (a b : List CalendarNote) (date : Str) :
    getNoteForDate (a ++ b) date =
      if a.any (fun note => decide (note.date = date)) then getNoteForDate a date
      else getNoteForDate b date := by
  induction a with
  | nil => simp
  | cons n rest ih =>
    by_cases h : n.date = date
    · rw [List.cons_append, getNoteForDate_cons_eq _ _ _ h, getNoteForDate_cons_eq _ _ _ h]
      simp [h]
    · rw [List.cons_append, getNoteForDate_cons_ne _ _ _ h, getNoteForDate_cons_ne _ _ _ h, ih]
      simp [h]

theorem getNoteForDate_filter_ne (notes : List CalendarNote) (d date : Str) (h : date ≠ d) :
    getNoteForDate (notes.filter (fun note => !decide (note.date = d))) date
      = getNoteForDate notes date := by
  induction notes with
  | nil => rfl
  | cons n rest ih =>
    by_cases hd : n.date = d
    · have hnd : n.date ≠ date := fun e => h (e.symm.trans hd)
      rw [List.filter_cons_of_neg (by simp [hd]), getNoteForDate_cons_ne _ _ _ hnd, ih]
    · rw [List.filter_cons_of_pos (by simp [hd])]
      by_cases hdate : n.date = date
      · rw [getNoteForDate_cons_eq _ _ _ hdate, getNoteForDate_cons_eq _ _ _ hdate]
      · rw [getNoteForDate_cons_ne _ _ _ hdate, getNoteForDate_cons_ne _ _ _ hdate, ih]

theorem getNoteForDate_of_no_note (notes : List CalendarNote) (date : Str)
    (h : ∀ note ∈ notes, note.date ≠ date) : getNoteForDate notes date = [] := by
  induction notes with
  | nil => rfl
  | cons n rest ih =>
    have hn : n.date ≠ date := h n (by simp)
    simp only [getNoteForDate, if_neg hn]
    exact ih (fun note hm => h note (by simp [hm]))

theorem prefillText_eq (s : State) (date : Str) :
    prefillText s date = getNoteForDate s.notes date := by
  unfold prefillText
  simp only
  split_ifs with h
  · exact (List.isEmpty_iff.1 h).symm
  · rfl

/-- C20: for every notes collection, every date d and every non-empty text t:
after the note editor for d is confirmed with t, opening the editor for d again
pre-fills exactly t (`getNoteForDate(d)` is t), the pre-fill of every other
date is what it was before, and a date with no note pre-fills the empty
text. -/
theorem C20_prefill_after_save (s : State) (t : Str) (he : s.note_entry = true) (ht : t ≠ []) :
    getNoteForDate (on_save_note s t).notes s.selected_date_str = t ∧
      prefillText (on_save_note s t) s.selected_date_str = t ∧
      (∀ date : Str, date ≠ s.selected_date_str →
        getNoteForDate (on_save_note s t).notes date = getNoteForDate s.notes date ∧
        prefillText (on_save_note s t) date = prefillText s date) ∧
      (∀ (s0 : State) (date : Str), (∀ note ∈ s0.notes, note.date ≠ date) →
        getNoteForDate s0.notes date = [] ∧ prefillText s0 date = []) := by
  have hne : ¬ t.isEmpty = true := by simpa [List.isEmpty_iff] using ht
  have hnotes : (on_save_note s t).notes
      = s.notes.filter (fun note => !decide (note.date = s.selected_date_str))
        ++ [{ date := s.selected_date_str, message := t, is_important := false }] := by
    simp [on_save_note, he, hne, hideNotePopup]
  have hself : getNoteForDate (on_save_note s t).notes s.selected_date_str = t := by
    rw [hnotes, getNoteForDate_append]
    have hnone : (s.notes.filter (fun note => !decide (note.date = s.selected_date_str))).any
        (fun note => decide (note.date = s.selected_date_str)) = false := by
      rw [List.any_eq_false]
      intro note hn
      rw [List.mem_filter] at hn
      simpa using hn.2
    rw [hnone]
    simp [getNoteForDate]
  have hother : ∀ date : Str, date ≠ s.selected_date_str →
      getNoteForDate (on_save_note s t).notes date = getNoteForDate s.notes date := by
    intro date hd
    rw [hnotes, getNoteForDate_append]
    split_ifs with h
    · exact getNoteForDate_filter_ne s.notes _ date hd
    · have h1 : getNoteForDate
          [({ date := s.selected_date_str, message := t, is_important := false } : CalendarNote)]
          date = [] := by
        simp [getNoteForDate, Ne.symm hd]
      rw [h1, ← getNoteForDate_filter_ne s.notes s.selected_date_str date hd]
      symm
      apply getNoteForDate_of_no_note
      intro note hn hdate
      apply h
      rw [List.any_eq_true]
      exact ⟨note, hn, by simpa using hdate⟩
  refine ⟨hself, ?_, ?_, ?_⟩
  · rw [prefillText_eq, hself]
  · intro date hd
    exact ⟨hother date hd, by rw [prefillText_eq, prefillText_eq, hother date hd]⟩
  · intro s0 date h
    have := getNoteForDate_of_no_note s0.notes date h
    exact ⟨this, by rw [prefillText_eq, this]⟩

theorem C20_witness :
    (showNotePopup (run (construct utc feb15 ['d', '|', '0', '|', 'a', '\n'] []))
        ['d']).note_entry = true ∧ ['b'] ≠ ([] : Str) ∧
      prefillText (on_save_note (showNotePopup (run (construct utc feb15
        ['d', '|', '0', '|', 'a', '\n'] [])) ['d']) ['b']) ['d'] = ['b'] :=
  ⟨rfl, by decide,
    (C20_prefill_after_save (showNotePopup (run (construct utc feb15
      ['d', '|', '0', '|', 'a', '\n'] [])) ['d']) ['b'] rfl (by decide)).2.1⟩

/-! ## C21, C22: confirm and cancel -/

theorem applyAction_entries (s : State) (a : Action)
    (hn : s.showing_note_popup = true → s.note_entry = true)
    (ht : s.showing_todo_popup = true → s.todo_entry = true) :
    ((applyAction s a).showing_note_popup = true → (applyAction s a).note_entry = true) ∧
      ((applyAction s a).showing_todo_popup = true → (applyAction s a).todo_entry = true) := by
  cases a with
  | navigate direction => exact ⟨hn, ht⟩
  | openNote clicked_day => exact ⟨fun _ => rfl, ht⟩
  | openTodo => exact ⟨hn, fun _ => rfl⟩
  | toggle clicked_item => exact ⟨hn, ht⟩
  | delete clicked_item =>
    simp only [applyAction, updateWindowSize]
    split_ifs <;> exact ⟨hn, ht⟩
  | drag => exact ⟨hn, ht⟩

theorem on_motion_notify_entries (s : State) (ex ey : ℚ) :
    (on_motion_notify s ex ey).note_entry = s.note_entry ∧
      (on_motion_notify s ex ey).todo_entry = s.todo_entry := by
  unfold on_motion_notify
  dsimp only
  split_ifs <;> first | exact ⟨rfl, rfl⟩ | (split <;> exact ⟨rfl, rfl⟩)

theorem step_entries (s : State) (e : Event)
    (hn : s.showing_note_popup = true → s.note_entry = true)
    (ht : s.showing_todo_popup = true → s.todo_entry = true) :
    ((step s e).showing_note_popup = true → (step s e).note_entry = true) ∧
      ((step s e).showing_todo_popup = true → (step s e).todo_entry = true) := by
  cases e with
  | button_press button ex ey =>
    simp only [step, on_button_press]
    split_ifs
    · exact ⟨hn, ht⟩
    · exact applyAction_entries s _ hn ht
    · exact ⟨hn, ht⟩
  | motion ex ey =>
    simp only [step]
    rw [(on_motion_notify_flags s ex ey).1, (on_motion_notify_flags s ex ey).2,
      (on_motion_notify_entries s ex ey).1, (on_motion_notify_entries s ex ey).2]
    exact ⟨hn, ht⟩
  | leave => exact ⟨hn, ht⟩
  | tick now =>
    simp only [step, update_display]
    split_ifs <;> exact ⟨hn, ht⟩
  | save_note message =>
    simp only [step, on_save_note]
    split_ifs
    · exact ⟨hn, ht⟩
    · exact ⟨fun h => by simp [hideNotePopup] at h, ht⟩
    · exact ⟨fun h => by simp [hideNotePopup] at h, ht⟩
  | cancel_note => exact ⟨fun h => by simp [step, on_cancel_note, hideNotePopup] at h, ht⟩
  | save_todo task =>
    simp only [step, on_save_todo]
    split_ifs
    · exact ⟨hn, ht⟩
    · exact ⟨hn, fun h => by simp [hideTodoPopup] at h⟩
    · refine ⟨?_, fun h => by simp [hideTodoPopup] at h⟩
      simp only [hideTodoPopup, updateWindowSize]
      split_ifs <;> exact hn
  | cancel_todo => exact ⟨hn, fun h => by simp [step, on_cancel_todo, hideTodoPopup] at h⟩

theorem reachable_popup_invariant (s : State) (hr : Reachable s) :
    ¬ (s.showing_note_popup = true ∧ s.showing_todo_popup = true) ∧
      (s.showing_note_popup = true → s.note_entry = true) ∧
      (s.showing_todo_popup = true → s.todo_entry = true) := by
  obtain ⟨zone, now, notes_file, todos_file, hr⟩ := hr
  induction hr with
  | start => simp [run, construct]
  | next s e _ _ ih =>
    exact ⟨step_not_both s e ih.1, step_entries s e ih.2.1 ih.2.2⟩

/-- C21: the initial state is Idle (both popup flags false), and every confirm
gesture, from EditingNote with any text (empty or not) and from AddingTask with
any text (empty or not), ends in Idle. -/
theorem C21_confirm_returns_to_idle (s : State) (hr : Reachable s) (text : Str) :
    (∀ (zone : Zone) (now : Tm) (notes_file todos_file : Str),
        Idle (construct zone now notes_file todos_file) ∧
        Idle (run (construct zone now notes_file todos_file))) ∧
      (s.showing_note_popup = true → Idle (on_save_note s text)) ∧
      (s.showing_todo_popup = true → Idle (on_save_todo s text)) := by
  obtain ⟨hnb, hn, ht⟩ := reachable_popup_invariant s hr
  refine ⟨fun _ _ _ _ => ⟨⟨rfl, rfl⟩, ⟨rfl, rfl⟩⟩, ?_, ?_⟩
  · intro h
    have hte : s.showing_todo_popup = false := by
      cases h2 : s.showing_todo_popup
      · rfl
      · exact absurd ⟨h, h2⟩ hnb
    have he := hn h
    unfold on_save_note
    rw [if_neg (by simp [he])]
    split_ifs <;> exact ⟨rfl, hte⟩
  · intro h
    have hne : s.showing_note_popup = false := by
      cases h2 : s.showing_note_popup
      · rfl
      · exact absurd ⟨h2, h⟩ hnb
    have he := ht h
    unfold on_save_todo
    rw [if_neg (by simp [he])]
    split_ifs
    · exact ⟨hne, rfl⟩
    · refine ⟨?_, rfl⟩
      simp only [hideTodoPopup, updateWindowSize]
      split_ifs <;> exact hne

theorem C21_witness :
    Reachable (step tenTasksState (Event.button_press 1 350 300)) ∧
      (step tenTasksState (Event.button_press 1 350 300)).showing_todo_popup = true ∧
      Idle (on_save_todo (step tenTasksState (Event.button_press 1 350 300)) ['k']) :=
  ⟨⟨_, _, _, _, ReachableFrom.next _ _ ReachableFrom.start rfl⟩, by decide!,
    (C21_confirm_returns_to_idle (step tenTasksState (Event.button_press 1 350 300))
      ⟨_, _, _, _, ReachableFrom.next _ _ ReachableFrom.start rfl⟩ ['k']).2.2 (by decide!)⟩

/-- What an event that is not an editor gesture leaves unchanged while a popup
is shown. -/
theorem step_while_popup (s : State) (e : Event) (he : e.isEditor = false)
    (hp : s.showing_note_popup = true ∨ s.showing_todo_popup = true) :
    (step s e).showing_note_popup = s.showing_note_popup ∧
      (step s e).showing_todo_popup = s.showing_todo_popup ∧
      (step s e).notes = s.notes ∧ (step s e).todos = s.todos ∧
      (step s e).display_date = s.display_date ∧ (step s e).total_height = s.total_height := by
  cases e with
  | button_press button ex ey =>
    have hs : step s (Event.button_press button ex ey) = s := by
      rcases hp with h | h <;> simp [step, on_button_press, h]
    rw [hs]
    exact ⟨rfl, rfl, rfl, rfl, rfl, rfl⟩
  | motion ex ey =>
    have hs : step s (Event.motion ex ey) = s := by
      rcases hp with h | h <;> simp [step, on_motion_notify, h]
    rw [hs]
    exact ⟨rfl, rfl, rfl, rfl, rfl, rfl⟩
  | leave => exact ⟨rfl, rfl, rfl, rfl, rfl, rfl⟩
  | tick now =>
    simp only [step, update_display]
    split_ifs <;> exact ⟨rfl, rfl, rfl, rfl, rfl, rfl⟩
  | save_note message => simp [Event.isEditor] at he
  | cancel_note => simp [Event.isEditor] at he
  | save_todo task => simp [Event.isEditor] at he
  | cancel_todo => simp [Event.isEditor] at he

theorem runEvents_while_popup (es : List Event) (hes : ∀ e ∈ es, e.isEditor = false) :
    ∀ s : State, (s.showing_note_popup = true ∨ s.showing_todo_popup = true) →
      (runEvents s es).showing_note_popup = s.showing_note_popup ∧
      (runEvents s es).showing_todo_popup = s.showing_todo_popup ∧
      (runEvents s es).notes = s.notes ∧ (runEvents s es).todos = s.todos ∧
      (runEvents s es).display_date = s.display_date ∧
      (runEvents s es).total_height = s.total_height := by
  induction es with
  | nil => intro s _; exact ⟨rfl, rfl, rfl, rfl, rfl, rfl⟩
  | cons e rest ih =>
    intro s hp
    obtain ⟨a1, a2, a3, a4, a5, a6⟩ := step_while_popup s e (hes e (by simp)) hp
    have hp2 : (step s e).showing_note_popup = true ∨ (step s e).showing_todo_popup = true := by
      rw [a1, a2]; exact hp
    obtain ⟨b1, b2, b3, b4, b5, b6⟩ := ih (fun e' h => hes e' (by simp [h])) (step s e) hp2
    have e0 : runEvents s (e :: rest) = runEvents (step s e) rest := rfl
    rw [e0]
    exact ⟨b1.trans a1, b2.trans a2, b3.trans a3, b4.trans a4, b5.trans a5, b6.trans a6⟩

/-- C22: for every state in EditingNote or AddingTask, reached from an Idle
state by opening the editor and followed by any pointer and tick events while
the editor is open, and whatever text has been typed, the cancel gesture ends
in Idle and leaves the notes, the tasks, the display cursor and the widget
height exactly as they were before the editor was opened. -/
theorem C22_cancel_discards_the_edit (s0 : State) (date : Str) (es : List Event)
    (hidle : Idle s0) (hes : ∀ e ∈ es, e.isEditor = false) :
    (Idle (on_cancel_note (runEvents (showNotePopup s0 date) es)) ∧
      (on_cancel_note (runEvents (showNotePopup s0 date) es)).notes = s0.notes ∧
      (on_cancel_note (runEvents (showNotePopup s0 date) es)).todos = s0.todos ∧
      (on_cancel_note (runEvents (showNotePopup s0 date) es)).display_date = s0.display_date ∧
      (on_cancel_note (runEvents (showNotePopup s0 date) es)).total_height = s0.total_height) ∧
    (Idle (on_cancel_todo (runEvents (showTodoPopup s0) es)) ∧
      (on_cancel_todo (runEvents (showTodoPopup s0) es)).notes = s0.notes ∧
      (on_cancel_todo (runEvents (showTodoPopup s0) es)).todos = s0.todos ∧
      (on_cancel_todo (runEvents (showTodoPopup s0) es)).display_date = s0.display_date ∧
      (on_cancel_todo (runEvents (showTodoPopup s0) es)).total_height = s0.total_height) := by
  constructor
  · obtain ⟨_, a2, a3, a4, a5, a6⟩ :=
      runEvents_while_popup es hes (showNotePopup s0 date) (Or.inl rfl)
    refine ⟨⟨rfl, ?_⟩, a3, a4, a5, a6⟩
    show (runEvents (showNotePopup s0 date) es).showing_todo_popup = false
    rw [a2]
    exact hidle.2
  · obtain ⟨a1, _, a3, a4, a5, a6⟩ :=
      runEvents_while_popup es hes (showTodoPopup s0) (Or.inr rfl)
    refine ⟨⟨?_, rfl⟩, a3, a4, a5, a6⟩
    show (runEvents (showTodoPopup s0) es).showing_note_popup = false
    rw [a1]
    exact hidle.1

theorem C22_witness :
    Idle tenTasksState ∧
      (∀ e ∈ [Event.button_press 1 20 20, Event.leave], e.isEditor = false) ∧
      (on_cancel_note (runEvents (showNotePopup tenTasksState ['d'])
        [Event.button_press 1 20 20, Event.leave])).display_date = tenTasksState.display_date :=
  ⟨⟨rfl, rfl⟩, by decide,
    (C22_cancel_discards_the_edit tenTasksState ['d'] [Event.button_press 1 20 20, Event.leave]
      ⟨rfl, rfl⟩ (by decide)).1.2.2.2.1⟩

/-! ## C23: the draw loop -/

theorem drawDaysLoop_after_first (sx sy cw ch fw dim : Int) :
    ∀ (left : Nat) (pos cur : Int), fw ≤ pos →
      drawDaysLoop sx sy cw ch fw dim left pos cur =
        (List.range (min left (dim - cur + 1).toNat)).map (fun k : Nat =>
          ({ day := cur + k, dx := sx + (pos + k) % 7 * cw,
             dy := sy + 20 + (pos + k) / 7 * ch } : DayCell)) := by
  intro left
  induction left with
  | zero => intro pos cur _; simp [drawDaysLoop]
  | succ n ih =>
    intro pos cur hpos
    unfold drawDaysLoop
    by_cases hcur : cur ≤ dim
    · rw [if_pos hcur, if_pos hpos, ih (pos + 1) (cur + 1) (by omega)]
      have hmin : min (n + 1) (dim - cur + 1).toNat = min n (dim - (cur + 1) + 1).toNat + 1 := by
        omega
      rw [hmin, List.range_succ_eq_map, List.map_cons, List.map_map]
      refine congrArg₂ List.cons ?_ ?_
      · simp
      · apply List.map_congr_left
        intro k _
        simp only [Function.comp, Nat.succ_eq_add_one, Nat.cast_add, Nat.cast_one]
        have e1 : cur + 1 + (k : Int) = cur + ((k : Int) + 1) := by ring
        have e2 : pos + 1 + (k : Int) = pos + ((k : Int) + 1) := by ring
        rw [e1, e2]
    · rw [if_neg hcur]
      have hmin : min (n + 1) (dim - cur + 1).toNat = 0 := by omega
      rw [hmin]
      rfl

theorem drawDaysLoop_before_first (sx sy cw ch fw dim : Int) :
    ∀ (gap left : Nat) (pos cur : Int), pos + gap = fw → cur ≤ dim →
      drawDaysLoop sx sy cw ch fw dim (gap + left) pos cur =
        drawDaysLoop sx sy cw ch fw dim left fw cur := by
  intro gap
  induction gap with
  | zero =>
    intro left pos cur h _
    have : pos = fw := by simpa using h
    rw [this, Nat.zero_add]
  | succ g ih =>
    intro left pos cur h hcur
    have e : g + 1 + left = (g + left) + 1 := by omega
    rw [e]
    conv_lhs => unfold drawDaysLoop
    rw [if_pos hcur, if_neg (by push_cast at h; omega)]
    exact ih left (pos + 1) cur (by push_cast at h ⊢; omega) hcur

theorem drawCalendarDays_eq (z : Zone) (t : Tm) (x y w : Int) :
    drawCalendarDays z t x y w =
      (List.range (daysInMonth z t).toNat).map (fun k : Nat =>
        ({ day := 1 + k, dx := x + 20 + (firstWeekday z t + k) % 7 * Int.tdiv (w - 40) 7,
           dy := y + 40 + 10 + 20 + (firstWeekday z t + k) / 7 * 28 } : DayCell)) := by
  have hf := firstWeekday_range z t
  have hd := daysInMonth_range z t
  unfold drawCalendarDays
  simp only
  have e : (42 : Nat) = (firstWeekday z t).toNat + (42 - (firstWeekday z t).toNat) := by omega
  rw [e, drawDaysLoop_before_first _ _ _ _ _ _ (firstWeekday z t).toNat _ 0 1 (by omega) (by omega),
    drawDaysLoop_after_first _ _ _ _ _ _ _ _ _ (le_refl _)]
  have hmin : min (42 - (firstWeekday z t).toNat) (daysInMonth z t - 1 + 1).toNat
      = (daysInMonth z t).toNat := by omega
  rw [hmin]

/-- C23: for every displayed month, the calendar draw loop places every day N
from 1 to daysInMonth exactly once and in this order, at grid position
pos = N - 1 + firstWeekday with col = pos mod 7 and row = pos div 7, and every
such pos is below 42 (row <= 5), so the 42-cell bound of the loop never leaves
a day of any month undrawn. -/
theorem C23_draw_loop_places_every_day_once (z : Zone) (t : Tm) (x y w : Int) :
    drawCalendarDays z t x y w =
        (List.range (daysInMonth z t).toNat).map (fun k : Nat =>
          ({ day := 1 + k, dx := x + 20 + (firstWeekday z t + k) % 7 * Int.tdiv (w - 40) 7,
             dy := y + 40 + 10 + 20 + (firstWeekday z t + k) / 7 * 28 } : DayCell)) ∧
      (drawCalendarDays z t x y w).map (fun cell => cell.day)
        = (List.range (daysInMonth z t).toNat).map (fun k : Nat => (1 + k : Int)) ∧
      ((drawCalendarDays z t x y w).map (fun cell => cell.day)).Nodup ∧
      (∀ N : Int, 1 ≤ N → N ≤ daysInMonth z t →
        ({ day := N, dx := x + 20 + (N - 1 + firstWeekday z t) % 7 * Int.tdiv (w - 40) 7,
           dy := y + 40 + 10 + 20 + (N - 1 + firstWeekday z t) / 7 * 28 } : DayCell)
          ∈ drawCalendarDays z t x y w ∧
        0 ≤ N - 1 + firstWeekday z t ∧ N - 1 + firstWeekday z t < 42 ∧
        (N - 1 + firstWeekday z t) / 7 ≤ 5) := by
  have hf := firstWeekday_range z t
  have hd := daysInMonth_range z t
  have hdays : (drawCalendarDays z t x y w).map (fun cell => cell.day)
      = (List.range (daysInMonth z t).toNat).map (fun k : Nat => (1 + k : Int)) := by
    rw [drawCalendarDays_eq, List.map_map]
    rfl
  refine ⟨drawCalendarDays_eq z t x y w, hdays, ?_, ?_⟩
  · rw [hdays]
    apply List.Nodup.map _ (List.nodup_range _)
    intro a b hab
    simp only at hab
    omega
  · intro N h1 h2
    refine ⟨?_, by omega, by omega, by omega⟩
    rw [drawCalendarDays_eq, List.mem_map]
    refine ⟨(N - 1).toNat, List.mem_range.2 (by omega), ?_⟩
    have e1 : ((N - 1).toNat : Int) = N - 1 := Int.toNat_of_nonneg (by omega)
    rw [e1]
    have e2 : firstWeekday z t + (N - 1) = N - 1 + firstWeekday z t := by ring
    have e3 : 1 + (N - 1) = N := by ring
    rw [e2, e3]

/-! ## C24: the header navigation zones -/

theorem civil_of_overflow (t : Tm) (h0 : 0 ≤ t.tm_mon) (h1 : t.tm_mon ≤ 11)
    (hd0 : gregorianLength (t.tm_year + 1900) t.tm_mon < t.tm_mday) (hd1 : t.tm_mday ≤ 31) :
    (civil_from_days (tmSerial t)).2.2
      = t.tm_mday - gregorianLength (t.tm_year + 1900) t.tm_mon := by
  have hb := gregorianLength_bounds (t.tm_year + 1900) t.tm_mon
  have hn := days_from_civil_next (t.tm_year + 1900) t.tm_mon h0 h1
  rw [tmSerial_of_mon t h0 h1]
  by_cases hm : t.tm_mon = 11
  · rw [if_pos hm] at hn
    have hb2 := gregorianLength_bounds (t.tm_year + 1900 + 1) 0
    have hc := civil_of_serial (t.tm_year + 1900 + 1) 0
      (t.tm_mday - 1 - gregorianLength (t.tm_year + 1900) t.tm_mon) (by omega) (by omega)
      (by omega) (by omega)
    have e : days_from_civil (t.tm_year + 1900) (t.tm_mon + 1) 1 + (t.tm_mday - 1) =
        days_from_civil (t.tm_year + 1900 + 1) (0 + 1) 1 +
          (t.tm_mday - 1 - gregorianLength (t.tm_year + 1900) t.tm_mon) := by
      rw [zero_add]
      omega
    rw [e, hc]
    simp only
    ring
  · rw [if_neg hm] at hn
    have hb2 := gregorianLength_bounds (t.tm_year + 1900) (t.tm_mon + 1)
    have hc := civil_of_serial (t.tm_year + 1900) (t.tm_mon + 1)
      (t.tm_mday - 1 - gregorianLength (t.tm_year + 1900) t.tm_mon) (by omega) (by omega)
      (by omega) (by omega)
    have e : days_from_civil (t.tm_year + 1900) (t.tm_mon + 1) 1 + (t.tm_mday - 1) =
        days_from_civil (t.tm_year + 1900) (t.tm_mon + 1 + 1) 1 +
          (t.tm_mday - 1 - gregorianLength (t.tm_year + 1900) t.tm_mon) := by
      have e2 : t.tm_mon + 1 + 1 = t.tm_mon + 2 := by ring
      rw [e2]
      omega
    rw [e, hc]
    simp only
    ring

theorem civil_changes (t : Tm) (mon : Int) (h0 : 0 ≤ t.tm_mon) (h1 : t.tm_mon ≤ 11)
    (hd0 : 1 ≤ t.tm_mday) (hd1 : t.tm_mday ≤ 31) (hmon : t.tm_mon ≠ mon) :
    (civil_from_days (tmSerial t)).2.1 - 1 ≠ mon ∨
      (civil_from_days (tmSerial t)).2.2 ≠ t.tm_mday := by
  by_cases hd : t.tm_mday ≤ gregorianLength (t.tm_year + 1900) t.tm_mon
  · left
    rw [civil_of_valid t h0 h1 hd0 hd]
    simpa using hmon
  · right
    have hb := gregorianLength_bounds (t.tm_year + 1900) t.tm_mon
    rw [civil_of_overflow t h0 h1 (by omega) hd1]
    omega

/-- A broken-down time with the day and the flag of `d` and another month does
not normalise to `d`: either `mktime` changes the flag, or it keeps the time of
day and writes the date of the serial day, which is in another month or on
another day. -/
theorem mktime_changes (z : Zone) (t d : Tm) (h0 : 0 ≤ t.tm_mon) (h1 : t.tm_mon ≤ 11)
    (hd0 : 1 ≤ t.tm_mday) (hd1 : t.tm_mday ≤ 31) (hT0 : 0 ≤ timeOfDay t)
    (hT1 : timeOfDay t < 86400) (hmon : t.tm_mon ≠ d.tm_mon) (hday : t.tm_mday = d.tm_mday)
    (hdst : t.tm_isdst = d.tm_isdst) : mktime z t ≠ d := by
  intro heq
  have hi : (mktime z t).tm_isdst = t.tm_isdst := by rw [heq, hdst]
  obtain ⟨_, a2, a3⟩ := mktime_of_isdst_eq z t hT0 hT1 hi
  rcases civil_changes t d.tm_mon h0 h1 hd0 hd1 hmon with h | h
  · apply h
    rw [← a2, heq]
  · apply h
    rw [← a3, heq, hday]

theorem navigateMonth_display_date (s : State) (direction : Int) :
    (navigateMonth s direction).display_date =
      mktime s.zone (if s.display_date.tm_mon + direction > 11 then
          { s.display_date with tm_year := s.display_date.tm_year + 1, tm_mon := 0 }
        else if s.display_date.tm_mon + direction < 0 then
          { s.display_date with tm_year := s.display_date.tm_year - 1, tm_mon := 11 }
        else { s.display_date with tm_mon := s.display_date.tm_mon + direction }) := by
  unfold navigateMonth
  simp only

theorem navigateMonth_changes (s : State) (direction : Int) (hv : ValidDate s.display_date)
    (hdir : direction = 1 ∨ direction = -1) :
    (navigateMonth s direction).display_date ≠ s.display_date := by
  obtain ⟨h0, h1, hd0, hd1, a1, a2, a3, a4, a5, a6⟩ := hv
  have hb := gregorianLength_bounds (s.display_date.tm_year + 1900) s.display_date.tm_mon
  have hT0 : 0 ≤ timeOfDay s.display_date := by unfold timeOfDay; omega
  have hT1 : timeOfDay s.display_date < 86400 := by unfold timeOfDay; omega
  have key : ∀ t : Tm, 0 ≤ t.tm_mon → t.tm_mon ≤ 11 → t.tm_mday = s.display_date.tm_mday →
      t.tm_mon ≠ s.display_date.tm_mon → timeOfDay t = timeOfDay s.display_date →
      t.tm_isdst = s.display_date.tm_isdst → mktime s.zone t ≠ s.display_date := by
    intro t a b c d e f
    exact mktime_changes s.zone t s.display_date a b (by omega) (by omega) (by omega) (by omega)
      d c f
  rw [navigateMonth_display_date]
  split_ifs with c1 c2
  · exact key { s.display_date with tm_year := s.display_date.tm_year + 1, tm_mon := 0 }
      (le_refl _) (by norm_num) rfl
      (by show (0 : Int) ≠ s.display_date.tm_mon; rcases hdir with h | h <;> omega) rfl rfl
  · exact key { s.display_date with tm_year := s.display_date.tm_year - 1, tm_mon := 11 }
      (by norm_num) (le_refl _) rfl
      (by show (11 : Int) ≠ s.display_date.tm_mon; rcases hdir with h | h <;> omega) rfl rfl
  · exact key { s.display_date with tm_mon := s.display_date.tm_mon + direction }
      (by show 0 ≤ s.display_date.tm_mon + direction; omega)
      (by show s.display_date.tm_mon + direction ≤ 11; omega) rfl
      (by show s.display_date.tm_mon + direction ≠ s.display_date.tm_mon
          rcases hdir with h | h <;> omega) rfl rfl

theorem clickAction_navigate_iff (s : State) (ex ey : ℚ) (direction : Int) :
    clickAction s ex ey = Action.navigate direction ↔
      ey ≤ 40 ∧ ((ex < 50 ∧ direction = -1) ∨ (¬ ex < 50 ∧ 330 < ex ∧ direction = 1)) := by
  rw [clickAction_unfold]
  constructor
  · intro h
    split_ifs at h with h1 h2 h3 h4
    · exact ⟨h2, Or.inl ⟨h3, by simpa using h.symm⟩⟩
    · exact ⟨h2, Or.inr ⟨h3, h4, by simpa using h.symm⟩⟩
    · cases hc : clickDay s.zone s.display_date ex ey <;> rw [hc] at h <;> simp at h
  · rintro ⟨h1, ⟨h2, h3⟩ | ⟨h2, h3, h4⟩⟩
    · rw [if_pos (by linarith), if_pos h1, if_pos h2, h3]
    · rw [if_pos (by linarith), if_pos h1, if_neg h2, if_pos h3, h4]

theorem applyAction_display_date (s : State) (a : Action)
    (h : ∀ direction, a ≠ Action.navigate direction) :
    (applyAction s a).display_date = s.display_date := by
  cases a with
  | navigate direction => exact absurd rfl (h direction)
  | openNote clicked_day => rfl
  | openTodo => rfl
  | toggle clicked_item => rfl
  | delete clicked_item =>
    simp only [applyAction, updateWindowSize]
    split_ifs <;> rfl
  | drag => rfl

/-- C24: for every Idle state (whose display cursor names a calendar day, as
every cursor read from the clock or written by `mktime` does) and every left
click at (x, y), the display cursor changes if and only if the click is in a
header navigation zone (y <= 40 and x < 50, or y <= 40 and x > 330): the left
zone has the effect of `navigateMonth(-1)`, the right zone of
`navigateMonth(+1)`, and in both cases no popup opens and the notes and tasks
are unchanged. -/
theorem C24_only_header_zones_navigate (s : State) (ex ey : ℚ) (hidle : Idle s)
    (hv : ValidDate s.display_date) :
    ((on_button_press s 1 ex ey).display_date ≠ s.display_date ↔
        (ey ≤ 40 ∧ ex < 50) ∨ (ey ≤ 40 ∧ 330 < ex)) ∧
      (ey ≤ 40 ∧ ex < 50 → on_button_press s 1 ex ey = navigateMonth s (-1)) ∧
      (ey ≤ 40 ∧ 330 < ex → on_button_press s 1 ex ey = navigateMonth s 1) ∧
      ((ey ≤ 40 ∧ ex < 50) ∨ (ey ≤ 40 ∧ 330 < ex) →
        Idle (on_button_press s 1 ex ey) ∧ (on_button_press s 1 ex ey).notes = s.notes ∧
        (on_button_press s 1 ex ey).todos = s.todos) := by
  have hpress := on_button_press_idle s ex ey hidle.1 hidle.2
  have hleft : ey ≤ 40 ∧ ex < 50 → on_button_press s 1 ex ey = navigateMonth s (-1) := by
    intro h
    rw [hpress, (clickAction_navigate_iff s ex ey (-1)).2 ⟨h.1, Or.inl ⟨h.2, rfl⟩⟩]
    rfl
  have hright : ey ≤ 40 ∧ 330 < ex → on_button_press s 1 ex ey = navigateMonth s 1 := by
    intro h
    rw [hpress, (clickAction_navigate_iff s ex ey 1).2
      ⟨h.1, Or.inr ⟨by intro hlt; linarith [h.2], h.2, rfl⟩⟩]
    rfl
  refine ⟨⟨?_, ?_⟩, hleft, hright, ?_⟩
  · intro hne
    by_contra hz
    apply hne
    rw [hpress]
    apply applyAction_display_date
    intro direction hnav
    obtain ⟨a1, a2 | a2⟩ := (clickAction_navigate_iff s ex ey direction).1 hnav
    · exact hz (Or.inl ⟨a1, a2.1⟩)
    · exact hz (Or.inr ⟨a1, a2.2.1⟩)
  · rintro (h | h)
    · rw [hleft h]
      exact navigateMonth_changes s (-1) hv (Or.inr rfl)
    · rw [hright h]
      exact navigateMonth_changes s 1 hv (Or.inl rfl)
  · rintro (h | h)
    · rw [hleft h]
      exact ⟨hidle, rfl, rfl⟩
    · rw [hright h]
      exact ⟨hidle, rfl, rfl⟩

theorem C24_witness :
    Idle tenTasksState ∧ ValidDate tenTasksState.display_date ∧
      on_button_press tenTasksState 1 350 20 = navigateMonth tenTasksState 1 :=
  ⟨⟨rfl, rfl⟩, by unfold ValidDate; decide,
    (C24_only_header_zones_navigate tenTasksState 350 20 ⟨rfl, rfl⟩
      (by unfold ValidDate; decide)).2.2.1 ⟨by norm_num, by norm_num⟩⟩

/-! ## C25, C27: task rows and the two calendar hit-tests -/

theorem click_row_extent_of_row_area (s : State) (ex ey : ℚ) (i : Int) (hy : 327 ≤ ey)
    (h : clickAction s ex ey = Action.toggle i ∨ clickAction s ex ey = Action.delete i) :
    (327 : ℚ) + 35 * i ≤ ey ∧ ey < 327 + 35 * (i + 1) := by
  have hi : truncToInt ((ey - 327) / 35) = i := by
    rcases h with h | h
    · exact ((clickAction_toggle_iff s ex ey i).1 h).2.2.2.2.1
    · exact ((clickAction_delete_iff s ex ey i).1 h).2.2.2.2.1
  have hs := truncToInt_div_spec ey 327 35 (by norm_num) (by exact_mod_cast hy)
  have e : truncToInt ((ey - ((327 : Int) : ℚ)) / ((35 : Int) : ℚ)) = i := by
    rw [← hi]
    norm_num
  rw [e] at hs
  obtain ⟨_, h1, h2⟩ := hs
  push_cast at h1 h2
  exact ⟨h1, h2⟩

/-- C25 (failing input): the widget holds ten tasks and is Idle. A left click
at (30, 300), in the header of the task card and 27 pixels above the first
row, resolves to toggling task 0, and a left click at (350, 325) resolves to
deleting task 0, although row 0 extends from y = 327 to y = 362: the quotient
(y - 327) / 35 is negative and above -1 there and its conversion to int
truncates it to 0. The hover path at the same positions finds no row. -/
theorem C25_click_above_first_row_resolves_to_row_zero :
    Idle tenTasksState ∧
      clickAction tenTasksState 30 300 = Action.toggle 0 ∧
      clickAction tenTasksState 350 325 = Action.delete 0 ∧
      ¬ ((327 : ℚ) + 35 * 0 ≤ 300) ∧ ¬ ((327 : ℚ) + 35 * 0 ≤ 325) ∧
      (on_motion_notify tenTasksState 30 300).hover_todo_item = -1 ∧
      (on_motion_notify tenTasksState 350 325).hover_todo_item = -1 := by
  refine ⟨⟨rfl, rfl⟩, ?_, ?_, ?_, ?_, ?_, ?_⟩ <;> decide!

theorem hoverDay_eq_clickDay (z : Zone) (t : Tm) (ex ey : ℚ) :
    hoverDay z t ex ey = clickDay z t ex ey := rfl

theorem on_motion_notify_hover_day (s : State) (ex ey : ℚ) (hidle : Idle s) :
    (on_motion_notify s ex ey).hover_day =
      if ey ≤ 260 then (match clickDay s.zone s.display_date ex ey with
        | some d => d
        | none => -1)
      else -1 := by
  unfold on_motion_notify
  rw [hidle.1, hidle.2, hoverDay_eq_clickDay]
  simp only [Bool.or_self, Bool.false_eq_true, if_false, calendar_height]
  have e : (((260 : Int) : ℚ)) = 260 := by norm_num
  rw [e]
  split_ifs with h1 h2 h3
  · cases hc : clickDay s.zone s.display_date ex ey <;> rfl
  · rfl
  · rfl
  · rfl

/-- C27: the two copies of the calendar hit-test agree. For every displayed
month and every pointer position (x, y) in an Idle state, the hover path of
`on_motion_notify` sets hover_day = d with d different from -1 if and only if
a left click at (x, y) makes `on_button_press` open the note editor for day d
of the displayed month; such a d is a day of the month, 1 <= d <= daysInMonth,
with the days-in-month and first-weekday values of the draw path, which draws
d in the cell that holds the point. -/
theorem C27_hover_and_click_hit_tests_agree (s : State) (ex ey : ℚ) (d : Int)
    (hidle : Idle s) (hd : d ≠ -1) :
    ((on_motion_notify s ex ey).hover_day = d ↔ clickAction s ex ey = Action.openNote d) ∧
      (clickAction s ex ey = Action.openNote d →
        on_button_press s 1 ex ey
          = showNotePopup s (formatDate (mktime s.zone { s.display_date with tm_mday := d })) ∧
        1 ≤ d ∧ d ≤ daysInMonth s.zone s.display_date ∧
        ∃ cell ∈ drawCalendarDays s.zone s.display_date 0 0 total_width,
          cell.day = d ∧ (cell.dx : ℚ) ≤ ex ∧ ex < cell.dx + 48 ∧
            (cell.dy : ℚ) ≤ ey ∧ ey < cell.dy + 28) := by
  constructor
  · rw [on_motion_notify_hover_day s ex ey hidle, clickAction_openNote_iff]
    constructor
    · intro h
      split_ifs at h with h1
      · cases hc : clickDay s.zone s.display_date ex ey with
        | none => rw [hc] at h; exact absurd h.symm hd
        | some d' => rw [hc] at h; simp only at h; rw [h]
      · exact absurd h.symm hd
    · intro h
      have hy : ey ≤ 260 := by
        by_contra hc
        rw [clickDay_none_of_outside s.zone s.display_date ex ey
          (Or.inr (Or.inr (Or.inr (by linarith [lt_of_not_le hc]))))] at h
        simp at h
      rw [if_pos hy, h]
  · intro h
    have hpress : on_button_press s 1 ex ey
        = showNotePopup s (formatDate (mktime s.zone { s.display_date with tm_mday := d })) := by
      rw [on_button_press_idle s ex ey hidle.1 hidle.2, h]
      rfl
    have hf := firstWeekday_range s.zone s.display_date
    rw [clickAction_openNote_iff, clickDay_eq_some_iff] at h
    obtain ⟨col, row, hc0, hc1, hr0, hx0, hx1, hy0, hy1, hy2, hN, hp, hdim⟩ := h
    have e1 : (d - 1 + firstWeekday s.zone s.display_date) % 7 = col := by omega
    have e2 : (d - 1 + firstWeekday s.zone s.display_date) / 7 = row := by omega
    refine ⟨hpress, by omega, hdim, ⟨d, 20 + col * 48, 70 + row * 28⟩, ?_, rfl, ?_, ?_, ?_, ?_⟩
    · rw [show total_width = 380 from rfl, mem_drawCalendarDays]
      exact ⟨by simp only; omega, hdim, by simp only; rw [e1], by simp only; rw [e2]⟩
    · push_cast; linarith
    · push_cast; linarith
    · push_cast; linarith
    · push_cast; linarith

theorem C27_witness :
    Idle tenTasksState ∧ (1 : Int) ≠ -1 ∧ clickAction tenTasksState 236 84 = Action.openNote 1 ∧
      (on_motion_notify tenTasksState 236 84).hover_day = 1 :=
  ⟨⟨rfl, rfl⟩, by decide, by decide!,
    ((C27_hover_and_click_hit_tests_agree tenTasksState 236 84 1 ⟨rfl, rfl⟩ (by decide)).1).2
      (by decide!)⟩

/-! ## C28: the hovered task index -/

theorem applyAction_hover (s : State) (a : Action) :
    (applyAction s a).hover_todo_item = s.hover_todo_item := by
  cases a with
  | navigate direction => rfl
  | openNote clicked_day => rfl
  | openTodo => rfl
  | toggle clicked_item => rfl
  | delete clicked_item =>
    simp only [applyAction, updateWindowSize]
    split_ifs <;> rfl
  | drag => rfl

theorem step_hover_of_not_motion (s : State) (e : Event)
    (hm : ∀ ex ey, e ≠ Event.motion ex ey) (hl : e ≠ Event.leave) :
    (step s e).hover_todo_item = s.hover_todo_item := by
  cases e with
  | button_press button ex ey =>
    simp only [step, on_button_press]
    split_ifs
    · rfl
    · exact applyAction_hover s _
    · rfl
  | motion ex ey => exact absurd rfl (hm ex ey)
  | leave => exact absurd rfl hl
  | tick now =>
    simp only [step, update_display]
    split_ifs <;> rfl
  | save_note message =>
    simp only [step, on_save_note]
    split_ifs <;> rfl
  | cancel_note => rfl
  | save_todo task =>
    simp only [step, on_save_todo]
    split_ifs
    · rfl
    · rfl
    · simp only [hideTodoPopup, updateWindowSize]
      split_ifs <;> rfl
  | cancel_todo => rfl

theorem on_motion_notify_not_idle (s : State) (ex ey : ℚ) (h : ¬ Idle s) :
    on_motion_notify s ex ey = s := by
  unfold on_motion_notify
  rw [if_pos]
  unfold Idle at h
  cases h1 : s.showing_note_popup <;> cases h2 : s.showing_todo_popup <;> simp_all

theorem step_hover_below_eight (s : State) (e : Event)
    (h : s.hover_todo_item = -1 ∨ (0 ≤ s.hover_todo_item ∧ s.hover_todo_item < 8)) :
    (step s e).hover_todo_item = -1 ∨
      (0 ≤ (step s e).hover_todo_item ∧ (step s e).hover_todo_item < 8) := by
  by_cases hm : ∃ ex ey, e = Event.motion ex ey
  · obtain ⟨ex, ey, rfl⟩ := hm
    simp only [step]
    by_cases hidle : Idle s
    · rcases on_motion_notify_hover_todo_range s ex ey hidle with h1 | ⟨h1, h2⟩
      · exact Or.inl h1
      · exact Or.inr ⟨h1, lt_of_lt_of_le h2 (min_le_right _ _)⟩
    · rw [on_motion_notify_not_idle s ex ey hidle]
      exact h
  · by_cases hl : e = Event.leave
    · subst hl
      exact Or.inl rfl
    · rw [step_hover_of_not_motion s e (fun ex ey he => hm ⟨ex, ey, he⟩) hl]
      exact h

theorem step_hoverInRange (s : State) (e : Event) (h : HoverInRange s)
    (hlen : s.todos.length ≤ (step s e).todos.length) : HoverInRange (step s e) := by
  unfold HoverInRange at h ⊢
  by_cases hm : ∃ ex ey, e = Event.motion ex ey
  · obtain ⟨ex, ey, rfl⟩ := hm
    simp only [step]
    by_cases hidle : Idle s
    · rw [on_motion_notify_todos]
      exact on_motion_notify_hover_todo_range s ex ey hidle
    · rw [on_motion_notify_not_idle s ex ey hidle]
      exact h
  · by_cases hl : e = Event.leave
    · subst hl
      exact Or.inl rfl
    · rw [step_hover_of_not_motion s e (fun ex ey he => hm ⟨ex, ey, he⟩) hl]
      rcases h with h | ⟨h1, h2⟩
      · exact Or.inl h
      · refine Or.inr ⟨h1, lt_of_lt_of_le h2 (min_le_min ?_ (le_refl _))⟩
        exact_mod_cast hlen

theorem reachable_hover_below_eight (s : State) (hr : Reachable s) :
    s.hover_todo_item = -1 ∨ (0 ≤ s.hover_todo_item ∧ s.hover_todo_item < 8) := by
  obtain ⟨zone, now, notes_file, todos_file, hr⟩ := hr
  induction hr with
  | start => exact Or.inl rfl
  | next s e _ _ ih => exact step_hover_below_eight s e ih

/-- C28 (as amended): in every state reachable by any sequence of events,
hover_todo_item is either -1 or satisfies 0 <= hover_todo_item < 8; the bound
hover_todo_item < min(task count, 8) holds for the index that a pointer motion
stores and is preserved by every operation that does not shorten the task list
(motion, leave, toggle, add, navigation, confirm, cancel). The deletion of a
task shortens the list and leaves hover_todo_item as it was. -/
theorem C28_hover_index_bounds (s : State) (hr : Reachable s) (e : Event) :
    (s.hover_todo_item = -1 ∨ (0 ≤ s.hover_todo_item ∧ s.hover_todo_item < 8)) ∧
      (HoverInRange s → s.todos.length ≤ (step s e).todos.length → HoverInRange (step s e)) ∧
      (∀ ex ey : ℚ, Idle s → HoverInRange (on_motion_notify s ex ey)) ∧
      (∀ (ex ey : ℚ) (i : Int), Idle s → clickAction s ex ey = Action.delete i →
        (on_button_press s 1 ex ey).hover_todo_item = s.hover_todo_item ∧
        (on_button_press s 1 ex ey).todos.length + 1 = s.todos.length) := by
  refine ⟨reachable_hover_below_eight s hr, step_hoverInRange s e, ?_, ?_⟩
  · intro ex ey hidle
    unfold HoverInRange
    rw [on_motion_notify_todos]
    exact on_motion_notify_hover_todo_range s ex ey hidle
  · intro ex ey i hidle h
    obtain ⟨_, _, _, _, _, h0, h1, _, _, _, _⟩ := (clickAction_delete_iff s ex ey i).1 h
    constructor
    · rw [on_button_press_idle s ex ey hidle.1 hidle.2]
      exact applyAction_hover s _
    · rw [on_button_press_delete_todos s ex ey i hidle h, List.length_eraseIdx,
        if_pos (by omega)]
      omega

theorem C28_witness :
    Reachable (step oneTaskState (Event.motion 350 330)) ∧
      ((step oneTaskState (Event.motion 350 330)).hover_todo_item = -1 ∨
        (0 ≤ (step oneTaskState (Event.motion 350 330)).hover_todo_item ∧
          (step oneTaskState (Event.motion 350 330)).hover_todo_item < 8)) :=
  ⟨⟨_, _, _, _, ReachableFrom.next _ _ ReachableFrom.start rfl⟩,
    (C28_hover_index_bounds (step oneTaskState (Event.motion 350 330))
      ⟨_, _, _, _, ReachableFrom.next _ _ ReachableFrom.start rfl⟩ Event.leave).1⟩

/-- C28 (counterexample): with one stored task, the pointer is moved over the
trash icon of row 0 and pressed. The reached state has no task left and still
hover_todo_item = 0, which is neither -1 nor below min(0, 8). -/
theorem C28_counterexample_hover_survives_delete :
    Reachable (step (step oneTaskState (Event.motion 350 330)) (Event.button_press 1 350 330)) ∧
      (step (step oneTaskState (Event.motion 350 330))
        (Event.button_press 1 350 330)).hover_todo_item = 0 ∧
      (step (step oneTaskState (Event.motion 350 330)) (Event.button_press 1 350 330)).todos = [] ∧
      ¬ HoverInRange
        (step (step oneTaskState (Event.motion 350 330)) (Event.button_press 1 350 330)) := by
  have h1 : (step (step oneTaskState (Event.motion 350 330))
      (Event.button_press 1 350 330)).hover_todo_item = 0 := by decide!
  have h2 : (step (step oneTaskState (Event.motion 350 330))
      (Event.button_press 1 350 330)).todos = [] := by decide!
  refine ⟨⟨_, _, _, _, ReachableFrom.next _ _ (ReachableFrom.next _ _ ReachableFrom.start rfl) rfl⟩,
    h1, h2, ?_⟩
  unfold HoverInRange
  rw [h1, h2]
  decide

/-! ## C29: the key of a clicked day -/

theorem toDigitsCore_step (fuel n : Nat) (ds : List Char) :
    Nat.toDigitsCore 10 (fuel + 1) n ds =
      if n / 10 = 0 then Nat.digitChar (n % 10) :: ds
      else Nat.toDigitsCore 10 fuel (n / 10) (Nat.digitChar (n % 10) :: ds) := by
  simp [Nat.toDigitsCore]

theorem digitChar_clean (n : Nat) (h : n < 10) :
    Nat.digitChar n ≠ '|' ∧ Nat.digitChar n ≠ '\n' := by
  interval_cases n <;> decide

theorem toDigitsCore_clean (fuel : Nat) :
    ∀ (n : Nat) (ds : List Char), (∀ c ∈ ds, c ≠ '|' ∧ c ≠ '\n') →
      ∀ c ∈ Nat.toDigitsCore 10 fuel n ds, c ≠ '|' ∧ c ≠ '\n' := by
  induction fuel with
  | zero => intro n ds h c hc; exact h c (by simpa [Nat.toDigitsCore] using hc)
  | succ f ih =>
    intro n ds h c hc
    rw [toDigitsCore_step] at hc
    have hds : ∀ c ∈ Nat.digitChar (n % 10) :: ds, c ≠ '|' ∧ c ≠ '\n' := by
      intro c' hc'
      rcases List.mem_cons.1 hc' with e | e
      · rw [e]; exact digitChar_clean _ (Nat.mod_lt _ (by norm_num))
      · exact h c' e
    split_ifs at hc
    · exact hds c hc
    · exact ih _ _ hds c hc

theorem toDigits_clean (n : Nat) : ∀ c ∈ Nat.toDigits 10 n, c ≠ '|' ∧ c ≠ '\n' :=
  toDigitsCore_clean _ n [] (by simp)

theorem formatDate_clean (t : Tm) : '|' ∉ formatDate t ∧ '\n' ∉ formatDate t := by
  have key : ∀ c ∈ formatDate t, c ≠ '|' ∧ c ≠ '\n' := by
    intro c hc
    unfold formatDate fmtYear pad2 at hc
    simp only [List.mem_append, List.mem_singleton] at hc
    rcases hc with (((hc | hc) | hc) | hc) | hc
    · split_ifs at hc
      · rcases List.mem_cons.1 hc with e | e
        · rw [e]; decide
        · exact toDigits_clean _ c e
      · exact toDigits_clean _ c hc
    · rw [hc]; decide
    · split_ifs at hc
      · rcases List.mem_cons.1 hc with e | e
        · rw [e]; decide
        · exact toDigits_clean _ c e
      · exact toDigits_clean _ c hc
    · rw [hc]; decide
    · split_ifs at hc
      · rcases List.mem_cons.1 hc with e | e
        · rw [e]; decide
        · exact toDigits_clean _ c e
      · exact toDigits_clean _ c hc
  exact ⟨fun h => (key _ h).1 rfl, fun h => (key _ h).2 rfl⟩

theorem loadNotes_storable (file : Str) : ∀ note ∈ loadNotes file, NoteStorable note := by
  intro note hn
  rw [loadNotes_eq_filterMap, List.mem_filterMap] at hn
  obtain ⟨l, hl, hp⟩ := hn
  have hnl := splitLines_no_newline file l hl
  obtain ⟨date, flag, message, el, hd, _, hm, rfl⟩ := (parseNoteLine_eq_some_iff l hnl note).1 hp
  refine ⟨hd, ?_, ?_, hm⟩
  · intro h; apply hnl; rw [el]; simp [h]
  · intro h; apply hnl; rw [el]; simp [h]

theorem loadTodos_storable (file : Str) : ∀ todo ∈ loadTodos file, TodoStorable todo := by
  intro todo hn
  rw [loadTodos_eq_filterMap, List.mem_filterMap] at hn
  obtain ⟨l, hl, hp⟩ := hn
  have hnl := splitLines_no_newline file l hl
  obtain ⟨flag, time, text, el, _, ht, hm, rfl⟩ := (parseTodoLine_eq_some_iff l hnl todo).1 hp
  refine ⟨ht, ?_, ?_, hm⟩
  · intro h; apply hnl; rw [el]; simp [h]
  · intro h; apply hnl; rw [el]; simp [h]

theorem toggleCompleted_storable (todos : List TodoItem) (i : Nat)
    (h : ∀ todo ∈ todos, TodoStorable todo) :
    ∀ todo ∈ toggleCompleted todos i, TodoStorable todo := by
  intro todo hm
  cases hg : todos[i]? with
  | none =>
    rw [toggleCompleted_of_none todos i hg] at hm
    exact h todo hm
  | some t0 =>
    rw [toggleCompleted_of_some todos i t0 hg] at hm
    rcases List.mem_or_eq_of_mem_set hm with h1 | h1
    · exact h todo h1
    · have h0 : TodoStorable t0 := h t0 (List.mem_iff_getElem?.2 ⟨i, hg⟩)
      rw [h1]
      exact h0

theorem cleanStore_construct (zone : Zone) (now : Tm) (notes_file todos_file : Str) :
    CleanStore (run (construct zone now notes_file todos_file)) :=
  ⟨loadNotes_storable notes_file, loadTodos_storable todos_file, by simp [run, construct],
    by simp [run, construct], rfl, rfl⟩

theorem cleanStore_applyAction (s : State) (a : Action) (h : CleanStore s) :
    CleanStore (applyAction s a) := by
  obtain ⟨h1, h2, h3, h4, h5, h6⟩ := h
  cases a with
  | navigate direction => exact ⟨h1, h2, h3, h4, h5, h6⟩
  | openNote clicked_day =>
    exact ⟨h1, h2, (formatDate_clean _).1, (formatDate_clean _).2, h5, h6⟩
  | openTodo => exact ⟨h1, h2, h3, h4, h5, h6⟩
  | toggle clicked_item =>
    have hs := toggleCompleted_storable s.todos clicked_item.toNat h2
    exact ⟨h1, hs, h3, h4, h5, loadTodos_saveTodos _ hs⟩
  | delete clicked_item =>
    have hs : ∀ todo ∈ s.todos.eraseIdx clicked_item.toNat, TodoStorable todo :=
      fun todo hm => h2 todo (List.mem_of_mem_eraseIdx hm)
    simp only [applyAction, updateWindowSize]
    split_ifs <;> exact ⟨h1, hs, h3, h4, h5, loadTodos_saveTodos _ hs⟩
  | drag => exact ⟨h1, h2, h3, h4, h5, h6⟩

theorem cleanStore_step (s : State) (e : Event) (h : CleanStore s) (he : e.textClean) :
    CleanStore (step s e) := by
  cases e with
  | button_press button ex ey =>
    simp only [step, on_button_press]
    split_ifs
    · exact h
    · exact cleanStore_applyAction s _ h
    · exact h
  | motion ex ey =>
    simp only [step]
    unfold on_motion_notify
    dsimp only
    split_ifs <;> first | exact h | (split <;> exact h)
  | leave => exact h
  | tick now =>
    simp only [step, update_display]
    split_ifs <;> exact h
  | save_note message =>
    obtain ⟨h1, h2, h3, h4, h5, h6⟩ := h
    have hk : ∀ note ∈ s.notes.filter (fun note => !decide (note.date = s.selected_date_str)),
        NoteStorable note := fun note hm => h1 note (List.mem_of_mem_filter hm)
    simp only [step, on_save_note]
    split_ifs with c1 c2
    · exact ⟨h1, h2, h3, h4, h5, h6⟩
    · exact ⟨hk, h2, h3, h4, loadNotes_saveNotes _ hk, h6⟩
    · have hne : message ≠ [] := by simpa [List.isEmpty_iff] using c2
      have hall : ∀ note ∈ s.notes.filter (fun note => !decide (note.date = s.selected_date_str))
          ++ [{ date := s.selected_date_str, message := message, is_important := false }],
          NoteStorable note := by
        intro note hm
        rcases List.mem_append.1 hm with hm | hm
        · exact hk note hm
        · rw [List.mem_singleton] at hm
          rw [hm]
          exact ⟨h3, h4, he, hne⟩
      exact ⟨hall, h2, h3, h4, loadNotes_saveNotes _ hall, h6⟩
  | cancel_note => exact h
  | save_todo task =>
    obtain ⟨h1, h2, h3, h4, h5, h6⟩ := h
    simp only [step, on_save_todo]
    split_ifs with c1 c2
    · exact ⟨h1, h2, h3, h4, h5, h6⟩
    · exact ⟨h1, h2, h3, h4, h5, h6⟩
    · have hne : task ≠ [] := by simpa [List.isEmpty_iff] using c2
      have hall : ∀ todo ∈ ({ text := task, completed := false, time := [] } : TodoItem)
          :: s.todos, TodoStorable todo := by
        intro todo hm
        rcases List.mem_cons.1 hm with hm | hm
        · rw [hm]
          exact ⟨by simp, by simp, he, hne⟩
        · exact h2 todo hm
      simp only [hideTodoPopup, updateWindowSize]
      split_ifs <;> exact ⟨h1, hall, h3, h4, h5, loadTodos_saveTodos _ hall⟩
  | cancel_todo => exact h

theorem cleanStore_runEvents (es : List Event) (hes : ∀ e ∈ es, e.textClean) :
    ∀ s : State, CleanStore s → CleanStore (runEvents s es) := by
  induction es with
  | nil => intro s h; exact h
  | cons e rest ih =>
    intro s h
    exact ih (fun e' hm => hes e' (by simp [hm])) (step s e)
      (cleanStore_step s e h (hes e (by simp)))

/-- C26: for every store file content and every sequence of user operations
(add task, toggle, delete, note save with empty or non-empty text, navigation,
and every other event) whose entered texts contain no newline character, the
in-memory notes and tasks reached are reproduced exactly by saving and loading
again, and the store files written on the way load to the collections in
memory; in particular load(save(load(F))) = load(F) for every file content F,
and a text containing the delimiter entered as a note message or a task text
is not lost. -/
theorem C26_reached_collections_round_trip (zone : Zone) (now : Tm) (notes_file todos_file : Str)
    (es : List Event) (hes : ∀ e ∈ es, e.textClean) :
    loadNotes (saveNotes (runEvents (run (construct zone now notes_file todos_file)) es).notes)
        = (runEvents (run (construct zone now notes_file todos_file)) es).notes ∧
      loadTodos (saveTodos (runEvents (run (construct zone now notes_file todos_file)) es).todos)
        = (runEvents (run (construct zone now notes_file todos_file)) es).todos ∧
      loadNotes (runEvents (run (construct zone now notes_file todos_file)) es).notes_file
        = (runEvents (run (construct zone now notes_file todos_file)) es).notes ∧
      loadTodos (runEvents (run (construct zone now notes_file todos_file)) es).todos_file
        = (runEvents (run (construct zone now notes_file todos_file)) es).todos ∧
      loadNotes (saveNotes (loadNotes notes_file)) = loadNotes notes_file ∧
      loadTodos (saveTodos (loadTodos todos_file)) = loadTodos todos_file := by
  obtain ⟨h1, h2, _, _, h5, h6⟩ := cleanStore_runEvents es hes _
    (cleanStore_construct zone now notes_file todos_file)
  exact ⟨loadNotes_saveNotes _ h1, loadTodos_saveTodos _ h2, h5, h6,
    loadNotes_saveNotes _ (loadNotes_storable notes_file),
    loadTodos_saveTodos _ (loadTodos_storable todos_file)⟩

theorem C26_witness :
    (∀ e ∈ [Event.button_press 1 350 300, Event.save_todo ['x', '|', 'y']], e.textClean) ∧
      (runEvents oneTaskState [Event.button_press 1 350 300, Event.save_todo ['x', '|', 'y']]).todos
        = [{ text := ['x', '|', 'y'], completed := false, time := [] },
           { text := ['a'], completed := false, time := [] }] ∧
      loadTodos (saveTodos
        (runEvents oneTaskState
          [Event.button_press 1 350 300, Event.save_todo ['x', '|', 'y']]).todos)
        = (runEvents oneTaskState
          [Event.button_press 1 350 300, Event.save_todo ['x', '|', 'y']]).todos :=
  ⟨by simp [Event.textClean], by decide!,
    (C26_reached_collections_round_trip utc feb15 [] ['0', '|', '|', 'a', '\n']
      [Event.button_press 1 350 300, Event.save_todo ['x', '|', 'y']]
      (by simp [Event.textClean])).2.1⟩

end Dashboard

namespace Weather

/-! ## C30: the 12-hour clock text of the weather widget -/

theorem stoi_twoDigits (hh : Nat) (h : hh ≤ 12) : stoi (twoDigits hh) = some (hh : Int) := by
  interval_cases hh <;> decide

theorem fmt02d_twoDigits (n : Nat) (h : n ≤ 23) : fmt02d (n : Int) = twoDigits n := by
  interval_cases n <;> decide

theorem formatTime_shape (a b c1 c2 p q : Char) (h : Int) (hs : stoi [a, b] = some h) :
    formatTime [a, b, ':', c1, c2, ' ', p, q] =
      some ((fmt02d (if [p, q] = ['P', 'M'] ∧ h ≠ 12 then h + 12
        else if [p, q] = ['A', 'M'] ∧ h = 12 then 0 else h) ++ [':', c1, c2]).take 7) := by
  have hlen : ([a, b, ':', c1, c2, ' ', p, q] : Str).length ≥ 8 := by simp
  unfold formatTime
  rw [if_pos hlen]
  have e1 : substr (substr [a, b, ':', c1, c2, ' ', p, q] 0 5) 0 2 = [a, b] := rfl
  have e2 : substr (substr [a, b, ':', c1, c2, ' ', p, q] 0 5) 3 2 = [c1, c2] := rfl
  have e3 : substrFrom [a, b, ':', c1, c2, ' ', p, q] 6 = [p, q] := rfl
  simp only [e1, e2, e3, hs, List.append_assoc, List.singleton_append]

theorem hour24_le (hh : Nat) (pm : Bool) (h1 : hh ≤ 12) : hour24 hh pm ≤ 23 := by
  unfold hour24
  cases pm <;> simp <;> split_ifs <;> omega

theorem formatTime_of_chars (hh : Nat) (pm : Bool) (c1 c2 : Char) (h0 : 1 ≤ hh) (h1 : hh ≤ 12) :
    formatTime (twoDigits hh ++ [':'] ++ [c1, c2] ++ [' '] ++ (if pm then ['P', 'M'] else ['A', 'M']))
      = some (twoDigits (hour24 hh pm) ++ [':'] ++ [c1, c2]) := by
  have hs := stoi_twoDigits hh h1
  unfold twoDigits at hs
  have hf := fmt02d_twoDigits (hour24 hh pm) (hour24_le hh pm h1)
  cases pm
  · have e : twoDigits hh ++ [':'] ++ [c1, c2] ++ [' '] ++ (if false = true then ['P', 'M'] else ['A', 'M'])
        = [Nat.digitChar (hh / 10), Nat.digitChar (hh % 10), ':', c1, c2, ' ', 'A', 'M'] := rfl
    rw [e, formatTime_shape _ _ _ _ _ _ _ hs, ← hf]
    have hh24 : ((hour24 hh false : Nat) : Int) = if (hh : Int) = 12 then 0 else (hh : Int) := by
      unfold hour24
      by_cases h12 : hh = 12
      · subst h12; rfl
      · have : (hh : Int) ≠ 12 := by exact_mod_cast h12
        simp [h12, this]
    rw [hh24]
    have hne : ¬ ((['A', 'M'] : Str) = ['P', 'M'] ∧ (hh : Int) ≠ 12) := by
      intro h; exact absurd h.1 (by decide)
    rw [if_neg hne]
    by_cases h12 : (hh : Int) = 12
    · rw [if_pos ⟨rfl, h12⟩, if_pos h12]
      rfl
    · rw [if_neg (fun h => h12 h.2), if_neg h12]
      rw [show (hh : Int) = ((hour24 hh false : Nat) : Int) by
        rw [hh24, if_neg h12], hf]
      rfl
  · have e : twoDigits hh ++ [':'] ++ [c1, c2] ++ [' '] ++ (if true = true then ['P', 'M'] else ['A', 'M'])
        = [Nat.digitChar (hh / 10), Nat.digitChar (hh % 10), ':', c1, c2, ' ', 'P', 'M'] := rfl
    rw [e, formatTime_shape _ _ _ _ _ _ _ hs]
    have hh24 : ((hour24 hh true : Nat) : Int) = if (hh : Int) = 12 then 12 else (hh : Int) + 12 := by
      unfold hour24
      by_cases h12 : hh = 12
      · subst h12; rfl
      · have : (hh : Int) ≠ 12 := by exact_mod_cast h12
        simp [h12, this]
    have hval : (if (['P', 'M'] : Str) = ['P', 'M'] ∧ (hh : Int) ≠ 12 then (hh : Int) + 12
        else if (['P', 'M'] : Str) = ['A', 'M'] ∧ (hh : Int) = 12 then 0 else (hh : Int))
        = ((hour24 hh true : Nat) : Int) := by
      rw [hh24]
      by_cases h12 : (hh : Int) = 12
      · rw [if_neg (fun h => h.2 h12), if_neg (fun h => absurd h.1 (by decide)), if_pos h12, h12]
      · rw [if_pos ⟨rfl, h12⟩, if_neg h12]
    rw [hval, hf]
    rfl

/-- C30: for every well-formed 12-hour time string "hh:mm AM" or "hh:mm PM"
with hh in 01..12 and mm in 00..59, `formatTime` returns the equivalent 24-hour
string "HH:mm": 12:mm AM gives 00:mm, hh:mm AM with hh < 12 gives hh:mm,
12:mm PM gives 12:mm, hh:mm PM with hh < 12 gives (hh+12):mm; the resulting
hour is in 0..23 and the minutes are unchanged. -/
theorem C30_formatTime_converts_to_24_hour (hh mm : Nat) (pm : Bool) (h0 : 1 ≤ hh)
    (h1 : hh ≤ 12) (_ : mm ≤ 59) :
    formatTime (time12 hh mm pm) = some (twoDigits (hour24 hh pm) ++ [':'] ++ twoDigits mm) ∧
      hour24 hh pm ≤ 23 ∧
      (hh = 12 → hour24 hh false = 0 ∧ hour24 hh true = 12) ∧
      (hh < 12 → hour24 hh false = hh ∧ hour24 hh true = hh + 12) := by
  refine ⟨formatTime_of_chars hh pm _ _ h0 h1, ?_, ?_, ?_⟩
  · exact hour24_le hh pm h1
  · intro h
    subst h
    exact ⟨rfl, rfl⟩
  · intro h
    unfold hour24
    simp [Nat.ne_of_lt h]

theorem C30_witness :
    1 ≤ 7 ∧ 7 ≤ 12 ∧ 12 ≤ 59 ∧
      formatTime ['0', '7', ':', '1', '2', ' ', 'P', 'M'] = some ['1', '9', ':', '1', '2'] :=
  ⟨by decide, by decide, by decide,
    (C30_formatTime_converts_to_24_hour 7 12 true (by decide) (by decide) (by decide)).1⟩

end Weather
